import Mathlib

/-!
Verification development for the civic-mcp-server staging/query pipeline.

The TypeScript source (src/tools/graphql-tool.ts, src/tools/sql-tool.ts) is
shallowly embedded below: JSON documents become the inductive `JValue`
(object nodes carry a numeric tag modelling JavaScript reference identity),
the Durable Object's embedded SQLite store becomes the explicit `DB` state,
and `Math.random()`-generated name fragments are modelled by an explicit
supply `Nat -> String` consulted at an explicit counter.  All definitions
are executable.
-/

set_option maxRecDepth 10000

namespace CivicMCP

/-- A decoded JSON value.  `jobj` carries a `tag` that models the JavaScript
object reference: two structurally equal objects from different places in a
parsed document have different tags. -/
inductive JValue where
  | jnull
  | jbool (b : Bool)
  | jnum (q : Rat)
  | jstr (s : String)
  | jarr (elems : List JValue)
  | jobj (tag : Nat) (fields : List (String × JValue))

/-- Equality of primitive (scalar) values; compound values compare unequal.
The store only ever compares primary-key cells, which are scalars. -/
def jvalEqPrim : JValue → JValue → Bool
  | .jnull, .jnull => true
  | .jbool a, .jbool b => a == b
  | .jnum a, .jnum b => a == b
  | .jstr a, .jstr b => a == b
  | _, _ => false

/-- Field access `obj.k`: `none` models JavaScript `undefined`. -/
def getField : JValue → String → Option JValue
  | .jobj _ fs, k => fs.lookup k
  | _, _ => none

/-- JavaScript truthiness of a value. -/
def truthy : JValue → Bool
  | .jnull => false
  | .jbool b => b
  | .jnum q => !(q == 0)
  | .jstr s => !(s == "")
  | .jarr _ => true
  | .jobj _ _ => true

/-- Truthiness of a possibly-`undefined` value. -/
def truthyOpt : Option JValue → Bool
  | none => false
  | some v => truthy v

/-- JavaScript `typeof v === 'object'` (true for null, arrays and objects). -/
def typeofObject : JValue → Bool
  | .jnull => true
  | .jarr _ => true
  | .jobj _ _ => true
  | _ => false

def isArray : JValue → Bool
  | .jarr _ => true
  | _ => false

def isObjNode : JValue → Bool
  | .jobj _ _ => true
  | _ => false

/-! ## Character and string helpers (ASCII fragment of the JS semantics) -/

/-- Whitespace as used by `String.prototype.trim` and the regex class `\s`
(ASCII fragment; the staged SQL text is ASCII). -/
def isWSChar (c : Char) : Bool :=
  c == ' ' || c == '\t' || c == '\n' || c == '\r' || c == '\x0b' || c == '\x0c'

/-- The regex word-character class `\w` = `[A-Za-z0-9_]`. -/
def isWordChar (c : Char) : Bool := c.isAlphanum || c == '_'

/-- `startsWithL pat s` holds when `s` begins with `pat`. -/
def startsWithL : List Char → List Char → Bool
  | [], _ => true
  | _ :: _, [] => false
  | a :: as, b :: bs => a == b && startsWithL as bs

/-- `dropStart pat s = some r` iff `s = pat ++ r`. -/
def dropStart : List Char → List Char → Option (List Char)
  | [], s => some s
  | _ :: _, [] => none
  | a :: as, b :: bs => if a == b then dropStart as bs else none

/-- Substring containment, as `String.prototype.includes`. -/
def containsSub (needle : List Char) : List Char → Bool
  | [] => needle.isEmpty
  | c :: t => startsWithL needle (c :: t) || containsSub needle t

def trimLeftChars (cs : List Char) : List Char := cs.dropWhile isWSChar

def trimRightChars (cs : List Char) : List Char :=
  (cs.reverse.dropWhile isWSChar).reverse

/-- `sql.trim().toLowerCase()` on the underlying character list. -/
def jsTrimLower (s : String) : List Char :=
  (trimRightChars (trimLeftChars s.data)).map Char.toLower

/-! ## SQL Gatekeeper (`JsonToSqlDO.validateAnalyticalSql`) -/

/-- The allowed query starters, verbatim from the source. -/
def allowedStarters : List String :=
  [ "select",
    "with",
    "pragma",
    "explain",
    "create temporary table",
    "create temp table",
    "create view",
    "create temporary view",
    "create temp view",
    "drop view",
    "drop temporary table",
    "drop temp table" ]

/-- Does `"temp"` begin here?  Implements the negative lookahead
`(?!temp|temporary)` (the `temporary` alternative is subsumed by `temp`). -/
def tempAfter (rest : List Char) : Bool := startsWithL "temp".data rest

/-- Matcher for `\bW1\s+W2\s+(?!temp|temporary)` at the current position of
an already lower-cased text (the word-boundary test is done by the caller).
Backtracking over the trailing `\s+` succeeds unless the whitespace run has
length one and is directly followed by `temp`. -/
def matchKwKwNeg (w1 w2 : List Char) (s : List Char) : Bool :=
  (dropStart w1 s).elim false fun r1 =>
    ((r1.takeWhile isWSChar).length != 0)
    && (dropStart w2 (r1.dropWhile isWSChar)).elim false fun r2 =>
      let m := (r2.takeWhile isWSChar).length
      let rest := r2.dropWhile isWSChar
      decide (0 < m) && (decide (2 ≤ m) || !tempAfter rest)

/-- Matcher for `\bW1\s+W2` at the current position. -/
def matchKwKw (w1 w2 : List Char) (s : List Char) : Bool :=
  (dropStart w1 s).elim false fun r1 =>
    ((r1.takeWhile isWSChar).length != 0) && startsWithL w2 (r1.dropWhile isWSChar)

/-- Matcher for `\bupdate\s+\w+\s+set` at the current position. -/
def matchUpdateSet (s : List Char) : Bool :=
  (dropStart "update".data s).elim false fun r1 =>
    ((r1.takeWhile isWSChar).length != 0)
    && (let r2 := r1.dropWhile isWSChar
        ((r2.takeWhile isWordChar).length != 0)
        && (let r3 := r2.dropWhile isWordChar
            ((r3.takeWhile isWSChar).length != 0)
            && startsWithL "set".data (r3.dropWhile isWSChar)))

/-- Scan every position of `s` whose predecessor is not a word character
(the `\b` of the patterns, whose first character is always a word character)
and try the position matcher there. -/
def scanAux (p : List Char → Bool) : Bool → List Char → Bool
  | _, [] => false
  | prevWord, c :: rest =>
    (!prevWord && p (c :: rest)) || scanAux p (isWordChar c) rest

/-- Run a position matcher over the lower-cased text of `s` (the source
patterns all carry the `i` flag). -/
def scanLower (p : List Char → Bool) (s : String) : Bool :=
  scanAux p false (s.data.map Char.toLower)

/-- The blocked patterns with their regex sources, in source order. -/
def blockedPatterns : List (String × (List Char → Bool)) :=
  [ ("\\bdrop\\s+table\\s+(?!temp|temporary)", matchKwKwNeg "drop".data "table".data),
    ("\\bdelete\\s+from", matchKwKw "delete".data "from".data),
    ("\\bupdate\\s+\\w+\\s+set", matchUpdateSet),
    ("\\binsert\\s+into\\s+(?!temp|temporary)", matchKwKwNeg "insert".data "into".data),
    ("\\balter\\s+table", matchKwKw "alter".data "table".data),
    ("\\bcreate\\s+table\\s+(?!temp|temporary)", matchKwKwNeg "create".data "table".data),
    ("\\battach\\s+database", matchKwKw "attach".data "database".data),
    ("\\bdetach\\s+database", matchKwKw "detach".data "database".data) ]

/-- First blocked pattern matching the raw query, if any. -/
def firstBlockedPattern (sql : String) : Option String :=
  (blockedPatterns.find? fun pr => scanLower pr.2 sql).map Prod.fst

structure ValidationResult where
  isValid : Bool
  error : Option String := none
  queryType : Option String := none
deriving DecidableEq

/-- The reported query kind of an accepted query. -/
def classifyQueryType (trimmed : List Char) : String :=
  if startsWithL "with".data trimmed then "cte"
  else if startsWithL "pragma".data trimmed then "pragma"
  else if startsWithL "explain".data trimmed then "explain"
  else if containsSub "create".data trimmed then "create_temp"
  else "select"

/-- `JsonToSqlDO.validateAnalyticalSql`. -/
def validateAnalyticalSql (sql : String) : ValidationResult :=
  let trimmedSql := jsTrimLower sql
  if !(allowedStarters.any fun st => startsWithL st.data trimmedSql) then
    { isValid := false,
      error := some ("Query type not allowed. Permitted operations: "
        ++ String.intercalate ", " allowedStarters) }
  else
    match firstBlockedPattern sql with
    | some src =>
      { isValid := false, error := some ("Operation blocked for security: " ++ src) }
    | none => { isValid := true, queryType := some (classifyQueryType trimmedSql) }

/-! ## The embedded store

The Durable Object's SQLite store is modelled explicitly: a database is a
list of named tables; a table stores its declared columns and its rows; a
row carries its SQLite rowid.  The engines below only ever issue
`CREATE TABLE IF NOT EXISTS`, `INSERT`/`INSERT OR IGNORE` and
`SELECT last_insert_rowid()`, which are modelled as store operations. -/

structure DRow where
  rid : Int
  cells : List (String × JValue)

structure DTable where
  cols : List (String × String)
  rows : List DRow

structure DB where
  tables : List (String × DTable)
  lastRowId : Int

def emptyDB : DB := ⟨[], 0⟩

def rowCountDB (db : DB) (t : String) : Option Nat :=
  (db.tables.lookup t).map fun tb => tb.rows.length

def tableColsDB (db : DB) (t : String) : Option (List String) :=
  (db.tables.lookup t).map fun tb => tb.cols.map Prod.fst

/-- Update the named table in place (first occurrence). -/
def setTable : List (String × DTable) → String → DTable → List (String × DTable)
  | [], _, _ => []
  | (n, tb) :: rest, t, tb' =>
    if n == t then (n, tb') :: rest else (n, tb) :: setTable rest t tb'

/-- `CREATE TABLE IF NOT EXISTS t (cols)`. -/
def dbCreateTableIfNotExists (db : DB) (t : String) (cols : List (String × String)) : DB :=
  match db.tables.lookup t with
  | some _ => db
  | none => { db with tables := db.tables ++ [(t, ⟨cols, []⟩)] }

/-- Does the table declare `id` as its `INTEGER PRIMARY KEY` (rowid alias)? -/
def hasIntegerPk (tb : DTable) : Bool :=
  match tb.cols.lookup "id" with
  | some ty => containsSub "INTEGER PRIMARY KEY".data ty.data
  | none => false

def maxRid (tb : DTable) : Int :=
  tb.rows.foldl (fun m r => max m r.rid) 0

/-- Core insert: models SQLite `INSERT [OR IGNORE] INTO t (cols) VALUES (vals)`.
Fails on a missing table or column; on a primary-key conflict it either
ignores (`orIgnore = true`) or fails.  A successful insert updates
`last_insert_rowid()`. -/
def dbInsert (orIgnore : Bool) (db : DB) (t : String)
    (cells : List (String × JValue)) : Except String DB :=
  match db.tables.lookup t with
  | none => .error ("no such table: " ++ t)
  | some tb =>
    match cells.find? fun c => !(tb.cols.lookup c.1).isSome with
    | some c => .error ("table " ++ t ++ " has no column named " ++ c.1)
    | none =>
      if hasIntegerPk tb then
        match cells.lookup "id" with
        | some idv =>
          match idv with
          | .jnum q =>
            if q.den == 1 then
              if tb.rows.any fun r => r.rid == q.num then
                if orIgnore then .ok db
                else .error ("UNIQUE constraint failed: " ++ t ++ ".id")
              else
                .ok { tables := setTable db.tables t
                        { tb with rows := tb.rows ++ [⟨q.num, cells⟩] },
                      lastRowId := q.num }
            else .error ("datatype mismatch")
          | _ => .error ("datatype mismatch")
        | none =>
          let rid := maxRid tb + 1
          .ok { tables := setTable db.tables t
                  { tb with rows := tb.rows ++ [⟨rid, ("id", .jnum (rid : Rat)) :: cells⟩] },
                lastRowId := rid }
      else
        let rid := maxRid tb + 1
        .ok { tables := setTable db.tables t { tb with rows := tb.rows ++ [⟨rid, cells⟩] },
              lastRowId := rid }

/-! ## `JsonToSqlDO.executeSql`

Caller-supplied analytical SQL is first validated; only then is it handed
to the store.  General query execution is abstracted as a `QueryRunner`
(any function from a query string and a database to a result and a new
database), since the claims about `executeSql` concern the gate, not the
SQL dialect. -/

structure QueryOut where
  results : List (List (String × JValue))
  columnNames : List String

structure SqlResponse where
  success : Bool
  results : List (List (String × JValue)) := []
  row_count : Nat := 0
  column_names : List String := []
  query_type : Option String := none
  error : Option String := none
  query : Option String := none

def QueryRunner := String → DB → Except String QueryOut × DB

/-- The post-validation part of `executeSql`: run the query against the
store and package the result (the `catch` branch packages a store error). -/
def runValidatedQuery (run : QueryRunner) (db : DB) (q : String)
    (qt : Option String) : SqlResponse × DB :=
  match run q db with
  | (.ok out, db') =>
    ({ success := true, results := out.results, row_count := out.results.length,
       column_names := out.columnNames, query_type := qt }, db')
  | (.error e, db') => ({ success := false, error := some e, query := some q }, db')

/-- `JsonToSqlDO.executeSql`: a validation failure is thrown and caught
before any statement reaches the store. -/
def executeSql (run : QueryRunner) (db : DB) (q : String) : SqlResponse × DB :=
  let v := validateAnalyticalSql q
  if v.isValid then runValidatedQuery run db q v.queryType
  else ({ success := false, error := v.error, query := some q }, db)

/-! ## Gatekeeper lemmas -/

theorem startsWithL_append_false {pat pre : List Char} (h1 : startsWithL pat pre = false)
    (h2 : startsWithL pre pat = false) (suf : List Char) :
    startsWithL pat (pre ++ suf) = false := by
  induction pat generalizing pre with
  | nil => simp [startsWithL] at h1
  | cons a as ih =>
    cases pre with
    | nil => simp [startsWithL] at h2
    | cons b bs =>
      simp only [List.cons_append, startsWithL] at h1 h2 ⊢
      by_cases hab : a = b
      · subst hab
        simp only [beq_self_eq_true, Bool.true_and] at h1 h2 ⊢
        exact ih h1 h2
      · simp [beq_false_of_ne hab]

theorem trimRightChars_append {A l2 : List Char} {c : Char} (hc : isWSChar c = false) :
    trimRightChars ((A ++ [c]) ++ l2) = (A ++ [c]) ++ trimRightChars l2 := by
  unfold trimRightChars
  rw [List.reverse_append, List.reverse_append, List.dropWhile_append]
  by_cases h : (List.dropWhile isWSChar l2.reverse).isEmpty
  · simp only [h, if_pos]
    simp [List.dropWhile_cons, hc, List.isEmpty_iff.mp h]
  · simp only [h, if_neg, Bool.false_eq_true, not_false_iff]
    simp [List.reverse_append]

theorem jsTrimLower_deleteFrom (t : String) :
    jsTrimLower ("DELETE FROM " ++ t) =
      "delete from".data ++ (trimRightChars (' ' :: t.data)).map Char.toLower := by
  unfold jsTrimLower trimLeftChars
  rw [String.data_append]
  have h0 : "DELETE FROM ".data ++ t.data = 'D' :: ("ELETE FROM ".data ++ t.data) := by
    have : "DELETE FROM ".data = 'D' :: "ELETE FROM ".data := by decide
    rw [this]; rfl
  rw [h0, List.dropWhile_cons]
  have hD : isWSChar 'D' = false := by decide
  rw [hD]
  simp only [Bool.false_eq_true, if_false]
  have h1 : 'D' :: ("ELETE FROM ".data ++ t.data)
      = ("DELETE FRO".data ++ ['M']) ++ (' ' :: t.data) := by
    have : "ELETE FROM ".data = "ELETE FRO".data ++ ['M', ' '] := by decide
    rw [this]; simp
  rw [h1, trimRightChars_append (by decide)]
  rw [List.map_append]
  have h2 : ("DELETE FRO".data ++ ['M']).map Char.toLower = "delete from".data := by decide
  rw [h2]

theorem no_starter_deleteFrom (suf : List Char) :
    (allowedStarters.any fun st => startsWithL st.data ("delete from".data ++ suf)) = false := by
  simp only [allowedStarters, List.any_cons, List.any_nil, Bool.or_eq_false_iff]
  refine ⟨?_, ?_, ?_, ?_, ?_, ?_, ?_, ?_, ?_, ?_, ?_, ?_, trivial⟩ <;>
    exact startsWithL_append_false (by decide) (by decide) suf

theorem validate_deleteFrom (t : String) :
    validateAnalyticalSql ("DELETE FROM " ++ t) =
      { isValid := false,
        error := some ("Query type not allowed. Permitted operations: "
          ++ String.intercalate ", " allowedStarters) } := by
  have hany : (allowedStarters.any fun st =>
      startsWithL st.data (jsTrimLower ("DELETE FROM " ++ t))) = false := by
    rw [jsTrimLower_deleteFrom]; exact no_starter_deleteFrom _
  simp only [validateAnalyticalSql, hany, Bool.not_false, if_true]

/-- C5: for every staged dataset and every table-name string `t`, calling
`executeSql` with `"DELETE FROM t"` returns a structured failure carrying
`success:false`, an error message and the offending query, without executing
anything against the store: the database is unchanged, so every table's row
count is identical before and after the call. -/
theorem C5_delete_from_rejected_no_side_effects (run : QueryRunner) (db : DB) (t : String) :
    (executeSql run db ("DELETE FROM " ++ t)).1.success = false
    ∧ (executeSql run db ("DELETE FROM " ++ t)).1.error.isSome = true
    ∧ (executeSql run db ("DELETE FROM " ++ t)).1.query = some ("DELETE FROM " ++ t)
    ∧ (executeSql run db ("DELETE FROM " ++ t)).2 = db
    ∧ ∀ tbl, rowCountDB (executeSql run db ("DELETE FROM " ++ t)).2 tbl
        = rowCountDB db tbl := by
  have hv := validate_deleteFrom t
  unfold executeSql
  rw [hv]
  exact ⟨rfl, rfl, rfl, rfl, fun _ => rfl⟩

/-- C6: the gatekeeper rejects `"SELECT 1; DROP TABLE foo;"` (the result of
`executeSql` is a failure), while `"WITH c AS (SELECT 1) SELECT * FROM c"`
and `"PRAGMA table_info(x)"` validate successfully and are passed on to the
store, classified as `cte` resp. `pragma`. -/
theorem C6_gatekeeper_examples (run : QueryRunner) (db : DB) :
    (validateAnalyticalSql "SELECT 1; DROP TABLE foo;").isValid = false
    ∧ (executeSql run db "SELECT 1; DROP TABLE foo;").1.success = false
    ∧ (executeSql run db "SELECT 1; DROP TABLE foo;").2 = db
    ∧ (validateAnalyticalSql "WITH c AS (SELECT 1) SELECT * FROM c").isValid = true
    ∧ executeSql run db "WITH c AS (SELECT 1) SELECT * FROM c"
        = runValidatedQuery run db "WITH c AS (SELECT 1) SELECT * FROM c" (some "cte")
    ∧ (validateAnalyticalSql "PRAGMA table_info(x)").isValid = true
    ∧ executeSql run db "PRAGMA table_info(x)"
        = runValidatedQuery run db "PRAGMA table_info(x)" (some "pragma") := by
  have h1 : validateAnalyticalSql "SELECT 1; DROP TABLE foo;"
      = { isValid := false,
          error := some ("Operation blocked for security: "
            ++ "\\bdrop\\s+table\\s+(?!temp|temporary)") } := by decide
  have h2 : validateAnalyticalSql "WITH c AS (SELECT 1) SELECT * FROM c"
      = { isValid := true, queryType := some "cte" } := by decide
  have h3 : validateAnalyticalSql "PRAGMA table_info(x)"
      = { isValid := true, queryType := some "pragma" } := by decide
  refine ⟨by rw [h1], ?_, ?_, by rw [h2], ?_, by rw [h3], ?_⟩
  · unfold executeSql; rw [h1]; rfl
  · unfold executeSql; rw [h1]; rfl
  · unfold executeSql; rw [h2]; rfl
  · unfold executeSql; rw [h3]; rfl

/-! ## Declarative reading of the gatekeeper

The executable scanner above is proven equivalent to the textbook reading
of the regular expressions: an existential decomposition of the (lowered)
query text into a boundary prefix, the keywords, nonempty whitespace runs,
and - for the `(?!temp|temporary)` patterns - a residue not starting with
`temp`. -/

/-- All characters whitespace. -/
def wsAll (u : List Char) : Prop := ∀ c ∈ u, isWSChar c = true

/-- The `\b` condition at the border between `pre` and the match, where
`prevWord` tells whether the virtual character before `pre` is a word
character. -/
def BoundaryOk (prevWord : Bool) (pre : List Char) : Prop :=
  match pre.getLast? with
  | none => prevWord = false
  | some c => isWordChar c = false

/-- Position semantics of `\bW1\s+W2`. -/
def PosKwKw (w1 w2 suf : List Char) : Prop :=
  ∃ u rest, suf = w1 ++ u ++ w2 ++ rest ∧ u ≠ [] ∧ wsAll u

/-- Position semantics of `\bW1\s+W2\s+(?!temp|temporary)`. -/
def PosKwKwNeg (w1 w2 suf : List Char) : Prop :=
  ∃ u v rest, suf = w1 ++ u ++ w2 ++ v ++ rest ∧ u ≠ [] ∧ wsAll u
    ∧ v ≠ [] ∧ wsAll v ∧ tempAfter rest = false

/-- Position semantics of `\bupdate\s+\w+\s+set`. -/
def PosUpdateSet (suf : List Char) : Prop :=
  ∃ u w v rest, suf = "update".data ++ u ++ w ++ v ++ "set".data ++ rest
    ∧ u ≠ [] ∧ wsAll u ∧ w ≠ [] ∧ (∀ c ∈ w, isWordChar c = true) ∧ v ≠ [] ∧ wsAll v

/-- A pattern with position semantics `P` matches the lowered text of `sql`
somewhere after a word boundary. -/
def MatchesIn (P : List Char → Prop) (sql : String) : Prop :=
  ∃ pre suf, sql.data.map Char.toLower = pre ++ suf ∧ BoundaryOk false pre ∧ P suf

/-- Declarative version of the blocked-pattern test, in source order. -/
def BlockedSpec (sql : String) : Prop :=
  MatchesIn (PosKwKwNeg "drop".data "table".data) sql
  ∨ MatchesIn (PosKwKw "delete".data "from".data) sql
  ∨ MatchesIn PosUpdateSet sql
  ∨ MatchesIn (PosKwKwNeg "insert".data "into".data) sql
  ∨ MatchesIn (PosKwKw "alter".data "table".data) sql
  ∨ MatchesIn (PosKwKwNeg "create".data "table".data) sql
  ∨ MatchesIn (PosKwKw "attach".data "database".data) sql
  ∨ MatchesIn (PosKwKw "detach".data "database".data) sql

/-- Declarative acceptance: the trimmed lower-cased query extends one of the
allowed starters, and no blocked pattern matches the raw query. -/
def GateAcceptsSpec (sql : String) : Prop :=
  (∃ st ∈ allowedStarters, ∃ rest, jsTrimLower sql = st.data ++ rest)
    ∧ ¬ BlockedSpec sql

theorem startsWithL_iff {pat s : List Char} :
    startsWithL pat s = true ↔ ∃ rest, s = pat ++ rest := by
  induction pat generalizing s with
  | nil => simp [startsWithL]
  | cons a as ih =>
    cases s with
    | nil => simp [startsWithL]
    | cons b bs =>
      simp only [startsWithL, Bool.and_eq_true, beq_iff_eq, ih, List.cons_append,
        List.cons.injEq]
      constructor
      · rintro ⟨rfl, rest, rfl⟩; exact ⟨rest, rfl, rfl⟩
      · rintro ⟨rest, rfl, rfl⟩; exact ⟨rfl, rest, rfl⟩

theorem dropStart_iff {pat s r : List Char} :
    dropStart pat s = some r ↔ s = pat ++ r := by
  induction pat generalizing s with
  | nil => simp [dropStart]
  | cons a as ih =>
    cases s with
    | nil => simp [dropStart]
    | cons b bs =>
      by_cases hab : a = b
      · subst hab
        simp [dropStart, ih]
      · simp only [dropStart, beq_false_of_ne hab, Bool.false_eq_true, if_false,
          List.cons_append, List.cons.injEq]
        constructor
        · intro h; exact Option.noConfusion h
        · rintro ⟨h1, -⟩; exact absurd h1.symm hab

theorem takeWhile_append_of_all {p : Char → Bool} {u x : List Char}
    (hu : ∀ c ∈ u, p c = true) :
    (u ++ x).takeWhile p = u ++ x.takeWhile p := by
  induction u with
  | nil => simp
  | cons c cs ih =>
    simp only [List.cons_append, List.takeWhile_cons, hu c (by simp), if_true]
    rw [ih fun d hd => hu d (by simp [hd])]

theorem dropWhile_append_of_all {p : Char → Bool} {u x : List Char}
    (hu : ∀ c ∈ u, p c = true) :
    (u ++ x).dropWhile p = x.dropWhile p := by
  induction u with
  | nil => simp
  | cons c cs ih =>
    simp only [List.cons_append, List.dropWhile_cons, hu c (by simp), if_true]
    exact ih fun d hd => hu d (by simp [hd])

theorem takeWhile_all {p : Char → Bool} (s : List Char) :
    ∀ c ∈ s.takeWhile p, p c = true := fun _ h => List.mem_takeWhile_imp h

/-- Decompose a list into its `takeWhile`/`dropWhile` parts. -/
theorem takeWhile_append_dropWhile_eq (p : Char → Bool) (s : List Char) :
    s.takeWhile p ++ s.dropWhile p = s := List.takeWhile_append_dropWhile p s

theorem head_dropWhile_false {p : Char → Bool} {s : List Char} {c : Char} {x : List Char}
    (h : s.dropWhile p = c :: x) : p c = false := by
  have hne : s.dropWhile p ≠ [] := by simp [h]
  have h2 := List.head_dropWhile_not p s hne
  simp only [h, List.head_cons] at h2
  exact h2

end CivicMCP

namespace CivicMCP

theorem matchKwKw_iff {w1 w2 suf : List Char}
    (hw2 : w2 ≠ [] ∧ isWSChar (w2.headD ' ') = false) :
    matchKwKw w1 w2 suf = true ↔ PosKwKw w1 w2 suf := by
  constructor
  · intro h
    unfold matchKwKw at h
    cases h1 : dropStart w1 suf with
    | none => rw [h1] at h; simp [Option.elim] at h
    | some r1 =>
      rw [h1] at h
      simp only [Option.elim, bne_iff_ne, ne_eq, Bool.and_eq_true] at h
      obtain ⟨hn1, hsw⟩ := h
      obtain ⟨rest, hrest⟩ := startsWithL_iff.mp hsw
      refine ⟨r1.takeWhile isWSChar, rest, ?_, ?_, takeWhile_all r1⟩
      · rw [dropStart_iff.mp h1]
        conv_lhs => rw [← takeWhile_append_dropWhile_eq isWSChar r1, hrest]
        simp [List.append_assoc]
      · intro hnil
        exact hn1 (by simp [hnil])
  · rintro ⟨u, rest, hsuf, hune, hu⟩
    obtain ⟨c, w2', rfl⟩ : ∃ c w2', w2 = c :: w2' := by
      cases w2 with
      | nil => exact absurd rfl hw2.1
      | cons c w2' => exact ⟨c, w2', rfl⟩
    have hc : isWSChar c = false := by simpa using hw2.2
    have h1 : dropStart w1 suf = some (u ++ ((c :: w2') ++ rest)) := by
      rw [dropStart_iff, hsuf]; simp [List.append_assoc]
    unfold matchKwKw
    rw [h1]
    simp only [Option.elim]
    rw [takeWhile_append_of_all hu, dropWhile_append_of_all hu]
    simp only [List.cons_append, List.takeWhile_cons, List.dropWhile_cons, hc]
    simp only [Bool.false_eq_true, if_false]
    rw [Bool.and_eq_true]
    refine ⟨?_, startsWithL_iff.mpr ⟨rest, rfl⟩⟩
    simpa using hune

theorem ws_not_word {c : Char} (h : isWSChar c = true) : isWordChar c = false := by
  unfold isWSChar at h
  simp only [Bool.or_eq_true, beq_iff_eq] at h
  rcases h with ((((rfl | rfl) | rfl) | rfl) | rfl) | rfl <;> decide

theorem tempAfter_cons_ws {c : Char} {x : List Char} (h : isWSChar c = true) :
    tempAfter (c :: x) = false := by
  have hct : ('t' == c) = false := by
    rcases hc : ('t' == c) with _ | _
    · rfl
    · rw [beq_iff_eq] at hc; rw [← hc] at h; exact absurd h (by decide)
  unfold tempAfter
  have hd : "temp".data = 't' :: "emp".data := rfl
  rw [hd]
  simp [startsWithL, hct]

theorem dropWhile_eq_self_of_takeWhile_nil {p : Char → Bool} {l : List Char}
    (h : l.takeWhile p = []) : l.dropWhile p = l := by
  conv_rhs => rw [← takeWhile_append_dropWhile_eq p l]
  rw [h, List.nil_append]

/-- The trailing `\s+(?!temp|temporary)`: the executable maximal-run test is
equivalent to the existence of a backtracking split. -/
theorem trailingNeg_iff (r2 : List Char) :
    (0 < (r2.takeWhile isWSChar).length
      ∧ (2 ≤ (r2.takeWhile isWSChar).length
          ∨ tempAfter (r2.dropWhile isWSChar) = false))
    ↔ ∃ v rest, r2 = v ++ rest ∧ v ≠ [] ∧ wsAll v ∧ tempAfter rest = false := by
  constructor
  · rintro ⟨hm, hdisj⟩
    by_cases htemp : tempAfter (r2.dropWhile isWSChar) = false
    · refine ⟨r2.takeWhile isWSChar, r2.dropWhile isWSChar,
        (takeWhile_append_dropWhile_eq isWSChar r2).symm, ?_, takeWhile_all r2, htemp⟩
      intro hnil; rw [hnil] at hm; simp at hm
    · have h2 : 2 ≤ (r2.takeWhile isWSChar).length := by
        rcases hdisj with h | h
        · exact h
        · exact absurd h htemp
      obtain ⟨c1, c2, R', hR⟩ : ∃ c1 c2 R', r2.takeWhile isWSChar = c1 :: c2 :: R' := by
        cases hR : r2.takeWhile isWSChar with
        | nil => rw [hR] at h2; simp at h2
        | cons a t =>
          cases t with
          | nil => rw [hR] at h2; simp at h2
          | cons b R0 => exact ⟨a, b, R0, rfl⟩
      refine ⟨[c1], c2 :: R' ++ r2.dropWhile isWSChar, ?_, by simp, ?_, ?_⟩
      · conv_lhs => rw [← takeWhile_append_dropWhile_eq isWSChar r2, hR]
        simp
      · intro c hc
        simp only [List.mem_singleton] at hc
        rw [hc]
        exact takeWhile_all r2 c1 (by rw [hR]; simp)
      · have hc2 : isWSChar c2 = true := takeWhile_all r2 c2 (by rw [hR]; simp)
        exact tempAfter_cons_ws hc2
  · rintro ⟨v, rest, rfl, hvne, hv, htemp⟩
    rw [takeWhile_append_of_all hv, dropWhile_append_of_all hv]
    constructor
    · have hv1 : 0 < v.length := by
        cases v with
        | nil => exact absurd rfl hvne
        | cons _ _ => simp
      calc 0 < v.length := hv1
        _ ≤ v.length + (rest.takeWhile isWSChar).length := Nat.le_add_right _ _
        _ = (v ++ rest.takeWhile isWSChar).length := (List.length_append _ _).symm
    · cases hT : rest.takeWhile isWSChar with
      | nil =>
        right
        rw [dropWhile_eq_self_of_takeWhile_nil hT]
        exact htemp
      | cons c t =>
        left
        have hv1 : 1 ≤ v.length := by
          cases v with
          | nil => exact absurd rfl hvne
          | cons _ _ => simp
        simp only [List.length_append, List.length_cons]
        omega

theorem matchKwKwNeg_iff {w1 w2 suf : List Char}
    (hw2 : w2 ≠ [] ∧ isWSChar (w2.headD ' ') = false) :
    matchKwKwNeg w1 w2 suf = true ↔ PosKwKwNeg w1 w2 suf := by
  obtain ⟨c, w2', rfl⟩ : ∃ c w2', w2 = c :: w2' := by
    cases w2 with
    | nil => exact absurd rfl hw2.1
    | cons c w2' => exact ⟨c, w2', rfl⟩
  have hc : isWSChar c = false := by simpa using hw2.2
  constructor
  · intro h
    unfold matchKwKwNeg at h
    cases h1 : dropStart w1 suf with
    | none => rw [h1] at h; simp [Option.elim] at h
    | some r1 =>
      rw [h1] at h
      simp only [Option.elim, Bool.and_eq_true, bne_iff_ne, ne_eq] at h
      obtain ⟨hn1, h2⟩ := h
      cases h3 : dropStart (c :: w2') (r1.dropWhile isWSChar) with
      | none => rw [h3] at h2; simp [Option.elim] at h2
      | some r2 =>
        rw [h3] at h2
        simp only [Option.elim, Bool.and_eq_true, Bool.or_eq_true, decide_eq_true_eq,
          Bool.not_eq_true'] at h2
        obtain ⟨v, rest, hr2, hvne, hv, htemp⟩ := (trailingNeg_iff r2).mp h2
        refine ⟨r1.takeWhile isWSChar, v, rest, ?_, ?_, takeWhile_all r1, hvne, hv, htemp⟩
        · rw [dropStart_iff.mp h1]
          conv_lhs => rw [← takeWhile_append_dropWhile_eq isWSChar r1,
            dropStart_iff.mp h3, hr2]
          simp [List.append_assoc]
        · intro hnil; exact hn1 (by simp [hnil])
  · rintro ⟨u, v, rest, hsuf, hune, hu, hvne, hv, htemp⟩
    have h1 : dropStart w1 suf = some (u ++ ((c :: w2') ++ (v ++ rest))) := by
      rw [dropStart_iff, hsuf]; simp [List.append_assoc]
    unfold matchKwKwNeg
    rw [h1]
    simp only [Option.elim]
    rw [takeWhile_append_of_all hu, dropWhile_append_of_all hu]
    simp only [List.cons_append, List.takeWhile_cons, List.dropWhile_cons, hc]
    simp only [Bool.false_eq_true, if_false]
    rw [Bool.and_eq_true]
    refine ⟨by simpa using hune, ?_⟩
    have h3 : dropStart (c :: w2') (c :: (w2' ++ (v ++ rest))) = some (v ++ rest) := by
      rw [dropStart_iff]; simp
    rw [h3]
    simp only [Option.elim, Bool.and_eq_true, Bool.or_eq_true, decide_eq_true_eq,
      Bool.not_eq_true']
    exact (trailingNeg_iff (v ++ rest)).mpr ⟨v, rest, rfl, hvne, hv, htemp⟩

/-- A run of `p`-characters followed by a residue not starting with a
`p`-character is exactly what `takeWhile`/`dropWhile` recover. -/
theorem munch_run (p : Char → Bool) {u x : List Char}
    (hu : ∀ c ∈ u, p c = true) (hx : ∀ c t, x = c :: t → p c = false) :
    (u ++ x).takeWhile p = u ∧ (u ++ x).dropWhile p = x := by
  rw [takeWhile_append_of_all hu, dropWhile_append_of_all hu]
  cases x with
  | nil => simp
  | cons c t =>
    have hc := hx c t rfl
    simp [List.takeWhile_cons, List.dropWhile_cons, hc]

theorem matchUpdateSet_iff {suf : List Char} :
    matchUpdateSet suf = true ↔ PosUpdateSet suf := by
  constructor
  · intro h
    unfold matchUpdateSet at h
    cases h1 : dropStart "update".data suf with
    | none => rw [h1] at h; simp [Option.elim] at h
    | some r1 =>
      rw [h1] at h
      simp only [Option.elim, Bool.and_eq_true, bne_iff_ne, ne_eq] at h
      obtain ⟨hn1, hw, hn2, hsw⟩ := h
      obtain ⟨rest, hrest⟩ := startsWithL_iff.mp hsw
      refine ⟨r1.takeWhile isWSChar,
        (r1.dropWhile isWSChar).takeWhile isWordChar,
        ((r1.dropWhile isWSChar).dropWhile isWordChar).takeWhile isWSChar,
        rest, ?_, ?_, takeWhile_all r1, ?_,
        (fun c hc => List.mem_takeWhile_imp hc), ?_,
        takeWhile_all ((r1.dropWhile isWSChar).dropWhile isWordChar)⟩
      · rw [dropStart_iff.mp h1]
        conv_lhs => rw [← takeWhile_append_dropWhile_eq isWSChar r1]
        conv_lhs => rw [← takeWhile_append_dropWhile_eq isWordChar (r1.dropWhile isWSChar)]
        conv_lhs => rw [← takeWhile_append_dropWhile_eq isWSChar
          ((r1.dropWhile isWSChar).dropWhile isWordChar), hrest]
        simp [List.append_assoc]
      · intro hnil; exact hn1 (by simp [hnil])
      · intro hnil; exact hw (by simp [hnil])
      · intro hnil; exact hn2 (by simp [hnil])
  · rintro ⟨u, w, v, rest, hsuf, hune, hu, hwne, hword, hvne, hv⟩
    have h1 : dropStart "update".data suf
        = some (u ++ (w ++ (v ++ ("set".data ++ rest)))) := by
      rw [dropStart_iff, hsuf]; simp [List.append_assoc]
    have hwheadws : ∀ c t, w ++ (v ++ ("set".data ++ rest)) = c :: t
        → isWSChar c = false := by
      intro c t hct
      cases w with
      | nil => exact absurd rfl hwne
      | cons cw w' =>
        rw [List.cons_append] at hct
        injection hct with h1 _
        have hcw : isWordChar c = true := h1 ▸ hword cw (by simp)
        rcases hws : isWSChar c with _ | _
        · rfl
        · rw [ws_not_word hws] at hcw; exact absurd hcw (by decide)
    have hvheadw : ∀ c t, v ++ ("set".data ++ rest) = c :: t
        → isWordChar c = false := by
      intro c t hct
      cases v with
      | nil => exact absurd rfl hvne
      | cons cv v' =>
        rw [List.cons_append] at hct
        injection hct with h1 _
        exact ws_not_word (h1 ▸ hv cv (by simp))
    have hsheadws : ∀ c t, "set".data ++ rest = c :: t → isWSChar c = false := by
      intro c t hct
      rw [show "set".data ++ rest = 's' :: ("et".data ++ rest) from rfl] at hct
      injection hct with h1 _
      subst h1
      rfl
    have hA := munch_run isWSChar hu hwheadws
    have hB := munch_run isWordChar hword hvheadw
    have hC := munch_run isWSChar hv hsheadws
    unfold matchUpdateSet
    rw [h1]
    simp only [Option.elim]
    rw [hA.1, hA.2, hB.1, hB.2, hC.1, hC.2]
    rw [Bool.and_eq_true, Bool.and_eq_true, Bool.and_eq_true]
    refine ⟨by simpa using hune, by simpa using hwne, by simpa using hvne, ?_⟩
    exact startsWithL_iff.mpr ⟨rest, rfl⟩

theorem boundary_cons {pw : Bool} {c : Char} {pre : List Char} :
    BoundaryOk pw (c :: pre) ↔ BoundaryOk (isWordChar c) pre := by
  cases pre with
  | nil => simp [BoundaryOk]
  | cons d t =>
    unfold BoundaryOk
    rw [List.getLast?_cons_cons]
    cases hX : (d :: t).getLast? with
    | none => simp at hX
    | some e => simp

theorem scanAux_iff {p : List Char → Bool} (hp : p [] = false) :
    ∀ (s : List Char) (prevWord : Bool),
    scanAux p prevWord s = true
      ↔ ∃ pre suf, s = pre ++ suf ∧ BoundaryOk prevWord pre ∧ p suf = true := by
  intro s
  induction s with
  | nil =>
    intro prevWord
    simp only [scanAux, Bool.false_eq_true, false_iff]
    rintro ⟨pre, suf, h, _, hps⟩
    obtain ⟨rfl, rfl⟩ := List.append_eq_nil.mp h.symm
    rw [hp] at hps
    exact Bool.false_ne_true hps
  | cons c rest ih =>
    intro prevWord
    simp only [scanAux, Bool.or_eq_true, Bool.and_eq_true, Bool.not_eq_true']
    rw [ih (isWordChar c)]
    constructor
    · rintro (⟨hpw, hpc⟩ | ⟨pre, suf, hrest, hb, hps⟩)
      · exact ⟨[], c :: rest, rfl, by simp [BoundaryOk, hpw], hpc⟩
      · exact ⟨c :: pre, suf, by rw [List.cons_append, ← hrest],
          boundary_cons.mpr hb, hps⟩
    · rintro ⟨pre, suf, hsplit, hb, hps⟩
      cases pre with
      | nil =>
        simp only [List.nil_append] at hsplit
        subst hsplit
        left
        have hpw : prevWord = false := by simpa [BoundaryOk] using hb
        exact ⟨hpw, hps⟩
      | cons d pre' =>
        rw [List.cons_append] at hsplit
        injection hsplit with hdc hsplit'
        subst hdc
        right
        exact ⟨pre', suf, hsplit', boundary_cons.mp hb, hps⟩

theorem scanLower_iff {p : List Char → Bool} (hp : p [] = false)
    {P : List Char → Prop} (hP : ∀ suf, p suf = true ↔ P suf) (sql : String) :
    scanLower p sql = true ↔ MatchesIn P sql := by
  unfold scanLower MatchesIn
  rw [scanAux_iff hp]
  constructor <;> rintro ⟨pre, suf, h1, h2, h3⟩
  · exact ⟨pre, suf, h1, h2, (hP suf).mp h3⟩
  · exact ⟨pre, suf, h1, h2, (hP suf).mpr h3⟩

theorem scan_drop_table_iff (sql : String) :
    scanLower (matchKwKwNeg "drop".data "table".data) sql = true
      ↔ MatchesIn (PosKwKwNeg "drop".data "table".data) sql :=
  scanLower_iff (by decide) (fun _ => matchKwKwNeg_iff ⟨by decide, by decide⟩) sql

theorem scan_delete_from_iff (sql : String) :
    scanLower (matchKwKw "delete".data "from".data) sql = true
      ↔ MatchesIn (PosKwKw "delete".data "from".data) sql :=
  scanLower_iff (by decide) (fun _ => matchKwKw_iff ⟨by decide, by decide⟩) sql

theorem scan_update_set_iff (sql : String) :
    scanLower matchUpdateSet sql = true ↔ MatchesIn PosUpdateSet sql :=
  scanLower_iff (by decide) (fun _ => matchUpdateSet_iff) sql

theorem scan_insert_into_iff (sql : String) :
    scanLower (matchKwKwNeg "insert".data "into".data) sql = true
      ↔ MatchesIn (PosKwKwNeg "insert".data "into".data) sql :=
  scanLower_iff (by decide) (fun _ => matchKwKwNeg_iff ⟨by decide, by decide⟩) sql

theorem scan_alter_table_iff (sql : String) :
    scanLower (matchKwKw "alter".data "table".data) sql = true
      ↔ MatchesIn (PosKwKw "alter".data "table".data) sql :=
  scanLower_iff (by decide) (fun _ => matchKwKw_iff ⟨by decide, by decide⟩) sql

theorem scan_create_table_iff (sql : String) :
    scanLower (matchKwKwNeg "create".data "table".data) sql = true
      ↔ MatchesIn (PosKwKwNeg "create".data "table".data) sql :=
  scanLower_iff (by decide) (fun _ => matchKwKwNeg_iff ⟨by decide, by decide⟩) sql

theorem scan_attach_iff (sql : String) :
    scanLower (matchKwKw "attach".data "database".data) sql = true
      ↔ MatchesIn (PosKwKw "attach".data "database".data) sql :=
  scanLower_iff (by decide) (fun _ => matchKwKw_iff ⟨by decide, by decide⟩) sql

theorem scan_detach_iff (sql : String) :
    scanLower (matchKwKw "detach".data "database".data) sql = true
      ↔ MatchesIn (PosKwKw "detach".data "database".data) sql :=
  scanLower_iff (by decide) (fun _ => matchKwKw_iff ⟨by decide, by decide⟩) sql

theorem firstBlocked_none_iff (sql : String) :
    firstBlockedPattern sql = none ↔ ¬ BlockedSpec sql := by
  unfold firstBlockedPattern
  rw [Option.map_eq_none', List.find?_eq_none]
  unfold BlockedSpec
  constructor
  · intro hall hb
    rcases hb with h | h | h | h | h | h | h | h
    · exact hall ("\\bdrop\\s+table\\s+(?!temp|temporary)",
        matchKwKwNeg "drop".data "table".data)
        (by simp [blockedPatterns]) ((scan_drop_table_iff sql).mpr h)
    · exact hall ("\\bdelete\\s+from", matchKwKw "delete".data "from".data)
        (by simp [blockedPatterns]) ((scan_delete_from_iff sql).mpr h)
    · exact hall ("\\bupdate\\s+\\w+\\s+set", matchUpdateSet)
        (by simp [blockedPatterns]) ((scan_update_set_iff sql).mpr h)
    · exact hall ("\\binsert\\s+into\\s+(?!temp|temporary)",
        matchKwKwNeg "insert".data "into".data)
        (by simp [blockedPatterns]) ((scan_insert_into_iff sql).mpr h)
    · exact hall ("\\balter\\s+table", matchKwKw "alter".data "table".data)
        (by simp [blockedPatterns]) ((scan_alter_table_iff sql).mpr h)
    · exact hall ("\\bcreate\\s+table\\s+(?!temp|temporary)",
        matchKwKwNeg "create".data "table".data)
        (by simp [blockedPatterns]) ((scan_create_table_iff sql).mpr h)
    · exact hall ("\\battach\\s+database", matchKwKw "attach".data "database".data)
        (by simp [blockedPatterns]) ((scan_attach_iff sql).mpr h)
    · exact hall ("\\bdetach\\s+database", matchKwKw "detach".data "database".data)
        (by simp [blockedPatterns]) ((scan_detach_iff sql).mpr h)
  · intro hnb pr hpr hscan
    apply hnb
    simp only [blockedPatterns, List.mem_cons, List.not_mem_nil, or_false] at hpr
    rcases hpr with rfl | rfl | rfl | rfl | rfl | rfl | rfl | rfl
    · exact Or.inl ((scan_drop_table_iff sql).mp hscan)
    · exact Or.inr (Or.inl ((scan_delete_from_iff sql).mp hscan))
    · exact Or.inr (Or.inr (Or.inl ((scan_update_set_iff sql).mp hscan)))
    · exact Or.inr (Or.inr (Or.inr (Or.inl ((scan_insert_into_iff sql).mp hscan))))
    · exact Or.inr (Or.inr (Or.inr (Or.inr (Or.inl
        ((scan_alter_table_iff sql).mp hscan)))))
    · exact Or.inr (Or.inr (Or.inr (Or.inr (Or.inr (Or.inl
        ((scan_create_table_iff sql).mp hscan))))))
    · exact Or.inr (Or.inr (Or.inr (Or.inr (Or.inr (Or.inr (Or.inl
        ((scan_attach_iff sql).mp hscan)))))))
    · exact Or.inr (Or.inr (Or.inr (Or.inr (Or.inr (Or.inr (Or.inr
        ((scan_detach_iff sql).mp hscan)))))))

/-- C1 amended: the gatekeeper accepts a query exactly when its trimmed,
lower-cased text starts with one of the source's twelve allowed starters
(which include permanent `create view`/`drop view` and exclude
`drop temp[orary] view`), and the raw text matches none of the source's
eight blocked regular expressions (which also include permanent
`create table`), the regular expressions being read declaratively as
word-boundary/whitespace-run decompositions with the `(?!temp|temporary)`
lookahead. -/
theorem C1_amended_gatekeeper (sql : String) :
    (validateAnalyticalSql sql).isValid = true ↔ GateAcceptsSpec sql := by
  unfold validateAnalyticalSql GateAcceptsSpec
  have hstart : (allowedStarters.any fun st => startsWithL st.data (jsTrimLower sql)) = true
      ↔ ∃ st ∈ allowedStarters, ∃ rest, jsTrimLower sql = st.data ++ rest := by
    rw [List.any_eq_true]
    constructor <;> rintro ⟨st, hmem, h⟩
    · exact ⟨st, hmem, startsWithL_iff.mp h⟩
    · exact ⟨st, hmem, startsWithL_iff.mpr h⟩
  cases hs : (allowedStarters.any fun st => startsWithL st.data (jsTrimLower sql)) with
  | false =>
    simp only [hs, Bool.not_false, if_true]
    constructor
    · intro h; exact absurd h (by simp)
    · rintro ⟨hex, -⟩
      exact absurd (hstart.mpr hex) (by simp [hs])
  | true =>
    simp only [hs, Bool.not_true, Bool.false_eq_true, if_false]
    cases hb : firstBlockedPattern sql with
    | none =>
      simp only [hb]
      constructor
      · intro _
        exact ⟨hstart.mp hs, (firstBlocked_none_iff sql).mp hb⟩
      · intro _; trivial
    | some src =>
      simp only [hb]
      constructor
      · intro h; exact absurd h (by simp)
      · rintro ⟨-, hnb⟩
        exfalso
        apply hnb
        have : ¬ firstBlockedPattern sql = none := by simp [hb]
        by_contra hnb'
        exact this ((firstBlocked_none_iff sql).mpr hnb')

end CivicMCP

namespace CivicMCP

/-- The prefixes the claim says are accepted (spec wording: `select`, `with`,
`pragma`, `explain`, `create temp[orary] table`, `create temp[orary] view`,
`drop temp[orary] table`, `drop temp[orary] view`). -/
def claimStarters : List String :=
  [ "select", "with", "pragma", "explain",
    "create temp table", "create temporary table",
    "create temp view", "create temporary view",
    "drop temp table", "drop temporary table",
    "drop temp view", "drop temporary view" ]

/-- The blocked patterns the claim lists (the code's patterns minus the
permanent `create table` pattern, which the claim omits). -/
def claimBlockedMatch (sql : String) : Bool :=
  scanLower (matchKwKwNeg "drop".data "table".data) sql
  || scanLower (matchKwKw "delete".data "from".data) sql
  || scanLower matchUpdateSet sql
  || scanLower (matchKwKwNeg "insert".data "into".data) sql
  || scanLower (matchKwKw "alter".data "table".data) sql
  || scanLower (matchKwKw "attach".data "database".data) sql
  || scanLower (matchKwKw "detach".data "database".data) sql

/-- Acceptance as described by claim C1 (verbatim reading of the claim). -/
def claimC1Accepts (sql : String) : Bool :=
  (claimStarters.any fun st => startsWithL st.data (jsTrimLower sql))
    && !claimBlockedMatch sql

/-- C1 counterexample: the code accepts `"CREATE VIEW v AS SELECT 1"`, whose
prefix is outside the claim's list (so the claim says it must be rejected),
and the code rejects `"DROP TEMPORARY VIEW x"`, which the claim says must be
accepted.  Hence the claimed characterisation is false in both directions. -/
theorem C1_counterexample :
    (validateAnalyticalSql "CREATE VIEW v AS SELECT 1").isValid = true
    ∧ claimC1Accepts "CREATE VIEW v AS SELECT 1" = false
    ∧ (validateAnalyticalSql "DROP TEMPORARY VIEW x").isValid = false
    ∧ claimC1Accepts "DROP TEMPORARY VIEW x" = true := by decide

/-! ## Pagination Analyzer (`PaginationAnalyzer`)

A pure scan over the raw document.  The document recursion is expressed
with an explicit fuel parameter (structural recursion on the fuel) so that
all functions compute inside the kernel; callers pass fuel exceeding the
document depth. -/

/-- JavaScript template-literal display of a value. -/
def jsDisplayFuel : Nat → JValue → String
  | 0, _ => ""
  | f + 1, v =>
    match v with
    | .jnull => "null"
    | .jbool b => if b then "true" else "false"
    | .jnum q => if q.den == 1 then toString q.num else toString q
    | .jstr s => s
    | .jarr xs => String.intercalate "," (xs.map (jsDisplayFuel f))
    | .jobj _ _ => "[object Object]"

def jsDisplayOpt (f : Nat) : Option JValue → String
  | none => "undefined"
  | some v => jsDisplayFuel f v

structure PaginationInfo where
  hasNextPage : Bool
  hasPreviousPage : Bool
  currentCount : Nat
  totalCount : Option Rat
  endCursor : Option JValue
  startCursor : Option JValue
  suggestion : Option String := none

/-- `PaginationAnalyzer.findPageInfo`: depth-first, the node's own `pageInfo`
field (when truthy and of object type) wins before its values are visited
in order. -/
def findPageInfo : Nat → JValue → Option JValue
  | 0, _ => none
  | f + 1, j =>
    match j with
    | .jobj _ fs =>
      match fs.lookup "pageInfo" with
      | some pi =>
        if truthy pi && typeofObject pi then some pi
        else fs.foldl (fun acc kv => acc <|> findPageInfo f kv.2) none
      | none => fs.foldl (fun acc kv => acc <|> findPageInfo f kv.2) none
    | .jarr xs => xs.foldl (fun acc v => acc <|> findPageInfo f v) none
    | _ => none

/-- `PaginationAnalyzer.findTotalCount`: first numeric `totalCount`. -/
def findTotalCount : Nat → JValue → Option Rat
  | 0, _ => none
  | f + 1, j =>
    match j with
    | .jobj _ fs =>
      match fs.lookup "totalCount" with
      | some (.jnum q) => some q
      | _ => fs.foldl (fun acc kv => acc <|> findTotalCount f kv.2) none
    | .jarr xs => xs.foldl (fun acc v => acc <|> findTotalCount f v) none
    | _ => none

/-- `PaginationAnalyzer.findEdgesArrays`: collect every `edges` array. -/
def findEdgesArrays : Nat → JValue → List (List JValue)
  | 0, _ => []
  | f + 1, j =>
    match j with
    | .jobj _ fs =>
      (match fs.lookup "edges" with
        | some (.jarr xs) => [xs]
        | _ => []) ++
      fs.foldl (fun acc kv => acc ++ findEdgesArrays f kv.2) []
    | .jarr xs => xs.foldl (fun acc v => acc ++ findEdgesArrays f v) []
    | _ => []

/-- `PaginationAnalyzer.countArrayItems`: sum of the lengths of array-valued
fields, recursing into object-valued fields only. -/
def countArrayItems : Nat → JValue → Nat
  | 0, _ => 0
  | f + 1, j =>
    match j with
    | .jobj _ fs =>
      fs.foldl (fun acc kv =>
        match kv.2 with
        | .jarr xs => acc + xs.length
        | .jobj t gs => acc + countArrayItems f (.jobj t gs)
        | _ => acc) 0
    | .jarr xs =>
      xs.foldl (fun acc v =>
        match v with
        | .jarr ys => acc + ys.length
        | .jobj t gs => acc + countArrayItems f (.jobj t gs)
        | _ => acc) 0
    | _ => 0

/-- `PaginationAnalyzer.countCurrentItems`. -/
def countCurrentItems (f : Nat) (j : JValue) : Nat :=
  let edgesArrays := findEdgesArrays f j
  if !edgesArrays.isEmpty then
    edgesArrays.foldl (fun s e => s + e.length) 0
  else countArrayItems f j

/-- `PaginationAnalyzer.extractInfo`. -/
def extractInfo (f : Nat) (data : JValue) : PaginationInfo :=
  let pio := findPageInfo f data
  let hasNext := match pio with
    | some pi => truthyOpt (getField pi "hasNextPage")
    | none => false
  let hasPrev := match pio with
    | some pi => truthyOpt (getField pi "hasPreviousPage")
    | none => false
  let endC := match pio with
    | some pi => getField pi "endCursor"
    | none => none
  let startC := match pio with
    | some pi => getField pi "startCursor"
    | none => none
  let tc := findTotalCount f data
  let cc := countCurrentItems f data
  let sugg :=
    if hasNext then
      some ("Use pagination to get more than " ++ toString cc
        ++ " records. Add \"pageInfo \x7b hasNextPage endCursor \x7d\" to your query"
        ++ " and use \"after: \\\"" ++ jsDisplayOpt f endC ++ "\\\"\" for next page.")
    else none
  ⟨hasNext, hasPrev, cc, tc, endC, startC, sugg⟩

/-! ## Schema Inference Engine (`SchemaInferenceEngine`)

The engine consults `Math.random()` only to invent fallback names; this is
modelled by a supply `ρ : Nat → String` read at a counter that is threaded
through every function (`Math.random().toString(36).substr(2, 9)` becomes
`ρ k`).  A run that never draws leaves its counter unchanged. -/

def Supply := Nat → String

/-- Keep `[a-zA-Z0-9_]`, replace everything else with `_`. -/
def jsReplaceNonAlnum (cs : List Char) : List Char :=
  cs.map fun c => if c.isAlphanum || c == '_' then c else '_'

/-- Collapse runs of two or more underscores into one (`/_{2,}/g`). -/
def collapseU : Bool → List Char → List Char
  | _, [] => []
  | prevU, c :: rest =>
    if c == '_' then
      (if prevU then collapseU true rest else '_' :: collapseU true rest)
    else c :: collapseU false rest

/-- `/^_|_$/g`: remove one leading and one trailing underscore. -/
def dropEdgeUnderscores (l : List Char) : List Char :=
  let l1 := match l with
    | '_' :: r => r
    | other => other
  if l1.getLast? == some '_' then l1.dropLast else l1

def startsWithDigit (s : String) : Bool :=
  match s.data with
  | c :: _ => c.isDigit
  | [] => false

def endsWithStr (suf s : String) : Bool := startsWithL suf.data.reverse s.data.reverse

def dropRightStr (n : Nat) (s : String) : String :=
  ⟨s.data.take (s.data.length - n)⟩

def lowerStr (s : String) : String := ⟨s.data.map Char.toLower⟩

def tableReservedWords : List String :=
  ["table", "index", "view", "column", "primary", "key", "foreign", "constraint"]

/-- `sanitizeTableName` on a string input; `none` means the source draws a
random name (`'table_' + Math.random()...`). -/
def sanitizeTableNamePure (s : String) : Option String :=
  if s == "" then none
  else
    let sanitized : String :=
      ⟨(dropEdgeUnderscores (collapseU false (jsReplaceNonAlnum s.data))).map Char.toLower⟩
    let sanitized := if startsWithDigit sanitized then "table_" ++ sanitized else sanitized
    if sanitized == "" then none
    else if tableReservedWords.contains sanitized then some (sanitized ++ "_table")
    else some sanitized

/-- `sanitizeTableName` on an arbitrary value (non-strings draw). -/
def sanitizeTableNamePureJ : JValue → Option String
  | .jstr s => sanitizeTableNamePure s
  | _ => none

def sanitizeTableNameS (ρ : Supply) (v : JValue) (k : Nat) : String × Nat :=
  match sanitizeTableNamePureJ v with
  | some n => (n, k)
  | none => ("table_" ++ ρ k, k + 1)

def genomicsTerms : List (String × String) :=
  [ ("entrezid", "entrez_id"),
    ("displayname", "display_name"),
    ("varianttype", "variant_type"),
    ("evidencelevel", "evidence_level"),
    ("evidencetype", "evidence_type"),
    ("evidencedirection", "evidence_direction"),
    ("sourcetype", "source_type"),
    ("molecularprofile", "molecular_profile"),
    ("genomicchange", "genomic_change") ]

def columnReservedWords : List String :=
  ["table", "index", "view", "column", "primary", "key", "foreign", "constraint",
   "order", "group", "select", "from", "where"]

/-- `sanitizeColumnName`; `none` means the source draws a random name. -/
def sanitizeColumnNamePure (s : String) : Option String :=
  if s == "" then none
  else
    let camel := s.data.flatMap fun c => if c.isUpper then ['_', c] else [c]
    let snake : String :=
      ⟨dropEdgeUnderscores (collapseU false (jsReplaceNonAlnum (camel.map Char.toLower)))⟩
    let snake := if startsWithDigit snake then "col_" ++ snake else snake
    if snake == "" then none
    else
      let result := (genomicsTerms.lookup snake).getD snake
      if columnReservedWords.contains result then some (result ++ "_col")
      else some result

def sanitizeColumnNameS (ρ : Supply) (s : String) (k : Nat) : String × Nat :=
  match sanitizeColumnNamePure s with
  | some n => (n, k)
  | none => ("column_" ++ ρ k, k + 1)

def getSQLiteType : JValue → String
  | .jnull => "TEXT"
  | .jnum q => if q.den == 1 then "INTEGER" else "REAL"
  | .jbool _ => "INTEGER"
  | .jstr _ => "TEXT"
  | _ => "TEXT"

/-- `isEntity` (identical in both engines). -/
def isEntity : JValue → Bool
  | .jobj _ fs =>
    let hasId := (fs.lookup "id").isSome || (fs.lookup "_id").isSome
    let hasMultipleFields := decide (2 ≤ fs.length)
    let hasEntityFields := (fs.lookup "name").isSome || (fs.lookup "title").isSome
      || (fs.lookup "description").isSome || (fs.lookup "type").isSome
    hasId || (hasMultipleFields && hasEntityFields)
  | _ => false

def jsonEscape (s : String) : String :=
  ⟨s.data.flatMap fun c =>
    if c == '"' then ['\\', '"'] else if c == '\\' then ['\\', '\\'] else [c]⟩

/-- `JSON.stringify` (non-integer numerals keep rational notation; no claim
inspects a serialized numeral). -/
def jsonStringifyFuel : Nat → JValue → String
  | 0, _ => ""
  | f + 1, v =>
    match v with
    | .jnull => "null"
    | .jbool b => if b then "true" else "false"
    | .jnum q => if q.den == 1 then toString q.num else toString q
    | .jstr s => "\"" ++ jsonEscape s ++ "\""
    | .jarr xs => "[" ++ String.intercalate "," (xs.map (jsonStringifyFuel f)) ++ "]"
    | .jobj _ fs =>
      "\x7b" ++ String.intercalate ","
        (fs.map fun kv => "\"" ++ jsonEscape kv.1 ++ "\":" ++ jsonStringifyFuel f kv.2)
      ++ "\x7d"

/-- `hasScalarFields`: some value is non-object-typed or null. -/
def hasScalarFields : JValue → Bool
  | .jobj _ fs =>
    fs.any fun kv =>
      match kv.2 with
      | .jnull => true
      | .jarr _ => false
      | .jobj _ _ => false
      | _ => true
  | .jarr xs =>
    xs.any fun v =>
      match v with
      | .jnull => true
      | .jarr _ => false
      | .jobj _ _ => false
      | _ => true
  | _ => false

def fieldsOf : JValue → List (String × JValue)
  | .jobj _ fs => fs
  | _ => []

/-- Booleans are stored as 0/1 (`typeof value === 'boolean' ? 1 : 0`). -/
def jsToStored : JValue → JValue
  | .jbool b => .jnum (if b then 1 else 0)
  | v => v

/-- `SchemaInferenceEngine.inferEntityType`. -/
def inferEntityTypeS (ρ : Supply) (obj : JValue) (path : List String) (k : Nat) :
    String × Nat :=
  if truthyOpt (getField obj "__typename") then
    sanitizeTableNameS ρ ((getField obj "__typename").getD .jnull) k
  else if (match getField obj "type" with
      | some (.jstr s) =>
        truthy (.jstr s) && !(["edges", "node"].contains (lowerStr s))
      | _ => false) then
    sanitizeTableNameS ρ ((getField obj "type").getD .jnull) k
  else if !path.isEmpty then
    let lastName :=
      match path.reverse with
      | [] => ""
      | l1 :: rest1 =>
        if l1 == "node" && !rest1.isEmpty then
          match rest1 with
          | [] => l1
          | l2 :: rest2 => if l2 == "edges" && !rest2.isEmpty then rest2.headD "" else l2
        else if l1 == "edges" && !rest1.isEmpty then rest1.headD ""
        else l1
    let (sanitized, k) := sanitizeTableNameS ρ (.jstr lastName) k
    if endsWithStr "ies" sanitized then (dropRightStr 3 sanitized ++ "y", k)
    else if endsWithStr "s" sanitized && !endsWithStr "ss" sanitized
        && decide (1 < sanitized.data.length) then
      let potentialSingular := dropRightStr 1 sanitized
      if decide (1 < potentialSingular.data.length) then (potentialSingular, k)
      else (sanitized, k)
    else (sanitized, k)
  else ("entity_" ++ ρ k, k + 1)

structure SState where
  discovered : List (String × List JValue)
  rels : List (String × List String)
  ctr : Nat

def upsertAppendEntity : List (String × List JValue) → String → JValue
    → List (String × List JValue)
  | [], ty, e => [(ty, [e])]
  | (n, es) :: rest, ty, e =>
    if n == ty then (n, es ++ [e]) :: rest
    else (n, es) :: upsertAppendEntity rest ty e

def addEntity (st : SState) (ty : String) (e : JValue) : SState :=
  { st with discovered := upsertAppendEntity st.discovered ty e }

def upsertRel : List (String × List String) → String → List String
    → List (String × List String)
  | [], key, v => [(key, v)]
  | (n, x) :: rest, key, v =>
    if n == key then (n, v) :: rest else (n, x) :: upsertRel rest key v

/-- `recordRelationship`: recorded once per unordered pair. -/
def recordRelationship (st : SState) (fromT toT : String) : SState :=
  if fromT == toT then st
  else
    let fromRel := (st.rels.lookup fromT).getD []
    let toRel := (st.rels.lookup toT).getD []
    if !(fromRel.contains toT) && !(toRel.contains fromT) then
      { st with rels := upsertRel st.rels fromT (fromRel ++ [toT]) }
    else st

/-- `processEntityProperties`: register nested entity arrays and single
nested entities, recording relationships. -/
def processEntityPropsFuel (ρ : Supply) : Nat → JValue → String → SState → SState
  | 0, _, _, st => st
  | f + 1, entity, entityType, st =>
    (fieldsOf entity).foldl (fun st kv =>
      let key := kv.1
      match kv.2 with
      | .jarr xs =>
        if !xs.isEmpty then
          match xs.find? isEntity with
          | some firstItem =>
            let p1 := inferEntityTypeS ρ firstItem [key] st.ctr
            let relatedEntityType := p1.1
            let st := { st with ctr := p1.2 }
            let st := recordRelationship st entityType relatedEntityType
            xs.foldl (fun st item =>
              if isEntity item then
                let st := addEntity st relatedEntityType item
                processEntityPropsFuel ρ f item relatedEntityType st
              else st) st
          | none => st
        else st
      | .jobj tg gs =>
        if isEntity (.jobj tg gs) then
          let p1 := inferEntityTypeS ρ (.jobj tg gs) [key] st.ctr
          let relatedEntityType := p1.1
          let st := { st with ctr := p1.2 }
          let st := recordRelationship st entityType relatedEntityType
          let st := addEntity st relatedEntityType (.jobj tg gs)
          processEntityPropsFuel ρ f (.jobj tg gs) relatedEntityType st
        else st
      | _ => st) st

/-- `edges.map(edge => edge.node).filter(Boolean)`; a null edge throws. -/
def extractNodes : List JValue → Except String (List JValue)
  | [] => .ok []
  | e :: rest =>
    match e with
    | .jnull => .error "Cannot read properties of null (reading 'node')"
    | _ =>
      (extractNodes rest).map fun ns =>
        match getField e "node" with
        | some v => if truthy v then v :: ns else ns
        | none => ns

/-- The item loop of `discoverEntities` on an array: the first entity fixes
the array's entity type. -/
def discoverArrayItems (ρ : Supply) (f : Nat) (xs : List JValue) (path : List String)
    (parent : Option String) (st : SState) : SState :=
  (xs.foldl (fun acc item =>
    let st := acc.1
    let arrayEntityType := acc.2
    if isEntity item then
      let p :=
        match arrayEntityType with
        | some t => (t, st)
        | none =>
          let p1 := inferEntityTypeS ρ item path st.ctr
          (p1.1, { st with ctr := p1.2 })
      let aet := p.1
      let st := p.2
      let st := addEntity st aet item
      let st :=
        match parent with
        | some parentType =>
          if !path.isEmpty then
            let fieldName := path.getLastD ""
            if fieldName != "nodes" && fieldName != "edges" then
              recordRelationship st parentType aet
            else st
          else st
        | none => st
      let st := processEntityPropsFuel ρ f item aet st
      (st, some aet)
    else (st, arrayEntityType)) ((st, none) : SState × Option String)).1

/-- `discoverEntities`. -/
def discoverFuel (ρ : Supply) : Nat → JValue → List String → Option String → SState
    → Except String SState
  | 0, _, _, _, st => .ok st
  | f + 1, j, path, parent, st =>
    match j with
    | .jarr xs =>
      if !xs.isEmpty then .ok (discoverArrayItems ρ f xs path parent st)
      else .ok st
    | .jobj tg fs =>
      match fs.lookup "edges" with
      | some (.jarr edges) =>
        (extractNodes edges).bind fun nodes =>
          if !nodes.isEmpty then discoverFuel ρ f (.jarr nodes) path parent st
          else .ok st
      | _ =>
        if isEntity (.jobj tg fs) then
          let p1 := inferEntityTypeS ρ (.jobj tg fs) path st.ctr
          let entityType := p1.1
          let st := { st with ctr := p1.2 }
          let st := addEntity st entityType (.jobj tg fs)
          .ok (processEntityPropsFuel ρ f (.jobj tg fs) entityType st)
        else
          fs.foldlM (fun st kv => discoverFuel ρ f kv.2 (path ++ [kv.1]) parent st) st
    | _ => .ok st

/-! ### Column collection and schema assembly -/

/-- `addColumnType`: a `Set` of observed SQL types per column, in insertion
order. -/
def addColumnType : List (String × List String) → String → String
    → List (String × List String)
  | [], col, ty => [(col, [ty])]
  | (n, tys) :: rest, col, ty =>
    if n == col then (n, if tys.contains ty then tys else tys ++ [ty]) :: rest
    else (n, tys) :: addColumnType rest col ty

def addPairs (ct : List (String × List String)) (pairs : List (String × String)) :
    List (String × List String) :=
  pairs.foldl (fun ct p => addColumnType ct p.1 p.2) ct

/-- Replace the value at a key (keeping its position), else append. -/
def rowSet : List (String × JValue) → String → JValue → List (String × JValue)
  | [], key, v => [(key, v)]
  | (n, x) :: rest, key, v =>
    if n == key then (n, v) :: rest else (n, x) :: rowSet rest key v

/-- `extractEntityFields`, restructured to return the emitted
`(column, sql-type)` pairs, the sample row, and the advanced counter. -/
def extractEntityPairs (ρ : Supply) (sf : Nat) (obj : JValue) (k : Nat) :
    List (String × String) × List (String × JValue) × Nat :=
  match obj with
  | .jobj _ fs =>
    fs.foldl (fun acc kv =>
      let pairs := acc.1
      let row := acc.2.1
      let k := acc.2.2
      let key := kv.1
      let value := kv.2
      let pc := sanitizeColumnNameS ρ key k
      let columnName := pc.1
      let k := pc.2
      match value with
      | .jarr xs =>
        if !xs.isEmpty && isEntity (xs.headD .jnull) then (pairs, row, k)
        else (pairs ++ [(columnName, "JSON")],
          rowSet row columnName (.jstr (jsonStringifyFuel sf value)), k)
      | .jobj tg gs =>
        if isEntity (.jobj tg gs) then
          let foreignKeyColumn := columnName ++ "_id"
          let idv :=
            match getField (.jobj tg gs) "id" with
            | some iv => if truthy iv then iv else JValue.jnull
            | none => JValue.jnull
          (pairs ++ [(foreignKeyColumn, "INTEGER")], rowSet row foreignKeyColumn idv, k)
        else if hasScalarFields (.jobj tg gs) then
          gs.foldl (fun acc2 skv =>
            let pairs := acc2.1
            let row := acc2.2.1
            let k := acc2.2.2
            match skv.2 with
            | .jarr _ => (pairs, row, k)
            | .jobj _ _ => (pairs, row, k)
            | .jnull => (pairs, row, k)
            | sv =>
              let psc := sanitizeColumnNameS ρ skv.1 k
              let prefixedColumn := columnName ++ "_" ++ psc.1
              (pairs ++ [(prefixedColumn, getSQLiteType sv)],
               rowSet row prefixedColumn (jsToStored sv), psc.2)) (pairs, row, k)
        else
          (pairs ++ [(columnName, "JSON")],
           rowSet row columnName (.jstr (jsonStringifyFuel sf (.jobj tg gs))), k)
      | sv =>
        (pairs ++ [(columnName, getSQLiteType sv)],
         rowSet row columnName (jsToStored sv), k))
      (([], [], k) : List (String × String) × List (String × JValue) × Nat)
  | _ => ([("value", getSQLiteType obj)], [("value", obj)], k)

/-- `resolveColumnTypes`: a single observed type stands; mixed types prefer
TEXT over REAL over INTEGER. -/
def resolveOne (types : List String) : String :=
  if types.length == 1 then types.headD ""
  else if types.contains "TEXT" then "TEXT"
  else if types.contains "REAL" then "REAL"
  else "INTEGER"

def resolveColumnTypes (ct : List (String × List String)) : List (String × String) :=
  ct.map fun p => (p.1, resolveOne p.2)

def setAssoc : List (String × String) → String → String → List (String × String)
  | [], key, v => [(key, v)]
  | (n, x) :: rest, key, v =>
    if n == key then (n, v) :: rest else (n, x) :: setAssoc rest key v

/-- `ensureIdColumn`: add surrogate `id` when absent, promote a scalar
INTEGER `id` to the primary key. -/
def ensureIdColumn (cols : List (String × String)) : List (String × String) :=
  match cols.lookup "id" with
  | none => cols ++ [("id", "INTEGER PRIMARY KEY AUTOINCREMENT")]
  | some ty => if ty == "INTEGER" then setAssoc cols "id" "INTEGER PRIMARY KEY" else cols

structure TableSchema where
  columns : List (String × String)
  sample_data : List (List (String × JValue))

def upsertSchema : List (String × TableSchema) → String → TableSchema
    → List (String × TableSchema)
  | [], n, sch => [(n, sch)]
  | (m, s0) :: rest, n, sch =>
    if m == n then (m, sch) :: rest else (m, s0) :: upsertSchema rest n sch

/-- Per-entity-type part of `createSchemasFromEntities`. -/
def schemaForEntities (ρ : Supply) (sf : Nat) (entities : List JValue) (k : Nat) :
    TableSchema × Nat :=
  let acc := entities.foldl (fun acc e =>
    let ct := acc.1
    let samples := acc.2.1
    let k := acc.2.2
    let ex := extractEntityPairs ρ sf e k
    let ct := addPairs ct ex.1
    let samples := if samples.length < 3 then samples ++ [ex.2.1] else samples
    (ct, samples, ex.2.2))
    (([], [], k) : List (String × List String) × List (List (String × JValue)) × Nat)
  (⟨ensureIdColumn (resolveColumnTypes acc.1), acc.2.1⟩, acc.2.2)

/-- Code-unit-wise lexicographic order, as JavaScript string comparison. -/
def strLtL : List Char → List Char → Bool
  | [], [] => false
  | [], _ :: _ => true
  | _ :: _, [] => false
  | a :: as, b :: bs =>
    if a.toNat < b.toNat then true
    else if b.toNat < a.toNat then false
    else strLtL as bs

def sortJoin (a b : String) : String :=
  if strLtL b.data a.data then b ++ "_" ++ a else a ++ "_" ++ b

/-- `createJunctionTableSchemas`: one junction table per recorded
relationship, named by the sorted pair, columns in from/to order. -/
def createJunctionTableSchemas (rels : List (String × List String))
    (schemas : List (String × TableSchema)) : List (String × TableSchema) :=
  (rels.foldl (fun acc fr =>
    fr.2.foldl (fun acc2 toT =>
      let schemas := acc2.1
      let junctionTables := acc2.2
      let fromT := fr.1
      let junctionName := sortJoin fromT toT
      if junctionTables.contains junctionName then (schemas, junctionTables)
      else
        (upsertSchema schemas junctionName
          ⟨[("id", "INTEGER PRIMARY KEY AUTOINCREMENT"),
            (fromT ++ "_id", "INTEGER"), (toT ++ "_id", "INTEGER")], []⟩,
         junctionTables ++ [junctionName])) acc)
    ((schemas, []) : List (String × TableSchema) × List String)).1

def createSchemasFromEntitiesS (ρ : Supply) (sf : Nat)
    (discovered : List (String × List JValue))
    (rels : List (String × List String)) (k : Nat) :
    List (String × TableSchema) × Nat :=
  let acc := discovered.foldl (fun acc te =>
    let schemas := acc.1
    let k := acc.2
    if te.2.isEmpty then (schemas, k)
    else
      let p := schemaForEntities ρ sf te.2 k
      (upsertSchema schemas te.1 p.1, p.2))
    (([], k) : List (String × TableSchema) × Nat)
  (createJunctionTableSchemas rels acc.1, acc.2)

/-- `extractSimpleFields` (fallback tables). -/
def extractSimpleFields (ρ : Supply) (sf : Nat) (obj : JValue)
    (ct : List (String × List String)) (k : Nat) :
    List (String × List String) × List (String × JValue) × Nat :=
  match obj with
  | .jnull => (addColumnType ct "value" (getSQLiteType .jnull), [("value", .jnull)], k)
  | .jarr _ =>
    (addColumnType ct "array_data_json" "TEXT",
     [("array_data_json", .jstr (jsonStringifyFuel sf obj))], k)
  | .jobj _ fs =>
    fs.foldl (fun acc kv =>
      let ct := acc.1
      let row := acc.2.1
      let k := acc.2.2
      let pc := sanitizeColumnNameS ρ kv.1 k
      let columnName := pc.1
      let k := pc.2
      match kv.2 with
      | .jnull =>
        (addColumnType ct columnName (getSQLiteType .jnull),
         rowSet row columnName .jnull, k)
      | .jarr ys =>
        (addColumnType ct (columnName ++ "_json") "TEXT",
         rowSet row (columnName ++ "_json") (.jstr (jsonStringifyFuel sf (.jarr ys))), k)
      | .jobj tg gs =>
        (addColumnType ct (columnName ++ "_json") "TEXT",
         rowSet row (columnName ++ "_json") (.jstr (jsonStringifyFuel sf (.jobj tg gs))), k)
      | sv =>
        (addColumnType ct columnName (getSQLiteType sv),
         rowSet row columnName (jsToStored sv), k))
      ((ct, [], k) : List (String × List String) × List (String × JValue) × Nat)
  | _ => (addColumnType ct "value" (getSQLiteType obj), [("value", obj)], k)

/-- `createSchemaFromPrimitiveOrSimpleArray`. -/
def createSchemaFromPrimitiveOrSimpleArray (ρ : Supply) (sf : Nat) (data : JValue)
    (k : Nat) : TableSchema × Nat :=
  let acc :=
    match data with
    | .jarr xs =>
      let acc3 := (xs.take 3).foldl
        (fun (acc : List (String × List String)
            × List (List (String × JValue)) × Nat) item =>
          let ct := acc.1
          let samples := acc.2.1
          let k := acc.2.2
          let ex := extractSimpleFields ρ sf item ct k
          (ex.1, samples ++ [ex.2.1], ex.2.2))
        ([], [], k)
      if 3 < xs.length then
        let acc4 := (xs.drop 3).foldl
          (fun (acc : List (String × List String) × Nat) item =>
            let ex := extractSimpleFields ρ sf item acc.1 acc.2
            (ex.1, ex.2.2)) (acc3.1, acc3.2.2)
        (acc4.1, acc3.2.1, acc4.2)
      else acc3
    | _ =>
      let ex := extractSimpleFields ρ sf data [] k
      (ex.1, [ex.2.1], ex.2.2)
  let columns := resolveColumnTypes acc.1
  let samples := acc.2.1
  let pr :=
    if (columns.lookup "id").isNone && (columns.lookup "value").isNone then
      match columns with
      | [(c0, ty0)] =>
        if c0 != "value" then
          (([("value", ty0)] : List (String × String)),
           samples.map fun s =>
             (s.filter fun kv => kv.1 != c0) ++
               (match s.lookup c0 with
                | some v => [("value", v)]
                | none => []))
        else (columns, samples)
      | _ => (columns, samples)
    else (columns, samples)
  let columns :=
    if pr.1.isEmpty then
      match data with
      | .jnull => [("value", "TEXT")]
      | _ => pr.1
    else pr.1
  (⟨columns, pr.2⟩, acc.2.2)

/-- `createSchemaFromObject`. -/
def createSchemaFromObject (ρ : Supply) (sf : Nat) (obj : JValue) (k : Nat) :
    TableSchema × Nat :=
  let ex := extractSimpleFields ρ sf obj [] k
  (⟨resolveColumnTypes ex.1, [ex.2.1]⟩, ex.2.2)

/-- `SchemaInferenceEngine.inferFromJSON`. -/
def inferFromJSON (ρ : Supply) (fuel : Nat) (data : JValue) (k : Nat) :
    Except String (List (String × TableSchema) × Nat) :=
  (discoverFuel ρ fuel data [] none ⟨[], [], k⟩).map fun st =>
    if !st.discovered.isEmpty then
      createSchemasFromEntitiesS ρ fuel st.discovered st.rels st.ctr
    else
      match data with
      | .jobj tg fs =>
        let p := createSchemaFromObject ρ fuel (.jobj tg fs) st.ctr
        ([("root_object", p.1)], p.2)
      | .jarr xs =>
        let p := createSchemaFromPrimitiveOrSimpleArray ρ fuel (.jarr xs) st.ctr
        ([("array_data", p.1)], p.2)
      | other =>
        let p := createSchemaFromPrimitiveOrSimpleArray ρ fuel other st.ctr
        ([("scalar_data", p.1)], p.2)

/-! ## Relational Insertion Engine (`DataInsertionEngine`)

State: the per-call reference-identity maps (`processedEntities` keyed by
object tag), the observed relationship pairs, and the random-name counter.
Store errors propagate as exceptions, keeping the partially-written
database (no transaction wraps a `process` call). -/

structure IState where
  processedEntities : List (String × List (Nat × JValue))
  relationshipData : List (String × List String)
  ctr : Nat

/-- The insertion engine threads its mutable state and the store
explicitly; an error short-circuits but keeps the partial state. -/
abbrev InsOut (α : Type) := Except String α × IState × DB

/-- `DataInsertionEngine.inferEntityType` (differs from the schema engine's:
any truthy string `type` wins, and singularization only strips a final `s`
from the raw path segment before sanitizing). -/
def insInferEntityTypeS (ρ : Supply) (obj : JValue) (path : List String) (k : Nat) :
    String × Nat :=
  if truthyOpt (getField obj "__typename") then
    sanitizeTableNameS ρ ((getField obj "__typename").getD .jnull) k
  else if (match getField obj "type" with
      | some (.jstr s) => s != ""
      | _ => false) then
    sanitizeTableNameS ρ ((getField obj "type").getD .jnull) k
  else if !path.isEmpty then
    let lastPath := path.getLastD ""
    if lastPath == "edges" && decide (1 < path.length) then
      sanitizeTableNameS ρ (.jstr ((path.reverse.drop 1).headD "")) k
    else if endsWithStr "s" lastPath && decide (1 < lastPath.data.length) then
      sanitizeTableNameS ρ (.jstr (dropRightStr 1 lastPath)) k
    else sanitizeTableNameS ρ (.jstr lastPath) k
  else ("entity_" ++ ρ k, k + 1)

/-- Split on `_`, keeping empty segments, as `String.prototype.split('_')`. -/
def splitOnU : List Char → List Char → List String
  | acc, [] => [⟨acc.reverse⟩]
  | acc, c :: rest =>
    if c == '_' then (⟨acc.reverse⟩ : String) :: splitOnU [] rest
    else splitOnU (c :: acc) rest

/-- `Number(s)` on the id fragments of a junction pair key (an empty string
is 0; a non-numeric fragment is NaN, which the store binds as NULL). -/
def jsNumber (s : String) : JValue :=
  if s == "" then .jnum 0
  else if s.data.all Char.isDigit then .jnum ((s.toNat!) : Rat)
  else .jnull

/-- `findOriginalKey`: a direct hit first, then the first key whose
sanitized form matches (sanitizing consumes random draws in order). -/
def findKeyLoop (ρ : Supply) (target : String) : List String → Nat → Option String × Nat
  | [], k => (none, k)
  | key :: rest, k =>
    let p := sanitizeColumnNameS ρ key k
    if p.1 == target then (some key, p.2) else findKeyLoop ρ target rest p.2

def findOriginalKeyS (ρ : Supply) (obj : JValue) (sanitizedKey : String) (k : Nat) :
    Option String × Nat :=
  let keys := (fieldsOf obj).map Prod.fst
  if keys.contains sanitizedKey then (some sanitizedKey, k)
  else findKeyLoop ρ sanitizedKey keys k

def tagOf : JValue → Option Nat
  | .jobj t _ => some t
  | _ => none

/-- `DataInsertionEngine.mapEntityToSchema`. -/
def mapEntityToSchema (ρ : Supply) (sf : Nat) (obj : JValue) (schema : TableSchema)
    (k : Nat) : List (String × JValue) × Nat :=
  match obj with
  | .jobj tg fs =>
    schema.columns.foldl (fun (acc : List (String × JValue) × Nat) col =>
      let rowData := acc.1
      let k := acc.2
      let columnName := col.1
      if columnName == "id" && containsSub "AUTOINCREMENT".data col.2.data then
        (rowData, k)
      else
        let vp : Option JValue × Nat :=
          if endsWithStr "_id" columnName
              && !(containsSub "_json".data columnName.data) then
            let baseKey := dropRightStr 3 columnName
            let fp := findOriginalKeyS ρ (.jobj tg fs) baseKey k
            match fp.1 with
            | some okey =>
              (match getField (.jobj tg fs) okey with
                | some v =>
                  if truthy v && typeofObject v then
                    (match getField v "id" with
                      | some iv => if truthy iv then some iv else none
                      | none => none)
                  else none
                | none => none, fp.2)
            | none => (none, fp.2)
          else if containsSub "_".data columnName.data
              && !(endsWithStr "_json" columnName) then
            let parts := splitOnU [] columnName.data
            if decide (2 ≤ parts.length) then
              let baseKey := parts.headD ""
              let subKey := String.intercalate "_" (parts.drop 1)
              let fp := findOriginalKeyS ρ (.jobj tg fs) baseKey k
              match fp.1 with
              | some okey =>
                (match getField (.jobj tg fs) okey with
                  | some v =>
                    if truthy v && typeofObject v then
                      let sp := findOriginalKeyS ρ v subKey fp.2
                      match sp.1 with
                      | some oskey =>
                        (match getField v oskey with
                          | some sv => some (jsToStored sv)
                          | none => none, sp.2)
                      | none => (none, sp.2)
                    else (none, fp.2)
                  | none => (none, fp.2))
              | none => (none, fp.2)
            else (none, k)
          else if endsWithStr "_json" columnName then
            let baseKey := dropRightStr 5 columnName
            let fp := findOriginalKeyS ρ (.jobj tg fs) baseKey k
            match fp.1 with
            | some okey =>
              (match getField (.jobj tg fs) okey with
                | some v =>
                  if truthy v && typeofObject v then
                    some (.jstr (jsonStringifyFuel sf v))
                  else none
                | none => none, fp.2)
            | none => (none, fp.2)
          else
            let fp := findOriginalKeyS ρ (.jobj tg fs) columnName k
            match fp.1 with
            | some okey =>
              (match getField (.jobj tg fs) okey with
                | some v =>
                  (match v with
                    | .jarr xs =>
                      if !xs.isEmpty && isEntity (xs.headD .jnull) then none
                      else some (jsToStored v)
                    | _ => some (jsToStored v))
                | none => none, fp.2)
            | none => (none, fp.2)
        match vp.1 with
        | some .jnull => (rowData, vp.2)
        | some v => (rowSet rowData columnName v, vp.2)
        | none => (rowData, vp.2)) ([], k)
  | _ =>
    ((match schema.columns.lookup "value" with
      | some _ => [("value", obj)]
      | none => []), k)

def lookupProcessed (pe : List (String × List (Nat × JValue))) (table : String)
    (tag : Nat) : Option JValue :=
  match pe.lookup table with
  | some m => m.lookup tag
  | none => none

def insertTagged : List (Nat × JValue) → Nat → JValue → List (Nat × JValue)
  | [], tag, idv => [(tag, idv)]
  | (t, x) :: rest, tag, idv =>
    if t == tag then (t, idv) :: rest else (t, x) :: insertTagged rest tag idv

def insertProcessed (pe : List (String × List (Nat × JValue))) (table : String)
    (tag : Nat) (idv : JValue) : List (String × List (Nat × JValue)) :=
  match pe with
  | [] => [(table, [(tag, idv)])]
  | (n, m) :: rest =>
    if n == table then (n, insertTagged m tag idv) :: rest
    else (n, m) :: insertProcessed rest table tag idv

/-- `SELECT last_insert_rowid() ... ?.id || null`. -/
def lastRowIdOrNull (db : DB) : Option JValue :=
  if db.lastRowId == 0 then none else some (.jnum (db.lastRowId : Rat))

/-- `DataInsertionEngine.insertEntityRecord`: reference-identity de-dup,
`INSERT OR IGNORE`, id recovery via the data's id or `last_insert_rowid`. -/
def insertEntityRecord (ρ : Supply) (sf : Nat) (entity : JValue) (tableName : String)
    (schema : TableSchema) (ist : IState) (db : DB) : InsOut (Option JValue) :=
  let tag := (tagOf entity).getD 0
  match lookupProcessed ist.processedEntities tableName tag with
  | some idv => (.ok (some idv), ist, db)
  | none =>
    match mapEntityToSchema ρ sf entity schema ist.ctr with
    | (rowData, k') =>
      let ist := { ist with ctr := k' }
      if rowData.isEmpty then (.ok none, ist, db)
      else
        match dbInsert true db tableName rowData with
        | .error e => (.error e, ist, db)
        | .ok db' =>
          let insertedId : Option JValue :=
            match rowData.lookup "id" with
            | some idv => if truthy idv then some idv else lastRowIdOrNull db'
            | none => lastRowIdOrNull db'
          let ist :=
            match insertedId with
            | some idv =>
              if truthy idv then
                { ist with processedEntities :=
                    insertProcessed ist.processedEntities tableName tag idv }
              else ist
            | none => ist
          (.ok insertedId, ist, db')

/-- `getEntityId` (`entityMap?.get(entity) || null`). -/
def getEntityId (ist : IState) (entity : JValue) (entityType : String) : Option JValue :=
  match lookupProcessed ist.processedEntities entityType ((tagOf entity).getD 0) with
  | some idv => if truthy idv then some idv else none
  | none => none

def addRelPair (rd : List (String × List String)) (key pairKey : String) :
    List (String × List String) :=
  match rd with
  | [] => [(key, [pairKey])]
  | (n, ps) :: rest =>
    if n == key then (n, if ps.contains pairKey then ps else ps ++ [pairKey]) :: rest
    else (n, ps) :: addRelPair rest key pairKey

/-- `DataInsertionEngine.processEntityRelationships`. -/
def processEntityRelationshipsFuel (ρ : Supply) (sf : Nat) :
    Nat → JValue → String → List (String × TableSchema) → List String →
      IState → DB → InsOut Unit
  | 0, _, _, _, _, ist, db => (.ok (), ist, db)
  | f + 1, entity, entityType, schemas, path, ist, db =>
    (fieldsOf entity).foldl (fun (acc : InsOut Unit) kv =>
      match acc with
      | (.error e, ist, db) => (.error e, ist, db)
      | (.ok _, ist, db) =>
        let key := kv.1
        match kv.2 with
        | .jarr xs =>
          if !xs.isEmpty then
            match xs.find? isEntity with
            | some firstItem =>
              match insInferEntityTypeS ρ firstItem [key] ist.ctr with
              | (relatedEntityType, k') =>
                let ist := { ist with ctr := k' }
                xs.foldl (fun (acc2 : InsOut Unit) item =>
                  match acc2 with
                  | (.error e, ist, db) => (.error e, ist, db)
                  | (.ok _, ist, db) =>
                    if isEntity item then
                      match schemas.lookup relatedEntityType with
                      | some relSchema =>
                        match insertEntityRecord ρ sf item relatedEntityType relSchema
                            ist db with
                        | (.error e, ist, db) => (.error e, ist, db)
                        | (.ok _, ist, db) =>
                          let relationshipKey := sortJoin entityType relatedEntityType
                          let ist :=
                            match getEntityId ist entity entityType,
                                getEntityId ist item relatedEntityType with
                            | some ei, some ri =>
                              let pairKey :=
                                jsDisplayFuel sf ei ++ "_" ++ jsDisplayFuel sf ri
                              let newRel :=
                                addRelPair ist.relationshipData relationshipKey pairKey
                              { ist with relationshipData := newRel }
                            | _, _ => ist
                          processEntityRelationshipsFuel ρ sf f item relatedEntityType
                            schemas (path ++ [key]) ist db
                      | none => (.ok (), ist, db)
                    else (.ok (), ist, db)) ((.ok (), ist, db) : InsOut Unit)
            | none => (.ok (), ist, db)
          else (.ok (), ist, db)
        | .jobj tg gs =>
          if isEntity (.jobj tg gs) then
            match insInferEntityTypeS ρ (.jobj tg gs) [key] ist.ctr with
            | (relatedEntityType, k') =>
              let ist := { ist with ctr := k' }
              match schemas.lookup relatedEntityType with
              | some relSchema =>
                match insertEntityRecord ρ sf (.jobj tg gs) relatedEntityType relSchema
                    ist db with
                | (.error e, ist, db) => (.error e, ist, db)
                | (.ok _, ist, db) =>
                  processEntityRelationshipsFuel ρ sf f (.jobj tg gs) relatedEntityType
                    schemas (path ++ [key]) ist db
              | none => (.ok (), ist, db)
          else (.ok (), ist, db)
        | _ => (.ok (), ist, db)) ((.ok (), ist, db) : InsOut Unit)

/-- `DataInsertionEngine.insertAllEntities`: phase 1 walk; after handling an
entity it still recurses into every field. -/
def insertAllEntitiesFuel (ρ : Supply) (sf : Nat) :
    Nat → JValue → List (String × TableSchema) → List String →
      IState → DB → InsOut Unit
  | 0, _, _, _, ist, db => (.ok (), ist, db)
  | f + 1, obj, schemas, path, ist, db =>
    match obj with
    | .jarr xs =>
      xs.foldl (fun (acc : InsOut Unit) item =>
        match acc with
        | (.error e, ist, db) => (.error e, ist, db)
        | (.ok _, ist, db) =>
          insertAllEntitiesFuel ρ sf f item schemas path ist db)
        ((.ok (), ist, db) : InsOut Unit)
    | .jobj tg fs =>
      match fs.lookup "edges" with
      | some (.jarr edges) =>
        match extractNodes edges with
        | .error e => (.error e, ist, db)
        | .ok nodes =>
          nodes.foldl (fun (acc : InsOut Unit) node =>
            match acc with
            | (.error e, ist, db) => (.error e, ist, db)
            | (.ok _, ist, db) =>
              insertAllEntitiesFuel ρ sf f node schemas path ist db)
            ((.ok (), ist, db) : InsOut Unit)
      | _ =>
        let step1 : InsOut Unit :=
          if isEntity (.jobj tg fs) then
            match insInferEntityTypeS ρ (.jobj tg fs) path ist.ctr with
            | (entityType, k') =>
              let ist := { ist with ctr := k' }
              match schemas.lookup entityType with
              | some schema =>
                match insertEntityRecord ρ sf (.jobj tg fs) entityType schema ist db with
                | (.error e, ist, db) => (.error e, ist, db)
                | (.ok _, ist, db) =>
                  processEntityRelationshipsFuel ρ sf f (.jobj tg fs) entityType
                    schemas path ist db
              | none => (.ok (), ist, db)
          else (.ok (), ist, db)
        match step1 with
        | (.error e, ist, db) => (.error e, ist, db)
        | (.ok _, ist, db) =>
          fs.foldl (fun (acc : InsOut Unit) kv =>
            match acc with
            | (.error e, ist, db) => (.error e, ist, db)
            | (.ok _, ist, db) =>
              insertAllEntitiesFuel ρ sf f kv.2 schemas (path ++ [kv.1]) ist db)
            ((.ok (), ist, db) : InsOut Unit)
    | _ => (.ok (), ist, db)

/-- `DataInsertionEngine.mapObjectToSimpleSchema`. -/
def mapObjectToSimpleSchema (ρ : Supply) (sf : Nat) (obj : JValue)
    (schema : TableSchema) (k : Nat) : List (String × JValue) × Nat :=
  match obj with
  | .jobj tg fs =>
    schema.columns.foldl (fun (acc : List (String × JValue) × Nat) col =>
      let rowData := acc.1
      let k := acc.2
      let columnName := col.1
      let vp : Option JValue × Nat :=
        if endsWithStr "_json" columnName then
          let baseKey := dropRightStr 5 columnName
          let fp := findOriginalKeyS ρ (.jobj tg fs) baseKey k
          match fp.1 with
          | some okey =>
            (match getField (.jobj tg fs) okey with
              | some v => some (.jstr (jsonStringifyFuel sf v))
              | none => none, fp.2)
          | none => (none, fp.2)
        else
          let fp := findOriginalKeyS ρ (.jobj tg fs) columnName k
          match fp.1 with
          | some okey =>
            (match getField (.jobj tg fs) okey with
              | some v =>
                (match v with
                  | .jbool b => some (.jnum (if b then 1 else 0))
                  | .jarr ys => some (.jstr (jsonStringifyFuel sf (.jarr ys)))
                  | .jobj t2 g2 => some (.jstr (jsonStringifyFuel sf (.jobj t2 g2)))
                  | other => some other)
              | none => none, fp.2)
          | none => (none, fp.2)
      match vp.1 with
      | some v => (rowSet rowData columnName v, vp.2)
      | none =>
        -- last-resort direct property access
        (match getField (.jobj tg fs) columnName with
          | some v =>
            (rowSet rowData columnName
              (match v with
                | .jbool b => .jnum (if b then 1 else 0)
                | .jarr ys => .jstr (jsonStringifyFuel sf (.jarr ys))
                | .jobj t2 g2 => .jstr (jsonStringifyFuel sf (.jobj t2 g2))
                | other => other), vp.2)
          | none => (rowData, vp.2))) ([], k)
  | .jarr _ =>
    -- arrays fall through the column loop and match no keys
    ([], k)
  | _ =>
    ((match schema.columns.lookup "value" with
      | some _ => [("value", obj)]
      | none =>
        match schema.columns with
        | (c0, _) :: _ => [(c0, obj)]
        | [] => []), k)

/-- `DataInsertionEngine.insertSimpleRow` (plain `INSERT`). -/
def insertSimpleRow (ρ : Supply) (sf : Nat) (obj : JValue) (tableName : String)
    (schema : TableSchema) (ist : IState) (db : DB) : InsOut Unit :=
  match mapObjectToSimpleSchema ρ sf obj schema ist.ctr with
  | (rowData, k') =>
    let ist := { ist with ctr := k' }
    let isNullScalar :=
      tableName == "scalar_data" && (match obj with | .jnull => true | _ => false)
    if rowData.isEmpty && !isNullScalar then (.ok (), ist, db)
    else
      match dbInsert false db tableName rowData with
      | .error e => (.error e, ist, db)
      | .ok db' => (.ok (), ist, db')

/-- `DataInsertionEngine.insertJunctionTableRecords`: phase 2.  The junction
name is split on `_` and the first two fragments name the id columns. -/
def insertJunctionTableRecords (schemas : List (String × TableSchema))
    (ist : IState) (db : DB) : InsOut Unit :=
  ist.relationshipData.foldl (fun (acc : InsOut Unit) rel =>
    match acc with
    | (.error e, ist, db) => (.error e, ist, db)
    | (.ok _, ist, db) =>
      match schemas.lookup rel.1 with
      | some _ =>
        let parts := splitOnU [] rel.1.data
        let table1 := parts.headD ""
        let table2 := (parts.drop 1).headD ""
        rel.2.foldl (fun (acc2 : InsOut Unit) pairKey =>
          match acc2 with
          | (.error e, ist, db) => (.error e, ist, db)
          | (.ok _, ist, db) =>
            let ids := (splitOnU [] pairKey.data).map jsNumber
            match dbInsert true db rel.1
                [(table1 ++ "_id", ids.headD .jnull),
                 (table2 ++ "_id", (ids.drop 1).headD .jnull)] with
            | .error e => (.error e, ist, db)
            | .ok db' => (.ok (), ist, db')) ((.ok (), ist, db) : InsOut Unit)
      | none => (.ok (), ist, db)) ((.ok (), ist, db) : InsOut Unit)

/-- `DataInsertionEngine.insertData`. -/
def insertData (ρ : Supply) (sf : Nat) (fuel : Nat) (data : JValue)
    (schemas : List (String × TableSchema)) (ist : IState) (db : DB) : InsOut Unit :=
  let fallback :=
    match schemas.map Prod.fst with
    | [only] =>
      if only == "scalar_data" || only == "array_data" || only == "root_object" then
        some only
      else none
    | _ => none
  match fallback with
  | some only =>
    (match schemas.lookup only with
      | some schema =>
        if only == "scalar_data" || only == "root_object" then
          insertSimpleRow ρ sf data only schema ist db
        else
          match data with
          | .jarr xs =>
            xs.foldl (fun (acc : InsOut Unit) item =>
              match acc with
              | (.error e, ist, db) => (.error e, ist, db)
              | (.ok _, ist, db) => insertSimpleRow ρ sf item only schema ist db)
              ((.ok (), ist, db) : InsOut Unit)
          | _ => insertSimpleRow ρ sf data only schema ist db
      | none => (.ok (), ist, db))
  | none =>
    match insertAllEntitiesFuel ρ sf fuel data schemas [] ist db with
    | (.error e, ist, db) => (.error e, ist, db)
    | (.ok _, ist, db) => insertJunctionTableRecords schemas ist db

/-! ## The Durable Object (`JsonToSqlDO`) -/

def doReservedWords : List String :=
  ["table", "index", "view", "column", "primary", "key", "foreign", "constraint",
   "order", "group", "select", "from", "where", "insert", "update", "delete",
   "create", "drop", "alter", "join", "inner", "outer", "left", "right",
   "union", "all", "distinct", "having", "limit", "offset", "as", "on"]

/-- `JsonToSqlDO.validateAndFixIdentifier`. -/
def validateAndFixIdentifier (name : String) (isTable : Bool) : String :=
  if name == "" then (if isTable then "fallback_table" else "fallback_column")
  else
    let fixed : String :=
      ⟨dropEdgeUnderscores (collapseU false (jsReplaceNonAlnum name.data))⟩
    let fixed :=
      if startsWithDigit fixed then (if isTable then "table_" else "col_") ++ fixed
      else fixed
    if fixed == "" then (if isTable then "fallback_table" else "fallback_column")
    else
      let fixed :=
        if doReservedWords.contains (lowerStr fixed) then
          fixed ++ (if isTable then "_tbl" else "_col")
        else fixed
      lowerStr fixed

def upperStr (s : String) : String := ⟨s.data.map Char.toUpper⟩

def validSQLiteTypes : List String :=
  ["INTEGER", "REAL", "TEXT", "BLOB", "NUMERIC",
   "INTEGER PRIMARY KEY", "INTEGER PRIMARY KEY AUTOINCREMENT", "JSON"]

def sqliteTypeMap : List (String × String) :=
  [ ("STRING", "TEXT"), ("VARCHAR", "TEXT"), ("CHAR", "TEXT"), ("CLOB", "TEXT"),
    ("INT", "INTEGER"), ("BIGINT", "INTEGER"), ("SMALLINT", "INTEGER"),
    ("TINYINT", "INTEGER"), ("FLOAT", "REAL"), ("DOUBLE", "REAL"),
    ("DECIMAL", "NUMERIC"), ("BOOLEAN", "INTEGER"), ("BOOL", "INTEGER"),
    ("DATE", "TEXT"), ("DATETIME", "TEXT"), ("TIMESTAMP", "TEXT") ]

/-- `JsonToSqlDO.validateSQLiteType`. -/
def validateSQLiteType (ty : String) : String :=
  if ty == "" then "TEXT"
  else
    let upperType := upperStr ty
    if validSQLiteTypes.any (fun vt => containsSub vt.data upperType.data) then ty
    else (sqliteTypeMap.lookup upperType).getD "TEXT"

/-- `JsonToSqlDO.createTables` (`CREATE TABLE IF NOT EXISTS` per schema; in
this model creation cannot throw, so the per-table catch with its
`(id, data_json)` fallback table is never taken). -/
def createTables (schemas : List (String × TableSchema)) (db : DB) : DB :=
  schemas.foldl (fun db ts =>
    let validTableName := validateAndFixIdentifier ts.1 true
    let validColumnDefs := ts.2.columns.map fun c =>
      (validateAndFixIdentifier c.1 false, validateSQLiteType c.2)
    if validColumnDefs.isEmpty then db
    else dbCreateTableIfNotExists db validTableName validColumnDefs) db

structure SchemaInfo where
  columns : List (String × String)
  row_count : Nat
  sample_data : List (List (String × JValue))

structure ProcessingResult where
  success : Bool
  message : Option String := none
  schemas : List (String × SchemaInfo) := []
  table_count : Option Nat := none
  total_rows : Option Nat := none
  pagination : Option PaginationInfo := none

/-- `JsonToSqlDO.generateMetadata` (a failing per-table count is skipped). -/
def generateMetadata (schemas : List (String × TableSchema)) (db : DB) :
    List (String × SchemaInfo) × Nat :=
  schemas.foldl (fun (acc : List (String × SchemaInfo) × Nat) ts =>
    match db.tables.lookup ts.1 with
    | none => acc
    | some tb =>
      (acc.1 ++ [(ts.1, ⟨ts.2.columns, tb.rows.length, (tb.rows.take 3).map (·.cells)⟩)],
       acc.2 + tb.rows.length)) ([], 0)

/-- `jsonData?.data ? jsonData.data : jsonData`. -/
def unwrapData (jsonData : JValue) : JValue :=
  if truthyOpt (getField jsonData "data") then (getField jsonData "data").getD jsonData
  else jsonData

/-- `JsonToSqlDO.processAndStoreJson`: analyze pagination, infer schemas,
create tables, insert, and attach pagination metadata only when
`hasNextPage`; any exception is caught into `success:false`. -/
def processAndStoreJson (ρ : Supply) (fuel : Nat) (db : DB) (jsonData : JValue) :
    ProcessingResult × DB :=
  let dataToProcess := unwrapData jsonData
  let paginationInfo := extractInfo fuel dataToProcess
  match inferFromJSON ρ fuel dataToProcess 0 with
  | .error e => ({ success := false, message := some e }, db)
  | .ok (schemas, k) =>
    let db1 := createTables schemas db
    let r := insertData ρ fuel fuel dataToProcess schemas ⟨[], [], k⟩ db1
    match r.1 with
    | .error e => ({ success := false, message := some e }, r.2.2)
    | .ok _ =>
      let md := generateMetadata schemas r.2.2
      ({ success := true, message := some "Data processed successfully",
         schemas := md.1, table_count := some schemas.length,
         total_rows := some md.2,
         pagination := if paginationInfo.hasNextPage then some paginationInfo else none },
       r.2.2)

/-! ## Concrete documents for the insertion claims -/

/-- A fixed supply for concrete runs (none of these runs draws a name). -/
def supplyR : Supply := fun n => "r" ++ toString n

def catA : JValue := .jobj 1 [("id", .jnum 1), ("name", .jstr "a")]
def catB : JValue := .jobj 2 [("id", .jnum 2), ("name", .jstr "b")]

/-- `{"categories":[{"id":1,"name":"a"},{"id":2,"name":"b"}]}`. -/
def docCategories : JValue := .jobj 0 [("categories", .jarr [catA, catB])]

/-- The scalar numeric `id` of an object, when it has one. -/
def idNum (e : JValue) : Option Rat :=
  match getField e "id" with
  | some (.jnum q) => some q
  | _ => none

set_option maxHeartbeats 4000000 in
/-- C2: the code violates the claim.  In
`{"categories":[{id:1,name:"a"},{id:2,name:"b"}]}` both objects satisfy the
entity heuristic, are distinct references (tags 1 and 2) with distinct ids,
and the schema engine pools them under the resolved type name `category`
(`ies -> y` singularization).  The insertion engine, whose comment says it
reuses that logic, resolves `categorie` instead (it only strips a final
`s`), finds no such schema, and inserts nothing: the `process` call reports
success and the `category` table is left with 0 rows instead of 2. -/
theorem C2_insertion_name_mismatch_eval :
    isEntity catA = true ∧ isEntity catB = true
    ∧ tagOf catA = some 1 ∧ tagOf catB = some 2
    ∧ idNum catA = some 1 ∧ idNum catB = some 2
    ∧ ((discoverFuel supplyR 60 docCategories [] none ⟨[], [], 0⟩).map
        fun st => st.discovered.map fun p => (p.1, p.2.length))
      = .ok [("category", 2)]
    ∧ (insInferEntityTypeS supplyR catA ["categories"] 0).1 = "categorie"
    ∧ (processAndStoreJson supplyR 60 emptyDB docCategories).1.success = true
    ∧ rowCountDB (processAndStoreJson supplyR 60 emptyDB docCategories).2 "category"
        = some 0 := by
  exact ⟨rfl, rfl, rfl, rfl, rfl, rfl, rfl, rfl, rfl, rfl⟩

def varV : JValue := .jobj 2 [("id", .jnum 2), ("name", .jstr "v")]
def geneG : JValue :=
  .jobj 1 [("id", .jnum 1), ("name", .jstr "g"), ("variants", .jarr [varV])]

/-- `{"my_genes":[{id:1,name:"g",variants:[{id:2,name:"v"}]}]}` - a type
name containing an underscore. -/
def docMyGenes : JValue := .jobj 0 [("my_genes", .jarr [geneG])]

set_option maxHeartbeats 4000000 in
/-- C3: the code violates the claim as soon as a related type name contains
an underscore.  For `my_gene` holding a list of `variant` entities the
junction table `my_gene_variant` (sorted pair, columns `id`, `my_gene_id`,
`variant_id`) is created and exactly one pair (1,2) is observed, but
`insertJunctionTableRecords` splits the table name on `_` and issues an
insert into columns `my_id`/`gene_id`; the store rejects it, the whole
`process` call aborts with that error, and the junction table is left with
0 rows instead of 1. -/
theorem C3_junction_split_eval :
    tableColsDB (processAndStoreJson supplyR 60 emptyDB docMyGenes).2 "my_gene_variant"
      = some ["id", "my_gene_id", "variant_id"]
    ∧ (match inferFromJSON supplyR 60 docMyGenes 0 with
        | .ok (schemas, k) =>
          ((insertAllEntitiesFuel supplyR 60 60 docMyGenes schemas []
            ⟨[], [], k⟩ (createTables schemas emptyDB)).2.1.relationshipData)
        | .error _ => [])
      = [("my_gene_variant", ["1_2"])]
    ∧ (processAndStoreJson supplyR 60 emptyDB docMyGenes).1.success = false
    ∧ (processAndStoreJson supplyR 60 emptyDB docMyGenes).1.message
        = some "table my_gene_variant has no column named my_id"
    ∧ rowCountDB (processAndStoreJson supplyR 60 emptyDB docMyGenes).2 "my_gene_variant"
        = some 0 := by
  refine ⟨by decide, by decide, by decide, by decide, by decide⟩

/-- `docMyGenes` plus a root `pageInfo` with `hasNextPage:true`. -/
def docPagFail : JValue :=
  .jobj 0 [("my_genes", .jarr [geneG]),
    ("pageInfo", .jobj 3 [("hasNextPage", .jbool true), ("endCursor", .jstr "abc")])]

set_option maxHeartbeats 4000000 in
/-- C10 counterexample: for this document the extracted `hasNextPage` flag
is true, yet the `process` result carries no pagination field, because the
staging call fails during junction insertion and the catch branch returns
only `success:false` with a message. -/
theorem C10_counterexample_failure_omits_pagination :
    (extractInfo 60 (unwrapData docPagFail)).hasNextPage = true
    ∧ (processAndStoreJson supplyR 60 emptyDB docPagFail).1.success = false
    ∧ (processAndStoreJson supplyR 60 emptyDB docPagFail).1.pagination = none := by
  exact ⟨rfl, rfl, rfl⟩

/-! ## Chunked Field Store

Modelled from the spec: no chunk-store implementation exists in `src/` -
`sql-tool.ts` posts to the Durable Object route `/query-enhanced` and reads
a `chunked_content_resolved` flag from its response, but the object in
`graphql-tool.ts` serves no such route and contains no chunking code.  The
definitions below embed spec section 4.5 directly: a scalar value whose
length exceeds the configured threshold is split into ordered fixed-size
pieces kept in a side table keyed by piece index, the main cell keeps a
reference token, and the read path reassembles the pieces in index order
and reports `chunked_content_resolved`. -/

/-- Modelled from the spec: a main-row cell either holds the raw value or a
reference token standing for chunked content. -/
inductive ChunkCell where
  | raw (s : String)
  | tokenRef

/-- Modelled from the spec: split into ordered fixed-size pieces (fuel is
the length of the input). -/
def chunkPieces : Nat → Nat → List Char → List (List Char)
  | 0, _, _ => []
  | _ + 1, _, [] => []
  | f + 1, size, cs => cs.take size :: chunkPieces f size (cs.drop size)

/-- Modelled from the spec: insertion replaces an over-threshold value by a
reference token plus index-keyed pieces in the side table. -/
def chunkInsertValue (threshold size : Nat) (s : String) :
    ChunkCell × List (Nat × String) :=
  if threshold < s.data.length then
    (.tokenRef, ((chunkPieces s.data.length size s.data).map
      fun p => (⟨p⟩ : String)).enum)
  else (.raw s, [])

/-- Modelled from the spec: the read path substitutes reference tokens by
the reassembled pieces (in index order) and flags the resolution. -/
def chunkResolveCell : ChunkCell → List (Nat × String) → String × Bool
  | .raw s, _ => (s, false)
  | .tokenRef, ps => (⟨(ps.map fun p => p.2.data).flatten⟩, true)

/-- C10 amended: the staging result carries the pagination field iff the
`process` call succeeded and the `hasNextPage` flag extracted from the
first `pageInfo` object of the (data-unwrapped) document is true; on a
failed call the metadata is computed but omitted. -/
theorem C10_amended_pagination_iff (ρ : Supply) (fuel : Nat) (db : DB)
    (jsonData : JValue) :
    (processAndStoreJson ρ fuel db jsonData).1.pagination.isSome
      = ((processAndStoreJson ρ fuel db jsonData).1.success
          && (extractInfo fuel (unwrapData jsonData)).hasNextPage) := by
  unfold processAndStoreJson
  cases hinf : inferFromJSON ρ fuel (unwrapData jsonData) 0 with
  | error e => simp [hinf]
  | ok p =>
    obtain ⟨schemas, k⟩ := p
    simp only [hinf]
    cases hr : (insertData ρ fuel fuel (unwrapData jsonData) schemas
        ⟨[], [], k⟩ (createTables schemas db)).1 with
    | error e => simp [hr]
    | ok u =>
      cases hnp : (extractInfo fuel (unwrapData jsonData)).hasNextPage <;>
        simp [hr, hnp]

theorem chunkPieces_join (size : Nat) (hs : 1 ≤ size) :
    ∀ (f : Nat) (cs : List Char), cs.length ≤ f →
      (chunkPieces f size cs).flatten = cs := by
  intro f
  induction f with
  | zero =>
    intro cs hcs
    have : cs = [] := List.eq_nil_of_length_eq_zero (Nat.le_zero.1 hcs)
    subst this
    rfl
  | succ f ih =>
    intro cs hcs
    cases cs with
    | nil => rfl
    | cons c rest =>
      have hlen : ((c :: rest).drop size).length ≤ f := by
        rw [List.length_drop]
        have h1 : (c :: rest).length ≤ f + 1 := hcs
        omega
      calc (chunkPieces (f + 1) size (c :: rest)).flatten
          = (c :: rest).take size ++ (chunkPieces f size ((c :: rest).drop size)).flatten := by
            rfl
        _ = (c :: rest).take size ++ (c :: rest).drop size := by rw [ih _ hlen]
        _ = c :: rest := List.take_append_drop size (c :: rest)

/-- C8: (spec-modelled, see the section header) storing a scalar value
longer than its chunk threshold and reading it back through the resolution
step returns the exact original string with the resolved flag set. -/
theorem C8_chunk_roundtrip (threshold size : Nat) (s : String)
    (hsize : 1 ≤ size) (hlong : threshold < s.data.length) :
    chunkResolveCell (chunkInsertValue threshold size s).1
      (chunkInsertValue threshold size s).2 = (s, true) := by
  have h1 : ((((chunkPieces s.data.length size s.data).map
        fun p => ((⟨p⟩ : String))).enum).map fun p => p.2.data)
      = chunkPieces s.data.length size s.data := by
    have h2 : ∀ (l : List String), (l.enum.map fun p => p.2.data) = l.map String.data := by
      intro l
      have h3 : (l.enum.map fun p => p.2.data)
          = (l.enum.map Prod.snd).map String.data := by
        rw [List.map_map]
        rfl
      rw [h3, List.enum_map_snd]
    rw [h2, List.map_map]
    have h4 : (String.data ∘ fun p : List Char => ((⟨p⟩ : String))) = id := by
      funext p
      rfl
    rw [h4, List.map_id]
  unfold chunkInsertValue
  rw [if_pos hlong]
  dsimp only [chunkResolveCell]
  rw [h1, chunkPieces_join size hsize s.data.length s.data (Nat.le_refl _)]

/-- Witness: a 5-character value with threshold 3 and piece size 2. -/
theorem C8_chunk_roundtrip_witness :
    1 ≤ 2 ∧ 3 < ("hello" : String).data.length
    ∧ chunkResolveCell (chunkInsertValue 3 2 "hello").1
        (chunkInsertValue 3 2 "hello").2 = ("hello", true) :=
  ⟨by decide, by decide, C8_chunk_roundtrip 3 2 "hello" (by decide) (by decide)⟩

/-! ## Lookup lemmas for the schema-assembly claims -/

theorem lookup_append {β : Type} (l1 l2 : List (String × β)) (c : String) :
    (l1 ++ l2).lookup c =
      match l1.lookup c with
      | some v => some v
      | none => l2.lookup c := by
  induction l1 with
  | nil => rfl
  | cons p t ih =>
    obtain ⟨n, v⟩ := p
    by_cases h : c = n
    · subst h
      simp [List.lookup]
    · have hb : (c == n) = false := by simp [h]
      simp [List.lookup, hb, ih]

theorem setAssoc_lookup (cols : List (String × String)) (key v c : String) :
    (setAssoc cols key v).lookup c = if c == key then some v else cols.lookup c := by
  induction cols with
  | nil =>
    simp only [setAssoc]
    by_cases h : c = key
    · subst h; simp [List.lookup]
    · have hb : (c == key) = false := by simp [h]
      simp [List.lookup, hb]
  | cons p t ih =>
    obtain ⟨n, x⟩ := p
    by_cases hn : n = key
    · subst hn
      simp only [setAssoc, beq_self_eq_true, if_true]
      by_cases h : c = n
      · subst h; simp [List.lookup]
      · have hb : (c == n) = false := by simp [h]
        simp [List.lookup, hb]
    · have hbn : (n == key) = false := by simp [hn]
      simp only [setAssoc, hbn, Bool.false_eq_true, if_false]
      by_cases h : c = n
      · subst h
        have hck : (c == key) = false := by simp [hn]
        simp [List.lookup, hck]
      · have hb : (c == n) = false := by simp [h]
        simp [List.lookup, hb, ih]

theorem ensureIdColumn_id_isSome (cols : List (String × String)) :
    (((ensureIdColumn cols).lookup "id").isSome) = true := by
  unfold ensureIdColumn
  cases h : cols.lookup "id" with
  | none =>
    rw [lookup_append]
    simp [h, List.lookup]
  | some ty =>
    by_cases hty : ty = "INTEGER"
    · subst hty
      simp [setAssoc_lookup]
    · have hb : (ty == "INTEGER") = false := by simp [hty]
      simp [hb, h]

theorem upsertSchema_lookup_or (schemas : List (String × TableSchema)) (n : String)
    (sch : TableSchema) (m : String) (r : TableSchema)
    (h : (upsertSchema schemas n sch).lookup m = some r) :
    r = sch ∨ schemas.lookup m = some r := by
  induction schemas with
  | nil =>
    simp only [upsertSchema] at h
    by_cases hm : m = n
    · subst hm; simp [List.lookup] at h; exact Or.inl h.symm
    · have hb : (m == n) = false := by simp [hm]
      simp [List.lookup, hb] at h
  | cons p t ih =>
    obtain ⟨a, s0⟩ := p
    by_cases ha : a = n
    · subst ha
      simp only [upsertSchema, beq_self_eq_true, if_true] at h
      by_cases hm : m = a
      · subst hm
        simp [List.lookup] at h
        exact Or.inl h.symm
      · have hb : (m == a) = false := by simp [hm]
        simp [List.lookup, hb] at h ⊢
        exact Or.inr h
    · have hban : (a == n) = false := by simp [ha]
      simp only [upsertSchema, hban, Bool.false_eq_true, if_false] at h
      by_cases hm : m = a
      · subst hm
        simp [List.lookup] at h ⊢
        exact Or.inr h
      · have hb : (m == a) = false := by simp [hm]
        simp [List.lookup, hb] at h ⊢
        exact ih h

theorem foldl_invariant {α β : Type} (P : α → Prop) (f : α → β → α) (l : List β)
    (init : α) (h0 : P init) (hstep : ∀ a b, P a → P (f a b)) : P (l.foldl f init) := by
  induction l generalizing init with
  | nil => exact h0
  | cons b t ih => exact ih _ (hstep _ _ h0)

theorem foldl_invariant_fst {α γ β : Type} (P : α → Prop) (f : α × γ → β → α × γ)
    (l : List β) (init : α × γ) (h0 : P init.1)
    (hstep : ∀ a b, P a.1 → P (f a b).1) : P (l.foldl f init).1 := by
  induction l generalizing init with
  | nil => exact h0
  | cons b t ih => exact ih _ (hstep _ _ h0)

/-- The invariant behind the amended C4: every schema in the map has an
`id` column. -/
def HasIdSchemas (schemas : List (String × TableSchema)) : Prop :=
  ∀ m sch, schemas.lookup m = some sch → (sch.columns.lookup "id").isSome = true

theorem schemaForEntities_id (ρ : Supply) (sf : Nat) (es : List JValue) (k : Nat) :
    (((schemaForEntities ρ sf es k).1.columns.lookup "id").isSome) = true := by
  simp only [schemaForEntities]
  exact ensureIdColumn_id_isSome _

theorem createJunctionTableSchemas_hasId (rels : List (String × List String))
    (schemas : List (String × TableSchema)) (h : HasIdSchemas schemas) :
    HasIdSchemas (createJunctionTableSchemas rels schemas) := by
  unfold createJunctionTableSchemas
  refine foldl_invariant_fst HasIdSchemas _ rels (schemas, []) h ?_
  intro acc fr hP
  refine foldl_invariant_fst HasIdSchemas _ fr.2 acc hP ?_
  intro acc2 toT hP2
  dsimp only
  split
  · exact hP2
  · intro m sch hl
    rcases upsertSchema_lookup_or _ _ _ _ _ hl with rfl | h2
    · simp [List.lookup]
    · exact hP2 m sch h2

/-- C4: the code violates the claim on both counts.  A document with no
entities falls back to a `root_object` table whose schema has no `id`
column at all, and an entity whose `id` is a string keeps a plain `TEXT`
`id` that is never promoted to a primary key. -/
theorem C4_counterexample :
    ((inferFromJSON supplyR 60 (.jobj 0 [("total", .jnum 42)]) 0).map
        fun p => p.1.map fun ts => (ts.1, ts.2.columns))
      = .ok [("root_object", [("total", "INTEGER")])]
    ∧ ((inferFromJSON supplyR 60
          (.jobj 0 [("things",
            .jarr [.jobj 1 [("id", .jstr "abc"), ("name", .jstr "x")]])]) 0).map
        fun p => p.1.map fun ts => (ts.1, ts.2.columns))
      = .ok [("thing", [("id", "TEXT"), ("name", "TEXT")])] :=
  ⟨rfl, rfl⟩

/-- C4 amended: on the entity path the guarantee does hold - every table
produced by `createSchemasFromEntitiesS` (entity tables via
`ensureIdColumn`, junction tables by construction) carries an `id` column;
the fallback tables and the promotion of non-INTEGER ids are the exceptions
recorded in the counterexample. -/
theorem C4_amended_entity_tables_have_id (ρ : Supply) (sf : Nat)
    (discovered : List (String × List JValue)) (rels : List (String × List String))
    (k : Nat) (n : String) :
    (((createSchemasFromEntitiesS ρ sf discovered rels k).1.lookup n).elim true
      fun sch => (sch.columns.lookup "id").isSome) = true := by
  have hfold : HasIdSchemas
      (discovered.foldl (fun acc te =>
        if te.2.isEmpty then (acc.1, acc.2)
        else
          (upsertSchema acc.1 te.1 (schemaForEntities ρ sf te.2 acc.2).1,
           (schemaForEntities ρ sf te.2 acc.2).2))
        (([], k) : List (String × TableSchema) × Nat)).1 := by
    refine foldl_invariant_fst HasIdSchemas _ discovered ([], k) ?_ ?_
    · intro m sch hl
      simp [List.lookup] at hl
    · intro acc te hP
      dsimp only
      split
      · exact hP
      · intro m sch hl
        rcases upsertSchema_lookup_or _ _ _ _ _ hl with rfl | h2
        · exact schemaForEntities_id ρ sf te.2 acc.2
        · exact hP m sch h2
  have hAll : HasIdSchemas (createSchemasFromEntitiesS ρ sf discovered rels k).1 := by
    simp only [createSchemasFromEntitiesS]
    exact createJunctionTableSchemas_hasId rels _ hfold
  cases hl : (createSchemasFromEntitiesS ρ sf discovered rels k).1.lookup n with
  | none => rfl
  | some sch => simpa using hAll n sch hl

/-! ## Order-independence of column-type resolution (C7) -/

/-- The observed-type set of a column (`columnTypes[column]`). -/
def typesAt (ct : List (String × List String)) (c : String) : List String :=
  (ct.lookup c).getD []

/-- An entity whose field extraction never draws a random column name: its
emitted pairs and sample row are the same under every supply and counter,
and the counter passes through unchanged. -/
def DrawFreeEntity (ρ : Supply) (sf : Nat) (e : JValue) : Prop :=
  ∀ (ρ' : Supply) (k : Nat),
    extractEntityPairs ρ' sf e k
      = ((extractEntityPairs ρ sf e 0).1, (extractEntityPairs ρ sf e 0).2.1, k)

theorem addColumnType_lookup (ct : List (String × List String)) (col ty c : String) :
    (addColumnType ct col ty).lookup c =
      if c == col then
        some (match ct.lookup col with
          | none => [ty]
          | some tys => if tys.contains ty then tys else tys ++ [ty])
      else ct.lookup c := by
  induction ct with
  | nil =>
    by_cases h : c = col
    · subst h; simp [addColumnType, List.lookup]
    · have hb : (c == col) = false := by simp [h]
      simp [addColumnType, List.lookup, hb]
  | cons p rest ih =>
    obtain ⟨n, tys0⟩ := p
    by_cases hn : n = col
    · subst hn
      simp only [addColumnType, beq_self_eq_true, if_true]
      by_cases h : c = n
      · subst h; simp [List.lookup]
      · have hb : (c == n) = false := by simp [h]
        simp [List.lookup, hb]
    · have hbn : (n == col) = false := by simp [hn]
      have hcoln : (col == n) = false := by simp [Ne.symm hn]
      simp only [addColumnType, hbn, Bool.false_eq_true, if_false]
      by_cases h : c = n
      · subst h
        have hcc : (c == col) = false := by simp [hn]
        simp [List.lookup, hcc, hcoln, hn, Ne.symm hn]
      · have hb : (c == n) = false := by simp [h]
        simp [List.lookup, hb, hcoln, hn, Ne.symm hn, h, ih]

theorem mem_typesAt_addColumnType (ct : List (String × List String))
    (col ty c a : String) :
    a ∈ typesAt (addColumnType ct col ty) c ↔ (c = col ∧ a = ty) ∨ a ∈ typesAt ct c := by
  unfold typesAt
  rw [addColumnType_lookup]
  by_cases h : c = col
  · subst h
    simp only [beq_self_eq_true, if_true]
    cases hl : ct.lookup c with
    | none => simp
    | some tys =>
      by_cases hc : tys.contains ty = true
      · have hmem : ty ∈ tys := List.elem_iff.1 hc
        simp only [hc, if_true, Option.getD_some]
        exact ⟨fun hm => Or.inr hm,
          fun hor => hor.elim (fun he => he.2 ▸ hmem) id⟩
      · have hc' : tys.contains ty = false := by
          cases hx : tys.contains ty
          · rfl
          · exact absurd hx hc
        simp only [hc', Bool.false_eq_true, if_false, Option.getD_some, List.mem_append,
          List.mem_singleton]
        tauto
  · have hb : (c == col) = false := by simp [h]
    simp [hb, h]

theorem nodup_typesAt_addColumnType (ct : List (String × List String))
    (col ty c : String) (h : (typesAt ct c).Nodup) :
    (typesAt (addColumnType ct col ty) c).Nodup := by
  unfold typesAt at h ⊢
  rw [addColumnType_lookup]
  by_cases hc : c = col
  · subst hc
    simp only [beq_self_eq_true, if_true]
    cases hl : ct.lookup c with
    | none => simp
    | some tys =>
      rw [hl] at h
      simp only [Option.getD_some] at h ⊢
      by_cases hct : tys.contains ty = true
      · have hmem : ty ∈ tys := List.elem_iff.1 hct
        simpa [hct, hmem] using h
      · have hct' : tys.contains ty = false := by
          cases hx : tys.contains ty
          · rfl
          · exact absurd hx hct
        have hnm : ty ∉ tys := fun hm => hct (List.elem_iff.2 hm)
        simp only [hct', Bool.false_eq_true, if_false]
        exact h.append (List.nodup_singleton ty) (by simp [List.disjoint_singleton, hnm])
  · have hb : (c == col) = false := by simp [hc]
    simpa [hb] using h

theorem isSome_lookup_addColumnType (ct : List (String × List String))
    (col ty c : String) :
    ((addColumnType ct col ty).lookup c).isSome = ((c == col) || (ct.lookup c).isSome) := by
  rw [addColumnType_lookup]
  by_cases h : c = col
  · subst h; simp
  · have hb : (c == col) = false := by simp [h]
    simp [hb]

theorem mem_typesAt_addPairs (pairs : List (String × String)) :
    ∀ (ct : List (String × List String)) (c a : String),
      a ∈ typesAt (addPairs ct pairs) c ↔ (c, a) ∈ pairs ∨ a ∈ typesAt ct c := by
  induction pairs with
  | nil => intro ct c a; simp [addPairs]
  | cons p ps ih =>
    intro ct c a
    have h1 : addPairs ct (p :: ps) = addPairs (addColumnType ct p.1 p.2) ps := rfl
    rw [h1, ih, mem_typesAt_addColumnType]
    simp only [List.mem_cons, Prod.ext_iff]
    tauto

theorem nodup_typesAt_addPairs (pairs : List (String × String)) :
    ∀ ct, (∀ c, (typesAt ct c).Nodup) →
      ∀ c, (typesAt (addPairs ct pairs) c).Nodup := by
  induction pairs with
  | nil => intro ct h c; exact h c
  | cons p ps ih =>
    intro ct h c
    exact ih _ (fun c' => nodup_typesAt_addColumnType _ _ _ _ (h c')) c

theorem isSome_lookup_addPairs (pairs : List (String × String)) :
    ∀ ct c, ((addPairs ct pairs).lookup c).isSome
      = ((pairs.any fun p => c == p.1) || (ct.lookup c).isSome) := by
  induction pairs with
  | nil => intro ct c; simp [addPairs]
  | cons p ps ih =>
    intro ct c
    have h1 : addPairs ct (p :: ps) = addPairs (addColumnType ct p.1 p.2) ps := rfl
    rw [h1, ih, isSome_lookup_addColumnType]
    simp [Bool.or_comm, Bool.or_assoc, Bool.or_left_comm]

theorem mem_typesAt_foldl (Pf : JValue → List (String × String)) (l : List JValue) :
    ∀ ct c a,
      a ∈ typesAt (l.foldl (fun ct e => addPairs ct (Pf e)) ct) c
        ↔ (∃ e ∈ l, (c, a) ∈ Pf e) ∨ a ∈ typesAt ct c := by
  induction l with
  | nil => intro ct c a; simp
  | cons e es ih =>
    intro ct c a
    rw [List.foldl_cons, ih, mem_typesAt_addPairs]
    simp only [List.mem_cons]
    constructor
    · rintro (⟨x, hx, hm⟩ | (hm | hm))
      · exact Or.inl ⟨x, Or.inr hx, hm⟩
      · exact Or.inl ⟨e, Or.inl rfl, hm⟩
      · exact Or.inr hm
    · rintro (⟨x, (rfl | hx), hm⟩ | hm)
      · exact Or.inr (Or.inl hm)
      · exact Or.inl ⟨x, hx, hm⟩
      · exact Or.inr (Or.inr hm)

theorem nodup_typesAt_foldl (Pf : JValue → List (String × String)) (l : List JValue) :
    ∀ ct, (∀ c, (typesAt ct c).Nodup) →
      ∀ c, (typesAt (l.foldl (fun ct e => addPairs ct (Pf e)) ct) c).Nodup := by
  induction l with
  | nil => intro ct h c; exact h c
  | cons e es ih =>
    intro ct h c
    exact ih _ (fun c' => nodup_typesAt_addPairs _ _ h c') c

theorem isSome_lookup_foldl (Pf : JValue → List (String × String)) (l : List JValue) :
    ∀ ct c, (((l.foldl (fun ct e => addPairs ct (Pf e)) ct).lookup c).isSome)
      = ((l.any fun e => (Pf e).any fun p => c == p.1) || (ct.lookup c).isSome) := by
  induction l with
  | nil => intro ct c; simp
  | cons e es ih =>
    intro ct c
    rw [List.foldl_cons, ih, isSome_lookup_addPairs]
    simp [Bool.or_comm, Bool.or_assoc, Bool.or_left_comm]

theorem any_perm {α : Type} {l l' : List α} (h : l.Perm l') (f : α → Bool) :
    l.any f = l'.any f := by
  apply Bool.coe_iff_coe.mp
  simp only [List.any_eq_true]
  constructor
  · rintro ⟨x, hx, hf⟩; exact ⟨x, h.mem_iff.1 hx, hf⟩
  · rintro ⟨x, hx, hf⟩; exact ⟨x, h.mem_iff.2 hx, hf⟩

theorem resolveOne_perm {tys tys' : List String} (h : tys.Perm tys') :
    resolveOne tys = resolveOne tys' := by
  unfold resolveOne
  have hlen : tys.length = tys'.length := h.length_eq
  by_cases h1 : tys.length = 1
  · obtain ⟨a, ha⟩ := List.length_eq_one.1 h1
    subst ha
    have h2 : tys' = [a] := List.perm_singleton.1 h.symm
    subst h2
    rfl
  · have h1' : ¬ tys'.length = 1 := by rw [← hlen]; exact h1
    have hb : (tys.length == 1) = false := by simp [h1]
    have hb' : (tys'.length == 1) = false := by simp [h1']
    have hmt : "TEXT" ∈ tys ↔ "TEXT" ∈ tys' := h.mem_iff
    have hmr : "REAL" ∈ tys ↔ "REAL" ∈ tys' := h.mem_iff
    by_cases ht : "TEXT" ∈ tys
    · simp [hb, hb', ht, hmt.1 ht]
    · have ht' : "TEXT" ∉ tys' := fun hh => ht (hmt.2 hh)
      by_cases hr : "REAL" ∈ tys
      · simp [hb, hb', ht, ht', hr, hmr.1 hr]
      · have hr' : "REAL" ∉ tys' := fun hh => hr (hmr.2 hh)
        simp [hb, hb', ht, ht', hr, hr']

theorem lookup_resolveColumnTypes (ct : List (String × List String)) (c : String) :
    (resolveColumnTypes ct).lookup c = (ct.lookup c).map resolveOne := by
  induction ct with
  | nil => rfl
  | cons p rest ih =>
    obtain ⟨n, tys⟩ := p
    by_cases h : c = n
    · subst h; simp [resolveColumnTypes, List.lookup]
    · have hb : (c == n) = false := by simp [h]
      simp only [resolveColumnTypes, List.map_cons] at ih ⊢
      simp [List.lookup, hb, ih]

theorem ensureIdColumn_lookup_congr (cols cols' : List (String × String))
    (h : ∀ c, cols.lookup c = cols'.lookup c) (c : String) :
    (ensureIdColumn cols).lookup c = (ensureIdColumn cols').lookup c := by
  unfold ensureIdColumn
  rw [← h "id"]
  cases hid : cols.lookup "id" with
  | none =>
    rw [lookup_append, lookup_append, h c]
  | some ty =>
    by_cases hty : ty = "INTEGER"
    · subst hty
      simp only [beq_self_eq_true, if_true]
      rw [setAssoc_lookup, setAssoc_lookup, h c]
    · have hb : (ty == "INTEGER") = false := by simp [hty]
      simp only [hb, Bool.false_eq_true, if_false]
      exact h c

theorem foldl_fst_proj {α β δ : Type} (F : α × β → δ → α × β) (G : α → δ → α) :
    ∀ (l : List δ), (∀ p d, d ∈ l → (F p d).1 = G p.1 d) →
      ∀ p : α × β, (l.foldl F p).1 = l.foldl G p.1 := by
  intro l
  induction l with
  | nil => intro _ p; rfl
  | cons d t ih =>
    intro hc p
    rw [List.foldl_cons, List.foldl_cons,
      ih (fun p' d' hd' => hc p' d' (List.mem_cons_of_mem d hd')) (F p d),
      hc p d (List.mem_cons_self d t)]

def eSymA : JValue := .jobj 1 [("id", .jnum 1), ("!!!", .jnum 1)]
def eSymB : JValue := .jobj 2 [("id", .jnum 2), ("???", .jstr "s")]

/-- C7: the code violates the claim when a field key sanitizes to the empty
string, because the replacement column name is drawn from `Math.random()`
in encounter order.  For the entities `{id:1,"!!!":1}` and `{id:2,"???":"s"}`
the first drawn name (`column_r0` under the fixed supply) maps to INTEGER
in one order and to TEXT in the other. -/
theorem C7_counterexample :
    ([eSymA, eSymB] : List JValue).Perm [eSymB, eSymA]
    ∧ isEntity eSymA = true ∧ isEntity eSymB = true
    ∧ (schemaForEntities supplyR 60 [eSymA, eSymB] 0).1.columns.lookup "column_r0"
        = some "INTEGER"
    ∧ (schemaForEntities supplyR 60 [eSymB, eSymA] 0).1.columns.lookup "column_r0"
        = some "TEXT" :=
  ⟨List.Perm.swap eSymB eSymA [], rfl, rfl, rfl, rfl⟩

/-- C7 amended: when no entity in the list forces a random column name
(every field key survives sanitization), the resolved column-name-to-type
mapping is invariant under permutation of the instance list and under the
starting counter: every column name resolves to the same SQL type. -/
theorem C7_amended_resolution_permutation_invariant
    (ρ : Supply) (sf : Nat) (es es' : List JValue) (k k' : Nat) (col : String)
    (hperm : es.Perm es')
    (hdf : ∀ e ∈ es, DrawFreeEntity ρ sf e) :
    (schemaForEntities ρ sf es k).1.columns.lookup col
      = (schemaForEntities ρ sf es' k').1.columns.lookup col := by
  have hdf' : ∀ e ∈ es', DrawFreeEntity ρ sf e :=
    fun e he => hdf e (hperm.mem_iff.2 he)
  have hcols : ∀ (l : List JValue) (j : Nat), (∀ e ∈ l, DrawFreeEntity ρ sf e) →
      (schemaForEntities ρ sf l j).1.columns
        = ensureIdColumn (resolveColumnTypes
            (l.foldl (fun ct e => addPairs ct (extractEntityPairs ρ sf e 0).1) [])) := by
    intro l j hl
    simp only [schemaForEntities]
    have hF : ∀ (p : List (String × List String)
          × List (List (String × JValue)) × Nat) (d : JValue), d ∈ l →
        (addPairs p.1 (extractEntityPairs ρ sf d p.2.2).1,
          (if p.2.1.length < 3 then p.2.1 ++ [(extractEntityPairs ρ sf d p.2.2).2.1]
           else p.2.1),
          (extractEntityPairs ρ sf d p.2.2).2.2).1
          = addPairs p.1 (extractEntityPairs ρ sf d 0).1 := by
      intro p d hd
      rw [hl d hd ρ p.2.2]
    rw [foldl_fst_proj _ (fun ct e => addPairs ct (extractEntityPairs ρ sf e 0).1) l hF
      ([], [], j)]
  rw [hcols es k hdf, hcols es' k' hdf']
  apply ensureIdColumn_lookup_congr
  intro c
  rw [lookup_resolveColumnTypes, lookup_resolveColumnTypes]
  have hsome : (((es.foldl (fun ct e =>
        addPairs ct (extractEntityPairs ρ sf e 0).1) []).lookup c).isSome)
      = (((es'.foldl (fun ct e =>
        addPairs ct (extractEntityPairs ρ sf e 0).1) []).lookup c).isSome) := by
    rw [isSome_lookup_foldl, isSome_lookup_foldl, any_perm hperm]
  have hnodup0 : ∀ c', (typesAt ([] : List (String × List String)) c').Nodup := by
    intro c'; simp [typesAt, List.lookup]
  have hmemiff : ∀ a,
      (∃ e ∈ es, (c, a) ∈ (extractEntityPairs ρ sf e 0).1)
        ↔ (∃ e ∈ es', (c, a) ∈ (extractEntityPairs ρ sf e 0).1) := by
    intro a
    constructor
    · rintro ⟨e, he, hm⟩; exact ⟨e, hperm.mem_iff.1 he, hm⟩
    · rintro ⟨e, he, hm⟩; exact ⟨e, hperm.mem_iff.2 he, hm⟩
  cases h1 : (es.foldl (fun ct e => addPairs ct (extractEntityPairs ρ sf e 0).1) []).lookup c with
  | none =>
    rw [h1] at hsome
    cases h2 : (es'.foldl (fun ct e => addPairs ct (extractEntityPairs ρ sf e 0).1) []).lookup c with
    | none => rfl
    | some tys' => rw [h2] at hsome; simp at hsome
  | some tys =>
    rw [h1] at hsome
    cases h2 : (es'.foldl (fun ct e => addPairs ct (extractEntityPairs ρ sf e 0).1) []).lookup c with
    | none => rw [h2] at hsome; simp at hsome
    | some tys' =>
      have nd : tys.Nodup := by
        have hh := nodup_typesAt_foldl (fun e => (extractEntityPairs ρ sf e 0).1) es
          [] hnodup0 c
        simpa [typesAt, h1] using hh
      have nd' : tys'.Nodup := by
        have hh := nodup_typesAt_foldl (fun e => (extractEntityPairs ρ sf e 0).1) es'
          [] hnodup0 c
        simpa [typesAt, h2] using hh
      have hp : tys.Perm tys' := by
        refine (List.perm_ext_iff_of_nodup nd nd').2 ?_
        intro a
        have hm1 := mem_typesAt_foldl (fun e => (extractEntityPairs ρ sf e 0).1) es [] c a
        have hm2 := mem_typesAt_foldl (fun e => (extractEntityPairs ρ sf e 0).1) es' [] c a
        rw [typesAt, h1] at hm1
        rw [typesAt, h2] at hm2
        simp only [typesAt, List.lookup, Option.getD_none, List.not_mem_nil, or_false,
          Option.getD_some] at hm1 hm2
        rw [hm1, hm2]
        exact hmemiff a
      simp [resolveOne_perm hp]

/-- Witness for the amended C7: `[catA, catB]` against its swap, with
different starting counters; no key of either entity draws a name. -/
theorem C7_amended_witness :
    ([catA, catB] : List JValue).Perm [catB, catA]
    ∧ (schemaForEntities supplyR 60 [catA, catB] 0).1.columns.lookup "name"
        = (schemaForEntities supplyR 60 [catB, catA] 7).1.columns.lookup "name" :=
  ⟨List.Perm.swap catB catA [],
   C7_amended_resolution_permutation_invariant supplyR 60 [catA, catB] [catB, catA] 0 7
     "name" (List.Perm.swap catB catA [])
     (by
       intro e he
       rcases List.mem_cons.1 he with rfl | he2
       · intro ρ' j; rfl
       · rcases List.mem_singleton.1 he2 with rfl
         intro ρ' j; rfl)⟩

/-! ## Determinism of schema inference (C9)

A run that never draws a random name (its counter comes back unchanged) is
independent of the supply.  Every stateful function of the inference engine
gets a monotonicity lemma (the counter never decreases) and a no-draw
lemma (an unchanged counter pins the result for every supply). -/

theorem foldl_mono_ctr {σ β : Type} (ctr : σ → Nat) (f : σ → β → σ) :
    ∀ (l : List β), (∀ s b, b ∈ l → ctr s ≤ ctr (f s b)) →
      ∀ s, ctr s ≤ ctr (l.foldl f s) := by
  intro l
  induction l with
  | nil => intro _ s; exact Nat.le_refl _
  | cons b t ih =>
    intro h s
    exact Nat.le_trans (h s b (List.mem_cons_self b t))
      (ih (fun s' b' hb' => h s' b' (List.mem_cons_of_mem b hb')) (f s b))

theorem foldl_nodraw_ctr {σ β : Type} (ctr : σ → Nat) (f₁ f₂ : σ → β → σ) :
    ∀ (l : List β),
      (∀ s b, b ∈ l → ctr s ≤ ctr (f₁ s b)) →
      (∀ s b, b ∈ l → ctr (f₁ s b) = ctr s → f₂ s b = f₁ s b) →
      ∀ s, ctr (l.foldl f₁ s) = ctr s → l.foldl f₂ s = l.foldl f₁ s := by
  intro l
  induction l with
  | nil => intro _ _ s _; rfl
  | cons b t ih =>
    intro hm hnd s hk
    rw [List.foldl_cons] at hk
    rw [List.foldl_cons, List.foldl_cons]
    have hm' : ∀ s' b', b' ∈ t → ctr s' ≤ ctr (f₁ s' b') :=
      fun s' b' hb' => hm s' b' (List.mem_cons_of_mem b hb')
    have h1 : ctr (f₁ s b) ≤ ctr (t.foldl f₁ (f₁ s b)) := foldl_mono_ctr ctr f₁ t hm' _
    have h2 : ctr s ≤ ctr (f₁ s b) := hm s b (List.mem_cons_self b t)
    have h3 : ctr (f₁ s b) = ctr s := Nat.le_antisymm (hk ▸ h1) h2
    rw [hnd s b (List.mem_cons_self b t) h3]
    exact ih hm' (fun s' b' hb' => hnd s' b' (List.mem_cons_of_mem b hb')) (f₁ s b)
      (by rw [hk, h3])

theorem foldlM_ex_mono {σ β : Type} (ctr : σ → Nat) (f : σ → β → Except String σ) :
    ∀ (l : List β),
      (∀ s b s', b ∈ l → f s b = .ok s' → ctr s ≤ ctr s') →
      ∀ s s', l.foldlM f s = .ok s' → ctr s ≤ ctr s' := by
  intro l
  induction l with
  | nil =>
    intro _ s s' h
    simp only [List.foldlM_nil] at h
    cases h
    exact Nat.le_refl _
  | cons b t ih =>
    intro hm s s' h
    simp only [List.foldlM_cons] at h
    cases hfb : f s b with
    | error e =>
      rw [hfb] at h
      have h' : (Except.error e : Except String σ) = .ok s' := h
      exact Except.noConfusion h'
    | ok s1 =>
      rw [hfb] at h
      have h' : t.foldlM f s1 = .ok s' := h
      exact Nat.le_trans (hm s b s1 (List.mem_cons_self b t) hfb)
        (ih (fun s0 b0 s0' hb0 => hm s0 b0 s0' (List.mem_cons_of_mem b hb0)) s1 s' h')

theorem foldlM_ex_nodraw {σ β : Type} (ctr : σ → Nat)
    (f₁ f₂ : σ → β → Except String σ) :
    ∀ (l : List β),
      (∀ s b s', b ∈ l → f₁ s b = .ok s' → ctr s ≤ ctr s') →
      (∀ s b s', b ∈ l → f₁ s b = .ok s' → ctr s' = ctr s → f₂ s b = .ok s') →
      ∀ s s', l.foldlM f₁ s = .ok s' → ctr s' = ctr s → l.foldlM f₂ s = .ok s' := by
  intro l
  induction l with
  | nil => intro _ _ s s' h _; exact h
  | cons b t ih =>
    intro hm hnd s s' h hk
    simp only [List.foldlM_cons] at h ⊢
    cases hfb : f₁ s b with
    | error e =>
      rw [hfb] at h
      have h' : (Except.error e : Except String σ) = .ok s' := h
      exact Except.noConfusion h'
    | ok s1 =>
      rw [hfb] at h
      have h' : t.foldlM f₁ s1 = .ok s' := h
      have hm' : ∀ s0 b0 s0', b0 ∈ t → f₁ s0 b0 = .ok s0' → ctr s0 ≤ ctr s0' :=
        fun s0 b0 s0' hb0 => hm s0 b0 s0' (List.mem_cons_of_mem b hb0)
      have h1 : ctr s1 ≤ ctr s' := foldlM_ex_mono ctr f₁ t hm' s1 s' h'
      have h2 : ctr s ≤ ctr s1 := hm s b s1 (List.mem_cons_self b t) hfb
      have h3 : ctr s1 = ctr s := Nat.le_antisymm (hk ▸ h1) h2
      rw [hnd s b s1 (List.mem_cons_self b t) hfb h3]
      show t.foldlM f₂ s1 = .ok s'
      exact ih hm' (fun s0 b0 s0' hb0 => hnd s0 b0 s0' (List.mem_cons_of_mem b hb0))
        s1 s' h' (by rw [hk, h3])

theorem sanitizeTableNameS_mono (ρ : Supply) (v : JValue) (k : Nat) :
    k ≤ (sanitizeTableNameS ρ v k).2 := by
  unfold sanitizeTableNameS
  cases h : sanitizeTableNamePureJ v <;> simp [h]

theorem sanitizeTableNameS_nodraw (ρ₁ ρ₂ : Supply) (v : JValue) (k : Nat)
    (h : (sanitizeTableNameS ρ₁ v k).2 = k) :
    sanitizeTableNameS ρ₂ v k = sanitizeTableNameS ρ₁ v k := by
  unfold sanitizeTableNameS at h ⊢
  cases hp : sanitizeTableNamePureJ v
  · simp [hp] at h
  · rfl

theorem sanitizeColumnNameS_mono (ρ : Supply) (s : String) (k : Nat) :
    k ≤ (sanitizeColumnNameS ρ s k).2 := by
  unfold sanitizeColumnNameS
  cases h : sanitizeColumnNamePure s <;> simp [h]

theorem sanitizeColumnNameS_nodraw (ρ₁ ρ₂ : Supply) (s : String) (k : Nat)
    (h : (sanitizeColumnNameS ρ₁ s k).2 = k) :
    sanitizeColumnNameS ρ₂ s k = sanitizeColumnNameS ρ₁ s k := by
  unfold sanitizeColumnNameS at h ⊢
  cases hp : sanitizeColumnNamePure s
  · simp [hp] at h
  · rfl

theorem addEntity_ctr (st : SState) (ty : String) (e : JValue) :
    (addEntity st ty e).ctr = st.ctr := rfl

theorem recordRelationship_ctr (st : SState) (a b : String) :
    (recordRelationship st a b).ctr = st.ctr := by
  unfold recordRelationship
  split
  · rfl
  · dsimp only
    split
    · rfl
    · rfl

/-- The singularization step that follows table-name sanitization in
`inferEntityType`, stated over the components of the sanitized pair: it
always passes the counter through. -/
theorem inferPath_post_k (s1 : String) (k1 : Nat) :
    ((if endsWithStr "ies" s1 then (dropRightStr 3 s1 ++ "y", k1)
      else if endsWithStr "s" s1 && !endsWithStr "ss" s1
          && decide (1 < s1.data.length) then
        if decide (1 < (dropRightStr 1 s1).data.length) then (dropRightStr 1 s1, k1)
        else (s1, k1)
      else (s1, k1)).2) = k1 := by
  split
  · rfl
  · split
    · split
      · rfl
      · rfl
    · rfl

theorem inferPath_mono (ρ : Supply) (nm : String) (k : Nat) :
    k ≤ (match sanitizeTableNameS ρ (.jstr nm) k with
      | (sanitized, k') =>
        if endsWithStr "ies" sanitized then (dropRightStr 3 sanitized ++ "y", k')
        else if endsWithStr "s" sanitized && !endsWithStr "ss" sanitized
            && decide (1 < sanitized.data.length) then
          if decide (1 < (dropRightStr 1 sanitized).data.length) then
            (dropRightStr 1 sanitized, k')
          else (sanitized, k')
        else (sanitized, k')).2 := by
  have hpost := inferPath_post_k (sanitizeTableNameS ρ (.jstr nm) k).1
    (sanitizeTableNameS ρ (.jstr nm) k).2
  exact (sanitizeTableNameS_mono ρ (.jstr nm) k).trans_eq hpost.symm

theorem inferPath_nodraw (ρ₁ ρ₂ : Supply) (nm : String) (k : Nat)
    (h : (match sanitizeTableNameS ρ₁ (.jstr nm) k with
      | (sanitized, k') =>
        if endsWithStr "ies" sanitized then (dropRightStr 3 sanitized ++ "y", k')
        else if endsWithStr "s" sanitized && !endsWithStr "ss" sanitized
            && decide (1 < sanitized.data.length) then
          if decide (1 < (dropRightStr 1 sanitized).data.length) then
            (dropRightStr 1 sanitized, k')
          else (sanitized, k')
        else (sanitized, k')).2 = k) :
    (match sanitizeTableNameS ρ₂ (.jstr nm) k with
      | (sanitized, k') =>
        if endsWithStr "ies" sanitized then (dropRightStr 3 sanitized ++ "y", k')
        else if endsWithStr "s" sanitized && !endsWithStr "ss" sanitized
            && decide (1 < sanitized.data.length) then
          if decide (1 < (dropRightStr 1 sanitized).data.length) then
            (dropRightStr 1 sanitized, k')
          else (sanitized, k')
        else (sanitized, k'))
      = (match sanitizeTableNameS ρ₁ (.jstr nm) k with
      | (sanitized, k') =>
        if endsWithStr "ies" sanitized then (dropRightStr 3 sanitized ++ "y", k')
        else if endsWithStr "s" sanitized && !endsWithStr "ss" sanitized
            && decide (1 < sanitized.data.length) then
          if decide (1 < (dropRightStr 1 sanitized).data.length) then
            (dropRightStr 1 sanitized, k')
          else (sanitized, k')
        else (sanitized, k')) := by
  have hpost := inferPath_post_k (sanitizeTableNameS ρ₁ (.jstr nm) k).1
    (sanitizeTableNameS ρ₁ (.jstr nm) k).2
  have hk : (sanitizeTableNameS ρ₁ (.jstr nm) k).2 = k := hpost.symm.trans h
  rw [sanitizeTableNameS_nodraw ρ₁ ρ₂ (.jstr nm) k hk]

theorem inferEntityTypeS_mono (ρ : Supply) (obj : JValue) (path : List String)
    (k : Nat) : k ≤ (inferEntityTypeS ρ obj path k).2 := by
  unfold inferEntityTypeS
  split
  · exact sanitizeTableNameS_mono ρ _ k
  · split
    · exact sanitizeTableNameS_mono ρ _ k
    · split
      · exact inferPath_mono ρ _ k
      · simp

theorem inferEntityTypeS_nodraw (ρ₁ ρ₂ : Supply) (obj : JValue) (path : List String)
    (k : Nat) (h : (inferEntityTypeS ρ₁ obj path k).2 = k) :
    inferEntityTypeS ρ₂ obj path k = inferEntityTypeS ρ₁ obj path k := by
  unfold inferEntityTypeS at h ⊢
  split at h
  · rename_i hc
    rw [if_pos hc, if_pos hc]
    exact sanitizeTableNameS_nodraw ρ₁ ρ₂ _ k h
  · rename_i hc1
    rw [if_neg hc1, if_neg hc1]
    split at h
    · rename_i hc
      rw [if_pos hc, if_pos hc]
      exact sanitizeTableNameS_nodraw ρ₁ ρ₂ _ k h
    · rename_i hc2
      rw [if_neg hc2, if_neg hc2]
      split at h
      · rename_i hc
        rw [if_pos hc, if_pos hc]
        exact inferPath_nodraw ρ₁ ρ₂ _ k h
      · rename_i hc3
        rw [if_neg hc3, if_neg hc3]
        simp at h

theorem processEntityPropsFuel_mono (ρ : Supply) :
    ∀ (f : Nat) (e : JValue) (ty : String) (st : SState),
      st.ctr ≤ (processEntityPropsFuel ρ f e ty st).ctr := by
  intro f
  induction f with
  | zero => intro e ty st; exact Nat.le_refl _
  | succ f ih =>
    intro e ty st
    simp only [processEntityPropsFuel]
    refine foldl_mono_ctr SState.ctr _ (fieldsOf e) ?_ st
    intro s kv _
    cases hkv : kv.2 with
    | jarr xs =>
      dsimp only
      split
      · split
        · rename_i firstItem _
          refine Nat.le_trans (inferEntityTypeS_mono ρ firstItem [kv.1] s.ctr) ?_
          have hstep : ∀ (s' : SState) (b : JValue), b ∈ xs →
              s'.ctr ≤ ((if isEntity b then
                processEntityPropsFuel ρ f b
                  (inferEntityTypeS ρ firstItem [kv.1] s.ctr).1
                  (addEntity s' (inferEntityTypeS ρ firstItem [kv.1] s.ctr).1 b)
                else s')).ctr := by
            intro s' b _
            split
            · exact Nat.le_trans (Nat.le_of_eq (addEntity_ctr s' _ b).symm)
                (ih b _ _)
            · exact Nat.le_refl _
          have h2 := foldl_mono_ctr SState.ctr _ xs hstep
            (recordRelationship
              { s with ctr := (inferEntityTypeS ρ firstItem [kv.1] s.ctr).2 } ty
              (inferEntityTypeS ρ firstItem [kv.1] s.ctr).1)
          have h3 : (recordRelationship
              { s with ctr := (inferEntityTypeS ρ firstItem [kv.1] s.ctr).2 } ty
              (inferEntityTypeS ρ firstItem [kv.1] s.ctr).1).ctr
              = (inferEntityTypeS ρ firstItem [kv.1] s.ctr).2 :=
            recordRelationship_ctr _ _ _
          exact Nat.le_trans (Nat.le_of_eq h3.symm) h2
        · exact Nat.le_refl _
      · exact Nat.le_refl _
    | jobj tg gs =>
      dsimp only
      split
      · refine Nat.le_trans (inferEntityTypeS_mono ρ (.jobj tg gs) [kv.1] s.ctr) ?_
        have h4 : (addEntity
            (recordRelationship
              { s with ctr := (inferEntityTypeS ρ (.jobj tg gs) [kv.1] s.ctr).2 } ty
              (inferEntityTypeS ρ (.jobj tg gs) [kv.1] s.ctr).1)
            (inferEntityTypeS ρ (.jobj tg gs) [kv.1] s.ctr).1 (.jobj tg gs)).ctr
            = (inferEntityTypeS ρ (.jobj tg gs) [kv.1] s.ctr).2 := by
          rw [addEntity_ctr, recordRelationship_ctr]
        exact Nat.le_trans (Nat.le_of_eq h4.symm) (ih (.jobj tg gs) _ _)
      · exact Nat.le_refl _
    | jnull => exact Nat.le_refl _
    | jbool b => exact Nat.le_refl _
    | jnum q => exact Nat.le_refl _
    | jstr s1 => exact Nat.le_refl _

theorem processEntityPropsFuel_nodraw (ρ₁ ρ₂ : Supply) :
    ∀ (f : Nat) (e : JValue) (ty : String) (st : SState),
      (processEntityPropsFuel ρ₁ f e ty st).ctr = st.ctr →
      processEntityPropsFuel ρ₂ f e ty st = processEntityPropsFuel ρ₁ f e ty st := by
  intro f
  induction f with
  | zero => intro e ty st _; rfl
  | succ f ih =>
    intro e ty st hk
    simp only [processEntityPropsFuel] at hk ⊢
    refine foldl_nodraw_ctr SState.ctr _ _ (fieldsOf e) ?_ ?_ st hk
    · -- monotonicity of the ρ₁ step
      intro s kv _
      cases hkv : kv.2 with
      | jarr xs =>
        dsimp only
        split
        · split
          · rename_i firstItem _
            refine Nat.le_trans (inferEntityTypeS_mono ρ₁ firstItem [kv.1] s.ctr) ?_
            have hstep : ∀ (s' : SState) (b : JValue), b ∈ xs →
                s'.ctr ≤ ((if isEntity b then
                  processEntityPropsFuel ρ₁ f b
                    (inferEntityTypeS ρ₁ firstItem [kv.1] s.ctr).1
                    (addEntity s' (inferEntityTypeS ρ₁ firstItem [kv.1] s.ctr).1 b)
                  else s')).ctr := by
              intro s' b _
              split
              · exact Nat.le_trans (Nat.le_of_eq (addEntity_ctr s' _ b).symm)
                  (processEntityPropsFuel_mono ρ₁ f b _ _)
              · exact Nat.le_refl _
            have h2 := foldl_mono_ctr SState.ctr _ xs hstep
              (recordRelationship
                { s with ctr := (inferEntityTypeS ρ₁ firstItem [kv.1] s.ctr).2 } ty
                (inferEntityTypeS ρ₁ firstItem [kv.1] s.ctr).1)
            have h3 : (recordRelationship
                { s with ctr := (inferEntityTypeS ρ₁ firstItem [kv.1] s.ctr).2 } ty
                (inferEntityTypeS ρ₁ firstItem [kv.1] s.ctr).1).ctr
                = (inferEntityTypeS ρ₁ firstItem [kv.1] s.ctr).2 :=
              recordRelationship_ctr _ _ _
            exact Nat.le_trans (Nat.le_of_eq h3.symm) h2
          · exact Nat.le_refl _
        · exact Nat.le_refl _
      | jobj tg gs =>
        dsimp only
        split
        · refine Nat.le_trans (inferEntityTypeS_mono ρ₁ (.jobj tg gs) [kv.1] s.ctr) ?_
          have h4 : (addEntity
              (recordRelationship
                { s with ctr := (inferEntityTypeS ρ₁ (.jobj tg gs) [kv.1] s.ctr).2 } ty
                (inferEntityTypeS ρ₁ (.jobj tg gs) [kv.1] s.ctr).1)
              (inferEntityTypeS ρ₁ (.jobj tg gs) [kv.1] s.ctr).1 (.jobj tg gs)).ctr
              = (inferEntityTypeS ρ₁ (.jobj tg gs) [kv.1] s.ctr).2 := by
            rw [addEntity_ctr, recordRelationship_ctr]
          exact Nat.le_trans (Nat.le_of_eq h4.symm)
            (processEntityPropsFuel_mono ρ₁ f (.jobj tg gs) _ _)
        · exact Nat.le_refl _
      | jnull => exact Nat.le_refl _
      | jbool b => exact Nat.le_refl _
      | jnum q => exact Nat.le_refl _
      | jstr s1 => exact Nat.le_refl _
    · -- no-draw transfer of one step
      intro s kv hs
      cases hkv : kv.2 with
      | jarr xs =>
        dsimp only
        intro hstep
        by_cases hne : (!xs.isEmpty) = true
        · rw [if_pos hne] at hstep
          rw [if_pos hne, if_pos hne]
          cases hfind : xs.find? isEntity with
          | none => rfl
          | some firstItem =>
            rw [hfind] at hstep
            dsimp only at hstep ⊢
            have hstA : ∀ (s' : SState) (b : JValue), b ∈ xs →
                s'.ctr ≤ ((if isEntity b then
                  processEntityPropsFuel ρ₁ f b
                    (inferEntityTypeS ρ₁ firstItem [kv.1] s.ctr).1
                    (addEntity s' (inferEntityTypeS ρ₁ firstItem [kv.1] s.ctr).1 b)
                  else s')).ctr := by
              intro s' b _
              split
              · exact Nat.le_trans (Nat.le_of_eq (addEntity_ctr s' _ b).symm)
                  (processEntityPropsFuel_mono ρ₁ f b _ _)
              · exact Nat.le_refl _
            have hst2 : (recordRelationship
                { s with ctr := (inferEntityTypeS ρ₁ firstItem [kv.1] s.ctr).2 } ty
                (inferEntityTypeS ρ₁ firstItem [kv.1] s.ctr).1).ctr
                = (inferEntityTypeS ρ₁ firstItem [kv.1] s.ctr).2 :=
              recordRelationship_ctr _ _ _
            have hmfold := foldl_mono_ctr SState.ctr _ xs hstA
              (recordRelationship
                { s with ctr := (inferEntityTypeS ρ₁ firstItem [kv.1] s.ctr).2 } ty
                (inferEntityTypeS ρ₁ firstItem [kv.1] s.ctr).1)
            have hA : (inferEntityTypeS ρ₁ firstItem [kv.1] s.ctr).2 = s.ctr :=
              Nat.le_antisymm
                (Nat.le_trans (Nat.le_of_eq hst2.symm)
                  (Nat.le_trans hmfold (Nat.le_of_eq hstep)))
                (inferEntityTypeS_mono ρ₁ firstItem [kv.1] s.ctr)
            rw [inferEntityTypeS_nodraw ρ₁ ρ₂ firstItem [kv.1] s.ctr hA]
            refine foldl_nodraw_ctr SState.ctr _ _ xs hstA ?_ _ ?_
            · intro s' b _ hb
              split at hb
              · rename_i hent
                rw [if_pos hent, if_pos hent]
                exact ih b _ _ (hb.trans (addEntity_ctr s' _ b).symm)
              · rename_i hent
                rw [if_neg hent, if_neg hent]
            · exact hstep.trans (hA.symm.trans hst2.symm)
        · rw [if_neg hne, if_neg hne]
      | jobj tg gs =>
        dsimp only
        intro hstep
        split at hstep
        · rename_i hent
          rw [if_pos hent, if_pos hent]
          have h4 : (addEntity
              (recordRelationship
                { s with ctr := (inferEntityTypeS ρ₁ (.jobj tg gs) [kv.1] s.ctr).2 } ty
                (inferEntityTypeS ρ₁ (.jobj tg gs) [kv.1] s.ctr).1)
              (inferEntityTypeS ρ₁ (.jobj tg gs) [kv.1] s.ctr).1 (.jobj tg gs)).ctr
              = (inferEntityTypeS ρ₁ (.jobj tg gs) [kv.1] s.ctr).2 := by
            rw [addEntity_ctr, recordRelationship_ctr]
          have hA : (inferEntityTypeS ρ₁ (.jobj tg gs) [kv.1] s.ctr).2 = s.ctr :=
            Nat.le_antisymm
              (Nat.le_trans (Nat.le_of_eq h4.symm)
                (Nat.le_trans (processEntityPropsFuel_mono ρ₁ f (.jobj tg gs) _ _)
                  (Nat.le_of_eq hstep)))
              (inferEntityTypeS_mono ρ₁ (.jobj tg gs) [kv.1] s.ctr)
          rw [inferEntityTypeS_nodraw ρ₁ ρ₂ (.jobj tg gs) [kv.1] s.ctr hA]
          exact ih (.jobj tg gs) _ _ (hstep.trans (hA.symm.trans h4.symm))
        · rename_i hent
          rw [if_neg hent, if_neg hent]
      | jnull => intro _; rfl
      | jbool b => intro _; rfl
      | jnum q => intro _; rfl
      | jstr s1 => intro _; rfl

theorem daiParent_ctr (st : SState) (parent : Option String) (path : List String)
    (aet : String) :
    (match parent with
      | some parentType =>
        if !path.isEmpty then
          if path.getLastD "" != "nodes" && path.getLastD "" != "edges" then
            recordRelationship st parentType aet
          else st
        else st
      | none => st).ctr = st.ctr := by
  cases parent
  · rfl
  · dsimp only
    split
    · split
      · exact recordRelationship_ctr _ _ _
      · rfl
    · rfl

theorem discoverArrayItems_mono (ρ : Supply) (f : Nat) (xs : List JValue)
    (path : List String) (parent : Option String) (st : SState) :
    st.ctr ≤ (discoverArrayItems ρ f xs path parent st).ctr := by
  unfold discoverArrayItems
  refine foldl_mono_ctr (fun p : SState × Option String => p.1.ctr) _ xs ?_ (st, none)
  intro s b _
  dsimp only
  split
  · cases haet : s.2 with
    | some t =>
      dsimp only
      refine Nat.le_trans (Nat.le_of_eq ?_) (processEntityPropsFuel_mono ρ f b _ _)
      rw [daiParent_ctr, addEntity_ctr]
    | none =>
      dsimp only
      refine Nat.le_trans (inferEntityTypeS_mono ρ b path s.1.ctr) ?_
      refine Nat.le_trans (Nat.le_of_eq ?_) (processEntityPropsFuel_mono ρ f b _ _)
      rw [daiParent_ctr, addEntity_ctr]
  · exact Nat.le_refl _

theorem discoverArrayItems_nodraw (ρ₁ ρ₂ : Supply) (f : Nat) (xs : List JValue)
    (path : List String) (parent : Option String) (st : SState)
    (h : (discoverArrayItems ρ₁ f xs path parent st).ctr = st.ctr) :
    discoverArrayItems ρ₂ f xs path parent st
      = discoverArrayItems ρ₁ f xs path parent st := by
  unfold discoverArrayItems at h ⊢
  refine congrArg Prod.fst
    (foldl_nodraw_ctr (fun p : SState × Option String => p.1.ctr) _ _ xs ?_ ?_
      (st, none) h)
  · intro s b _
    dsimp only
    split
    · cases haet : s.2 with
      | some t =>
        dsimp only
        refine Nat.le_trans (Nat.le_of_eq ?_) (processEntityPropsFuel_mono ρ₁ f b _ _)
        rw [daiParent_ctr, addEntity_ctr]
      | none =>
        dsimp only
        refine Nat.le_trans (inferEntityTypeS_mono ρ₁ b path s.1.ctr) ?_
        refine Nat.le_trans (Nat.le_of_eq ?_) (processEntityPropsFuel_mono ρ₁ f b _ _)
        rw [daiParent_ctr, addEntity_ctr]
    · exact Nat.le_refl _
  · intro s b _ hb
    dsimp only at hb ⊢
    by_cases hent : isEntity b = true
    · rw [if_pos hent] at hb
      rw [if_pos hent, if_pos hent]
      cases haet : s.2 with
      | some t =>
        rw [haet] at hb
        dsimp only at hb ⊢
        have h3 := (daiParent_ctr (addEntity s.1 t b) parent path t).trans
          (addEntity_ctr s.1 t b)
        rw [processEntityPropsFuel_nodraw ρ₁ ρ₂ f b t _ (hb.trans h3.symm)]
      | none =>
        rw [haet] at hb
        dsimp only at hb ⊢
        have hst3 := (daiParent_ctr
            (addEntity { s.1 with ctr := (inferEntityTypeS ρ₁ b path s.1.ctr).2 }
              (inferEntityTypeS ρ₁ b path s.1.ctr).1 b)
            parent path (inferEntityTypeS ρ₁ b path s.1.ctr).1).trans
          (addEntity_ctr { s.1 with ctr := (inferEntityTypeS ρ₁ b path s.1.ctr).2 }
            (inferEntityTypeS ρ₁ b path s.1.ctr).1 b)
        have hA : (inferEntityTypeS ρ₁ b path s.1.ctr).2 = s.1.ctr :=
          Nat.le_antisymm
            (Nat.le_trans (Nat.le_of_eq hst3.symm)
              (Nat.le_trans (processEntityPropsFuel_mono ρ₁ f b _ _)
                (Nat.le_of_eq hb)))
            (inferEntityTypeS_mono ρ₁ b path s.1.ctr)
        rw [inferEntityTypeS_nodraw ρ₁ ρ₂ b path s.1.ctr hA]
        rw [processEntityPropsFuel_nodraw ρ₁ ρ₂ f b
          (inferEntityTypeS ρ₁ b path s.1.ctr).1 _
          (hb.trans (hA.symm.trans hst3.symm))]
    · rw [if_neg hent, if_neg hent]

theorem dfB_mono (ρ : Supply) (f : Nat) (tg : Nat) (fs : List (String × JValue))
    (path : List String) (parent : Option String) (st st' : SState)
    (ihm : ∀ (j2 : JValue) (p2 : List String) (s s' : SState),
      discoverFuel ρ f j2 p2 parent s = .ok s' → s.ctr ≤ s'.ctr)
    (h : (if isEntity (.jobj tg fs) then
        Except.ok (processEntityPropsFuel ρ f (.jobj tg fs)
          (inferEntityTypeS ρ (.jobj tg fs) path st.ctr).1
          (addEntity { st with ctr := (inferEntityTypeS ρ (.jobj tg fs) path st.ctr).2 }
            (inferEntityTypeS ρ (.jobj tg fs) path st.ctr).1 (.jobj tg fs)))
      else fs.foldlM (fun st kv => discoverFuel ρ f kv.2 (path ++ [kv.1]) parent st) st)
      = .ok st') :
    st.ctr ≤ st'.ctr := by
  split at h
  · cases h
    refine Nat.le_trans (inferEntityTypeS_mono ρ (.jobj tg fs) path st.ctr) ?_
    refine Nat.le_trans (Nat.le_of_eq ?_) (processEntityPropsFuel_mono ρ f _ _ _)
    rw [addEntity_ctr]
  · exact foldlM_ex_mono SState.ctr _ fs
      (fun s kv s' _ hh => ihm kv.2 (path ++ [kv.1]) s s' hh) st st' h

theorem dfB_nodraw (ρ₁ ρ₂ : Supply) (f : Nat) (tg : Nat) (fs : List (String × JValue))
    (path : List String) (parent : Option String) (st st' : SState)
    (ihm : ∀ (j2 : JValue) (p2 : List String) (s s' : SState),
      discoverFuel ρ₁ f j2 p2 parent s = .ok s' → s.ctr ≤ s'.ctr)
    (ihnd : ∀ (j2 : JValue) (p2 : List String) (s s' : SState),
      discoverFuel ρ₁ f j2 p2 parent s = .ok s' → s'.ctr = s.ctr →
      discoverFuel ρ₂ f j2 p2 parent s = .ok s')
    (h : (if isEntity (.jobj tg fs) then
        Except.ok (processEntityPropsFuel ρ₁ f (.jobj tg fs)
          (inferEntityTypeS ρ₁ (.jobj tg fs) path st.ctr).1
          (addEntity { st with ctr := (inferEntityTypeS ρ₁ (.jobj tg fs) path st.ctr).2 }
            (inferEntityTypeS ρ₁ (.jobj tg fs) path st.ctr).1 (.jobj tg fs)))
      else fs.foldlM (fun st kv => discoverFuel ρ₁ f kv.2 (path ++ [kv.1]) parent st) st)
      = .ok st')
    (hk : st'.ctr = st.ctr) :
    (if isEntity (.jobj tg fs) then
        Except.ok (processEntityPropsFuel ρ₂ f (.jobj tg fs)
          (inferEntityTypeS ρ₂ (.jobj tg fs) path st.ctr).1
          (addEntity { st with ctr := (inferEntityTypeS ρ₂ (.jobj tg fs) path st.ctr).2 }
            (inferEntityTypeS ρ₂ (.jobj tg fs) path st.ctr).1 (.jobj tg fs)))
      else fs.foldlM (fun st kv => discoverFuel ρ₂ f kv.2 (path ++ [kv.1]) parent st) st)
      = .ok st' := by
  by_cases hent : isEntity (.jobj tg fs) = true
  · rw [if_pos hent] at h
    rw [if_pos hent]
    cases h
    have h4 : (addEntity { st with ctr := (inferEntityTypeS ρ₁ (.jobj tg fs) path st.ctr).2 }
        (inferEntityTypeS ρ₁ (.jobj tg fs) path st.ctr).1 (.jobj tg fs)).ctr
        = (inferEntityTypeS ρ₁ (.jobj tg fs) path st.ctr).2 := addEntity_ctr _ _ _
    have hA : (inferEntityTypeS ρ₁ (.jobj tg fs) path st.ctr).2 = st.ctr :=
      Nat.le_antisymm
        (Nat.le_trans (Nat.le_of_eq h4.symm)
          (Nat.le_trans (processEntityPropsFuel_mono ρ₁ f _ _ _) (Nat.le_of_eq hk)))
        (inferEntityTypeS_mono ρ₁ (.jobj tg fs) path st.ctr)
    rw [inferEntityTypeS_nodraw ρ₁ ρ₂ (.jobj tg fs) path st.ctr hA]
    rw [processEntityPropsFuel_nodraw ρ₁ ρ₂ f (.jobj tg fs)
      (inferEntityTypeS ρ₁ (.jobj tg fs) path st.ctr).1 _
      (hk.trans (hA.symm.trans h4.symm))]
  · rw [if_neg hent] at h
    rw [if_neg hent]
    exact foldlM_ex_nodraw SState.ctr _ _ fs
      (fun s kv s' _ hh => ihm kv.2 (path ++ [kv.1]) s s' hh)
      (fun s kv s' _ hh hkk => ihnd kv.2 (path ++ [kv.1]) s s' hh hkk) st st' h hk

theorem dfA_mono (ρ : Supply) (f : Nat) (edges : List JValue) (path : List String)
    (parent : Option String) (st st' : SState)
    (ihm : ∀ (nodes : List JValue) (s s' : SState),
      discoverFuel ρ f (.jarr nodes) path parent s = .ok s' → s.ctr ≤ s'.ctr)
    (h : ((extractNodes edges).bind fun nodes =>
        if !nodes.isEmpty then discoverFuel ρ f (.jarr nodes) path parent st
        else .ok st) = .ok st') :
    st.ctr ≤ st'.ctr := by
  cases hex : extractNodes edges with
  | error e =>
    rw [hex] at h
    exact Except.noConfusion (show (Except.error e : Except String SState) = .ok st' from h)
  | ok nodes =>
    rw [hex] at h
    have h' : (if !nodes.isEmpty then discoverFuel ρ f (.jarr nodes) path parent st
        else .ok st) = .ok st' := h
    split at h'
    · exact ihm nodes st st' h'
    · cases h'
      exact Nat.le_refl _

theorem dfA_nodraw (ρ₁ ρ₂ : Supply) (f : Nat) (edges : List JValue) (path : List String)
    (parent : Option String) (st st' : SState)
    (ihnd : ∀ (nodes : List JValue) (s s' : SState),
      discoverFuel ρ₁ f (.jarr nodes) path parent s = .ok s' → s'.ctr = s.ctr →
      discoverFuel ρ₂ f (.jarr nodes) path parent s = .ok s')
    (h : ((extractNodes edges).bind fun nodes =>
        if !nodes.isEmpty then discoverFuel ρ₁ f (.jarr nodes) path parent st
        else .ok st) = .ok st')
    (hk : st'.ctr = st.ctr) :
    ((extractNodes edges).bind fun nodes =>
        if !nodes.isEmpty then discoverFuel ρ₂ f (.jarr nodes) path parent st
        else .ok st) = .ok st' := by
  cases hex : extractNodes edges with
  | error e =>
    rw [hex] at h
    exact Except.noConfusion (show (Except.error e : Except String SState) = .ok st' from h)
  | ok nodes =>
    rw [hex] at h
    have h' : (if !nodes.isEmpty then discoverFuel ρ₁ f (.jarr nodes) path parent st
        else .ok st) = .ok st' := h
    show (if !nodes.isEmpty then discoverFuel ρ₂ f (.jarr nodes) path parent st
        else .ok st) = .ok st'
    by_cases hne : (!nodes.isEmpty) = true
    · rw [if_pos hne] at h' ⊢
      exact ihnd nodes st st' h' hk
    · rw [if_neg hne] at h' ⊢
      exact h'

theorem discoverFuel_mono (ρ : Supply) :
    ∀ (f : Nat) (j : JValue) (path : List String) (parent : Option String)
      (st st' : SState),
      discoverFuel ρ f j path parent st = .ok st' → st.ctr ≤ st'.ctr := by
  intro f
  induction f with
  | zero =>
    intro j path parent st st' h
    simp only [discoverFuel] at h
    cases h
    exact Nat.le_refl _
  | succ f ih =>
    intro j path parent st st' h
    simp only [discoverFuel] at h
    cases j with
    | jarr xs =>
      dsimp only at h
      split at h
      · cases h
        exact discoverArrayItems_mono ρ f xs path parent st
      · cases h
        exact Nat.le_refl _
    | jobj tg fs =>
      dsimp only at h
      cases hlk : fs.lookup "edges" with
      | none =>
        rw [hlk] at h
        exact dfB_mono ρ f tg fs path parent st st'
          (fun j2 p2 s s' hh => ih j2 p2 parent s s' hh) h
      | some v =>
        rw [hlk] at h
        cases v with
        | jarr edges =>
          exact dfA_mono ρ f edges path parent st st'
            (fun nodes s s' hh => ih (.jarr nodes) path parent s s' hh) h
        | jnull =>
          exact dfB_mono ρ f tg fs path parent st st'
            (fun j2 p2 s s' hh => ih j2 p2 parent s s' hh) h
        | jbool b =>
          exact dfB_mono ρ f tg fs path parent st st'
            (fun j2 p2 s s' hh => ih j2 p2 parent s s' hh) h
        | jnum q =>
          exact dfB_mono ρ f tg fs path parent st st'
            (fun j2 p2 s s' hh => ih j2 p2 parent s s' hh) h
        | jstr s2 =>
          exact dfB_mono ρ f tg fs path parent st st'
            (fun j2 p2 s s' hh => ih j2 p2 parent s s' hh) h
        | jobj tg2 gs2 =>
          exact dfB_mono ρ f tg fs path parent st st'
            (fun j2 p2 s s' hh => ih j2 p2 parent s s' hh) h
    | jnull =>
      dsimp only at h
      cases h
      exact Nat.le_refl _
    | jbool b =>
      dsimp only at h
      cases h
      exact Nat.le_refl _
    | jnum q =>
      dsimp only at h
      cases h
      exact Nat.le_refl _
    | jstr s2 =>
      dsimp only at h
      cases h
      exact Nat.le_refl _

theorem discoverFuel_nodraw (ρ₁ ρ₂ : Supply) :
    ∀ (f : Nat) (j : JValue) (path : List String) (parent : Option String)
      (st st' : SState),
      discoverFuel ρ₁ f j path parent st = .ok st' → st'.ctr = st.ctr →
      discoverFuel ρ₂ f j path parent st = .ok st' := by
  intro f
  induction f with
  | zero =>
    intro j path parent st st' h _
    simp only [discoverFuel] at h ⊢
    exact h
  | succ f ih =>
    intro j path parent st st' h hk
    simp only [discoverFuel] at h ⊢
    cases j with
    | jarr xs =>
      dsimp only at h ⊢
      split at h
      · rename_i hne
        rw [if_pos hne]
        cases h
        rw [discoverArrayItems_nodraw ρ₁ ρ₂ f xs path parent st hk]
      · rename_i hne
        rw [if_neg hne]
        exact h
    | jobj tg fs =>
      dsimp only at h ⊢
      cases hlk : fs.lookup "edges" with
      | none =>
        rw [hlk] at h
        exact dfB_nodraw ρ₁ ρ₂ f tg fs path parent st st'
          (fun j2 p2 s s' hh => discoverFuel_mono ρ₁ f j2 p2 parent s s' hh)
          (fun j2 p2 s s' hh hkk => ih j2 p2 parent s s' hh hkk) h hk
      | some v =>
        rw [hlk] at h
        cases v with
        | jarr edges =>
          exact dfA_nodraw ρ₁ ρ₂ f edges path parent st st'
            (fun nodes s s' hh hkk => ih (.jarr nodes) path parent s s' hh hkk) h hk
        | jnull =>
          exact dfB_nodraw ρ₁ ρ₂ f tg fs path parent st st'
            (fun j2 p2 s s' hh => discoverFuel_mono ρ₁ f j2 p2 parent s s' hh)
            (fun j2 p2 s s' hh hkk => ih j2 p2 parent s s' hh hkk) h hk
        | jbool b =>
          exact dfB_nodraw ρ₁ ρ₂ f tg fs path parent st st'
            (fun j2 p2 s s' hh => discoverFuel_mono ρ₁ f j2 p2 parent s s' hh)
            (fun j2 p2 s s' hh hkk => ih j2 p2 parent s s' hh hkk) h hk
        | jnum q =>
          exact dfB_nodraw ρ₁ ρ₂ f tg fs path parent st st'
            (fun j2 p2 s s' hh => discoverFuel_mono ρ₁ f j2 p2 parent s s' hh)
            (fun j2 p2 s s' hh hkk => ih j2 p2 parent s s' hh hkk) h hk
        | jstr s2 =>
          exact dfB_nodraw ρ₁ ρ₂ f tg fs path parent st st'
            (fun j2 p2 s s' hh => discoverFuel_mono ρ₁ f j2 p2 parent s s' hh)
            (fun j2 p2 s s' hh hkk => ih j2 p2 parent s s' hh hkk) h hk
        | jobj tg2 gs2 =>
          exact dfB_nodraw ρ₁ ρ₂ f tg fs path parent st st'
            (fun j2 p2 s s' hh => discoverFuel_mono ρ₁ f j2 p2 parent s s' hh)
            (fun j2 p2 s s' hh hkk => ih j2 p2 parent s s' hh hkk) h hk
    | jnull => exact h
    | jbool b => exact h
    | jnum q => exact h
    | jstr s2 => exact h

theorem extractEntityPairs_mono (ρ : Supply) (sf : Nat) (obj : JValue) (k : Nat) :
    k ≤ (extractEntityPairs ρ sf obj k).2.2 := by
  cases obj with
  | jobj tg fs =>
    simp only [extractEntityPairs]
    refine foldl_mono_ctr
      (fun p : List (String × String) × List (String × JValue) × Nat => p.2.2) _ fs ?_
      ([], [], k)
    intro s kv _
    dsimp only
    cases hv : kv.2 with
    | jarr xs =>
      dsimp only
      split
      · exact sanitizeColumnNameS_mono ρ kv.1 s.2.2
      · exact sanitizeColumnNameS_mono ρ kv.1 s.2.2
    | jobj tg2 gs =>
      dsimp only
      split
      · exact sanitizeColumnNameS_mono ρ kv.1 s.2.2
      · split
        · refine Nat.le_trans (sanitizeColumnNameS_mono ρ kv.1 s.2.2) ?_
          refine foldl_mono_ctr
            (fun p : List (String × String) × List (String × JValue) × Nat => p.2.2) _
            gs ?_ (s.1, s.2.1, (sanitizeColumnNameS ρ kv.1 s.2.2).2)
          intro s2 skv _
          cases hs2 : skv.2 with
          | jarr ys => exact Nat.le_refl _
          | jobj tg3 hs3 => exact Nat.le_refl _
          | jnull => exact Nat.le_refl _
          | jbool b => exact sanitizeColumnNameS_mono ρ skv.1 s2.2.2
          | jnum q => exact sanitizeColumnNameS_mono ρ skv.1 s2.2.2
          | jstr s3 => exact sanitizeColumnNameS_mono ρ skv.1 s2.2.2
        · exact sanitizeColumnNameS_mono ρ kv.1 s.2.2
    | jnull => exact sanitizeColumnNameS_mono ρ kv.1 s.2.2
    | jbool b => exact sanitizeColumnNameS_mono ρ kv.1 s.2.2
    | jnum q => exact sanitizeColumnNameS_mono ρ kv.1 s.2.2
    | jstr s3 => exact sanitizeColumnNameS_mono ρ kv.1 s.2.2
  | jnull => exact Nat.le_refl _
  | jbool b => exact Nat.le_refl _
  | jnum q => exact Nat.le_refl _
  | jstr s3 => exact Nat.le_refl _
  | jarr xs => exact Nat.le_refl _

theorem extractEntityPairs_nodraw (ρ₁ ρ₂ : Supply) (sf : Nat) (obj : JValue) (k : Nat)
    (h : (extractEntityPairs ρ₁ sf obj k).2.2 = k) :
    extractEntityPairs ρ₂ sf obj k = extractEntityPairs ρ₁ sf obj k := by
  cases obj with
  | jobj tg fs =>
    simp only [extractEntityPairs] at h ⊢
    refine foldl_nodraw_ctr
      (fun p : List (String × String) × List (String × JValue) × Nat => p.2.2) _ _
      fs ?_ ?_ ([], [], k) h
    · intro s kv _
      dsimp only
      cases hv : kv.2 with
      | jarr xs =>
        dsimp only
        split
        · exact sanitizeColumnNameS_mono ρ₁ kv.1 s.2.2
        · exact sanitizeColumnNameS_mono ρ₁ kv.1 s.2.2
      | jobj tg2 gs =>
        dsimp only
        split
        · exact sanitizeColumnNameS_mono ρ₁ kv.1 s.2.2
        · split
          · refine Nat.le_trans (sanitizeColumnNameS_mono ρ₁ kv.1 s.2.2) ?_
            refine foldl_mono_ctr
              (fun p : List (String × String) × List (String × JValue) × Nat => p.2.2) _
              gs ?_ (s.1, s.2.1, (sanitizeColumnNameS ρ₁ kv.1 s.2.2).2)
            intro s2 skv _
            cases hs2 : skv.2 with
            | jarr ys => exact Nat.le_refl _
            | jobj tg3 hs3 => exact Nat.le_refl _
            | jnull => exact Nat.le_refl _
            | jbool b => exact sanitizeColumnNameS_mono ρ₁ skv.1 s2.2.2
            | jnum q => exact sanitizeColumnNameS_mono ρ₁ skv.1 s2.2.2
            | jstr s3 => exact sanitizeColumnNameS_mono ρ₁ skv.1 s2.2.2
          · exact sanitizeColumnNameS_mono ρ₁ kv.1 s.2.2
      | jnull => exact sanitizeColumnNameS_mono ρ₁ kv.1 s.2.2
      | jbool b => exact sanitizeColumnNameS_mono ρ₁ kv.1 s.2.2
      | jnum q => exact sanitizeColumnNameS_mono ρ₁ kv.1 s.2.2
      | jstr s3 => exact sanitizeColumnNameS_mono ρ₁ kv.1 s.2.2
    · intro s kv _ hb
      dsimp only at hb ⊢
      cases hv : kv.2 with
      | jarr xs =>
        rw [hv] at hb
        dsimp only at hb ⊢
        split at hb
        · rename_i hcond
          rw [if_pos hcond, if_pos hcond]
          have hpc : (sanitizeColumnNameS ρ₁ kv.1 s.2.2).2 = s.2.2 := hb
          rw [sanitizeColumnNameS_nodraw ρ₁ ρ₂ kv.1 s.2.2 hpc]
        · rename_i hcond
          rw [if_neg hcond, if_neg hcond]
          have hpc : (sanitizeColumnNameS ρ₁ kv.1 s.2.2).2 = s.2.2 := hb
          rw [sanitizeColumnNameS_nodraw ρ₁ ρ₂ kv.1 s.2.2 hpc]
      | jobj tg2 gs =>
        rw [hv] at hb
        dsimp only at hb ⊢
        split at hb
        · rename_i hcond
          rw [if_pos hcond, if_pos hcond]
          have hpc : (sanitizeColumnNameS ρ₁ kv.1 s.2.2).2 = s.2.2 := hb
          rw [sanitizeColumnNameS_nodraw ρ₁ ρ₂ kv.1 s.2.2 hpc]
        · rename_i hcond
          rw [if_neg hcond, if_neg hcond]
          split at hb
          · rename_i hsc
            rw [if_pos hsc, if_pos hsc]
            have hmono2 : ∀ (s2 : List (String × String)
                × List (String × JValue) × Nat) (skv : String × JValue), skv ∈ gs →
                s2.2.2 ≤ ((match skv.2 with
                  | .jarr _ => (s2.1, s2.2.1, s2.2.2)
                  | .jobj _ _ => (s2.1, s2.2.1, s2.2.2)
                  | .jnull => (s2.1, s2.2.1, s2.2.2)
                  | sv =>
                    (s2.1 ++ [((sanitizeColumnNameS ρ₁ kv.1 s.2.2).1 ++ "_"
                        ++ (sanitizeColumnNameS ρ₁ skv.1 s2.2.2).1, getSQLiteType sv)],
                     rowSet s2.2.1 ((sanitizeColumnNameS ρ₁ kv.1 s.2.2).1 ++ "_"
                        ++ (sanitizeColumnNameS ρ₁ skv.1 s2.2.2).1) (jsToStored sv),
                     (sanitizeColumnNameS ρ₁ skv.1 s2.2.2).2))).2.2 := by
              intro s2 skv _
              cases hs2 : skv.2 with
              | jarr ys => exact Nat.le_refl _
              | jobj tg3 hs3 => exact Nat.le_refl _
              | jnull => exact Nat.le_refl _
              | jbool b => exact sanitizeColumnNameS_mono ρ₁ skv.1 s2.2.2
              | jnum q => exact sanitizeColumnNameS_mono ρ₁ skv.1 s2.2.2
              | jstr s3 => exact sanitizeColumnNameS_mono ρ₁ skv.1 s2.2.2
            have hinfold := foldl_mono_ctr
              (fun p : List (String × String) × List (String × JValue) × Nat => p.2.2) _
              gs hmono2 (s.1, s.2.1, (sanitizeColumnNameS ρ₁ kv.1 s.2.2).2)
            have hpc : (sanitizeColumnNameS ρ₁ kv.1 s.2.2).2 = s.2.2 :=
              Nat.le_antisymm (Nat.le_trans hinfold (Nat.le_of_eq hb))
                (sanitizeColumnNameS_mono ρ₁ kv.1 s.2.2)
            rw [sanitizeColumnNameS_nodraw ρ₁ ρ₂ kv.1 s.2.2 hpc]
            refine foldl_nodraw_ctr
              (fun p : List (String × String) × List (String × JValue) × Nat => p.2.2)
              _ _ gs hmono2 ?_ _ (hb.trans hpc.symm)
            intro s2 skv _ hb2
            cases hs2 : skv.2 with
            | jarr ys => rfl
            | jobj tg3 hs3 => rfl
            | jnull => rfl
            | jbool b =>
              rw [hs2] at hb2
              have hq : (sanitizeColumnNameS ρ₁ skv.1 s2.2.2).2 = s2.2.2 := hb2
              rw [sanitizeColumnNameS_nodraw ρ₁ ρ₂ skv.1 s2.2.2 hq]
            | jnum q =>
              rw [hs2] at hb2
              have hq : (sanitizeColumnNameS ρ₁ skv.1 s2.2.2).2 = s2.2.2 := hb2
              rw [sanitizeColumnNameS_nodraw ρ₁ ρ₂ skv.1 s2.2.2 hq]
            | jstr s3 =>
              rw [hs2] at hb2
              have hq : (sanitizeColumnNameS ρ₁ skv.1 s2.2.2).2 = s2.2.2 := hb2
              rw [sanitizeColumnNameS_nodraw ρ₁ ρ₂ skv.1 s2.2.2 hq]
          · rename_i hsc
            rw [if_neg hsc, if_neg hsc]
            have hpc : (sanitizeColumnNameS ρ₁ kv.1 s.2.2).2 = s.2.2 := hb
            rw [sanitizeColumnNameS_nodraw ρ₁ ρ₂ kv.1 s.2.2 hpc]
      | jnull =>
        rw [hv] at hb
        have hpc : (sanitizeColumnNameS ρ₁ kv.1 s.2.2).2 = s.2.2 := hb
        rw [sanitizeColumnNameS_nodraw ρ₁ ρ₂ kv.1 s.2.2 hpc]
      | jbool b =>
        rw [hv] at hb
        have hpc : (sanitizeColumnNameS ρ₁ kv.1 s.2.2).2 = s.2.2 := hb
        rw [sanitizeColumnNameS_nodraw ρ₁ ρ₂ kv.1 s.2.2 hpc]
      | jnum q =>
        rw [hv] at hb
        have hpc : (sanitizeColumnNameS ρ₁ kv.1 s.2.2).2 = s.2.2 := hb
        rw [sanitizeColumnNameS_nodraw ρ₁ ρ₂ kv.1 s.2.2 hpc]
      | jstr s3 =>
        rw [hv] at hb
        have hpc : (sanitizeColumnNameS ρ₁ kv.1 s.2.2).2 = s.2.2 := hb
        rw [sanitizeColumnNameS_nodraw ρ₁ ρ₂ kv.1 s.2.2 hpc]
  | jnull => rfl
  | jbool b => rfl
  | jnum q => rfl
  | jstr s3 => rfl
  | jarr xs => rfl

theorem schemaForEntities_mono (ρ : Supply) (sf : Nat) (es : List JValue) (k : Nat) :
    k ≤ (schemaForEntities ρ sf es k).2 := by
  simp only [schemaForEntities]
  refine foldl_mono_ctr
    (fun p : List (String × List String)
      × List (List (String × JValue)) × Nat => p.2.2) _ es ?_ ([], [], k)
  intro s e _
  exact extractEntityPairs_mono ρ sf e s.2.2

theorem schemaForEntities_nodraw (ρ₁ ρ₂ : Supply) (sf : Nat) (es : List JValue)
    (k : Nat) (h : (schemaForEntities ρ₁ sf es k).2 = k) :
    schemaForEntities ρ₂ sf es k = schemaForEntities ρ₁ sf es k := by
  simp only [schemaForEntities] at h ⊢
  rw [foldl_nodraw_ctr
    (fun p : List (String × List String)
      × List (List (String × JValue)) × Nat => p.2.2) _ _ es
    (fun s e _ => extractEntityPairs_mono ρ₁ sf e s.2.2) ?_ ([], [], k) h]
  intro s e _ hb
  dsimp only at hb ⊢
  rw [extractEntityPairs_nodraw ρ₁ ρ₂ sf e s.2.2 hb]

theorem createSchemasFromEntitiesS_mono (ρ : Supply) (sf : Nat)
    (discovered : List (String × List JValue)) (rels : List (String × List String))
    (k : Nat) : k ≤ (createSchemasFromEntitiesS ρ sf discovered rels k).2 := by
  simp only [createSchemasFromEntitiesS]
  refine foldl_mono_ctr
    (fun p : List (String × TableSchema) × Nat => p.2) _ discovered ?_ ([], k)
  intro s te _
  dsimp only
  split
  · exact Nat.le_refl _
  · exact schemaForEntities_mono ρ sf te.2 s.2

theorem createSchemasFromEntitiesS_nodraw (ρ₁ ρ₂ : Supply) (sf : Nat)
    (discovered : List (String × List JValue)) (rels : List (String × List String))
    (k : Nat) (h : (createSchemasFromEntitiesS ρ₁ sf discovered rels k).2 = k) :
    createSchemasFromEntitiesS ρ₂ sf discovered rels k
      = createSchemasFromEntitiesS ρ₁ sf discovered rels k := by
  simp only [createSchemasFromEntitiesS] at h ⊢
  rw [foldl_nodraw_ctr
    (fun p : List (String × TableSchema) × Nat => p.2) _ _ discovered ?_ ?_ ([], k) h]
  · intro s te _
    dsimp only
    split
    · exact Nat.le_refl _
    · exact schemaForEntities_mono ρ₁ sf te.2 s.2
  · intro s te _ hb
    dsimp only at hb ⊢
    split at hb
    · rename_i hemp
      rw [if_pos hemp, if_pos hemp]
    · rename_i hemp
      rw [if_neg hemp, if_neg hemp]
      have hse : (schemaForEntities ρ₁ sf te.2 s.2).2 = s.2 := hb
      rw [schemaForEntities_nodraw ρ₁ ρ₂ sf te.2 s.2 hse]

theorem extractSimpleFields_mono (ρ : Supply) (sf : Nat) (obj : JValue)
    (ct : List (String × List String)) (k : Nat) :
    k ≤ (extractSimpleFields ρ sf obj ct k).2.2 := by
  cases obj with
  | jobj tg fs =>
    simp only [extractSimpleFields]
    refine foldl_mono_ctr
      (fun p : List (String × List String) × List (String × JValue) × Nat => p.2.2) _
      fs ?_ (ct, [], k)
    intro s kv _
    cases hv : kv.2 with
    | jnull => exact sanitizeColumnNameS_mono ρ kv.1 s.2.2
    | jarr ys => exact sanitizeColumnNameS_mono ρ kv.1 s.2.2
    | jobj tg2 gs => exact sanitizeColumnNameS_mono ρ kv.1 s.2.2
    | jbool b => exact sanitizeColumnNameS_mono ρ kv.1 s.2.2
    | jnum q => exact sanitizeColumnNameS_mono ρ kv.1 s.2.2
    | jstr s3 => exact sanitizeColumnNameS_mono ρ kv.1 s.2.2
  | jnull => exact Nat.le_refl _
  | jarr xs => exact Nat.le_refl _
  | jbool b => exact Nat.le_refl _
  | jnum q => exact Nat.le_refl _
  | jstr s3 => exact Nat.le_refl _

theorem extractSimpleFields_nodraw (ρ₁ ρ₂ : Supply) (sf : Nat) (obj : JValue)
    (ct : List (String × List String)) (k : Nat)
    (h : (extractSimpleFields ρ₁ sf obj ct k).2.2 = k) :
    extractSimpleFields ρ₂ sf obj ct k = extractSimpleFields ρ₁ sf obj ct k := by
  cases obj with
  | jobj tg fs =>
    simp only [extractSimpleFields] at h ⊢
    refine foldl_nodraw_ctr
      (fun p : List (String × List String) × List (String × JValue) × Nat => p.2.2) _ _
      fs ?_ ?_ (ct, [], k) h
    · intro s kv _
      cases hv : kv.2 with
      | jnull => exact sanitizeColumnNameS_mono ρ₁ kv.1 s.2.2
      | jarr ys => exact sanitizeColumnNameS_mono ρ₁ kv.1 s.2.2
      | jobj tg2 gs => exact sanitizeColumnNameS_mono ρ₁ kv.1 s.2.2
      | jbool b => exact sanitizeColumnNameS_mono ρ₁ kv.1 s.2.2
      | jnum q => exact sanitizeColumnNameS_mono ρ₁ kv.1 s.2.2
      | jstr s3 => exact sanitizeColumnNameS_mono ρ₁ kv.1 s.2.2
    · intro s kv _ hb
      cases hv : kv.2 with
      | jnull =>
        rw [hv] at hb
        have hpc : (sanitizeColumnNameS ρ₁ kv.1 s.2.2).2 = s.2.2 := hb
        rw [sanitizeColumnNameS_nodraw ρ₁ ρ₂ kv.1 s.2.2 hpc]
      | jarr ys =>
        rw [hv] at hb
        have hpc : (sanitizeColumnNameS ρ₁ kv.1 s.2.2).2 = s.2.2 := hb
        rw [sanitizeColumnNameS_nodraw ρ₁ ρ₂ kv.1 s.2.2 hpc]
      | jobj tg2 gs =>
        rw [hv] at hb
        have hpc : (sanitizeColumnNameS ρ₁ kv.1 s.2.2).2 = s.2.2 := hb
        rw [sanitizeColumnNameS_nodraw ρ₁ ρ₂ kv.1 s.2.2 hpc]
      | jbool b =>
        rw [hv] at hb
        have hpc : (sanitizeColumnNameS ρ₁ kv.1 s.2.2).2 = s.2.2 := hb
        rw [sanitizeColumnNameS_nodraw ρ₁ ρ₂ kv.1 s.2.2 hpc]
      | jnum q =>
        rw [hv] at hb
        have hpc : (sanitizeColumnNameS ρ₁ kv.1 s.2.2).2 = s.2.2 := hb
        rw [sanitizeColumnNameS_nodraw ρ₁ ρ₂ kv.1 s.2.2 hpc]
      | jstr s3 =>
        rw [hv] at hb
        have hpc : (sanitizeColumnNameS ρ₁ kv.1 s.2.2).2 = s.2.2 := hb
        rw [sanitizeColumnNameS_nodraw ρ₁ ρ₂ kv.1 s.2.2 hpc]
  | jnull => rfl
  | jarr xs => rfl
  | jbool b => rfl
  | jnum q => rfl
  | jstr s3 => rfl

theorem createSchemaFromPrimitiveOrSimpleArray_mono (ρ : Supply) (sf : Nat)
    (data : JValue) (k : Nat) :
    k ≤ (createSchemaFromPrimitiveOrSimpleArray ρ sf data k).2 := by
  cases data with
  | jarr xs =>
    simp only [createSchemaFromPrimitiveOrSimpleArray]
    have hm3 : k ≤ ((xs.take 3).foldl
        (fun (acc : List (String × List String)
            × List (List (String × JValue)) × Nat) item =>
          ((extractSimpleFields ρ sf item acc.1 acc.2.2).1,
           acc.2.1 ++ [(extractSimpleFields ρ sf item acc.1 acc.2.2).2.1],
           (extractSimpleFields ρ sf item acc.1 acc.2.2).2.2)) ([], [], k)).2.2 := by
      refine foldl_mono_ctr
        (fun p : List (String × List String)
          × List (List (String × JValue)) × Nat => p.2.2) _ (xs.take 3) ?_ ([], [], k)
      intro s item _
      exact extractSimpleFields_mono ρ sf item s.1 s.2.2
    split
    · refine Nat.le_trans hm3 ?_
      exact foldl_mono_ctr
        (fun p : List (String × List String) × Nat => p.2)
        (fun (acc : List (String × List String) × Nat) item =>
          ((extractSimpleFields ρ sf item acc.1 acc.2).1,
           (extractSimpleFields ρ sf item acc.1 acc.2).2.2)) (xs.drop 3)
        (fun s item _ => extractSimpleFields_mono ρ sf item s.1 s.2)
        (((xs.take 3).foldl
          (fun (acc : List (String × List String)
              × List (List (String × JValue)) × Nat) item =>
            ((extractSimpleFields ρ sf item acc.1 acc.2.2).1,
             acc.2.1 ++ [(extractSimpleFields ρ sf item acc.1 acc.2.2).2.1],
             (extractSimpleFields ρ sf item acc.1 acc.2.2).2.2)) ([], [], k)).1,
         ((xs.take 3).foldl
          (fun (acc : List (String × List String)
              × List (List (String × JValue)) × Nat) item =>
            ((extractSimpleFields ρ sf item acc.1 acc.2.2).1,
             acc.2.1 ++ [(extractSimpleFields ρ sf item acc.1 acc.2.2).2.1],
             (extractSimpleFields ρ sf item acc.1 acc.2.2).2.2)) ([], [], k)).2.2)
    · exact hm3
  | jnull => exact extractSimpleFields_mono ρ sf .jnull [] k
  | jobj tg fs => exact extractSimpleFields_mono ρ sf (.jobj tg fs) [] k
  | jbool b => exact extractSimpleFields_mono ρ sf (.jbool b) [] k
  | jnum q => exact extractSimpleFields_mono ρ sf (.jnum q) [] k
  | jstr s3 => exact extractSimpleFields_mono ρ sf (.jstr s3) [] k

theorem createSchemaFromPrimitiveOrSimpleArray_nodraw (ρ₁ ρ₂ : Supply) (sf : Nat)
    (data : JValue) (k : Nat)
    (h : (createSchemaFromPrimitiveOrSimpleArray ρ₁ sf data k).2 = k) :
    createSchemaFromPrimitiveOrSimpleArray ρ₂ sf data k
      = createSchemaFromPrimitiveOrSimpleArray ρ₁ sf data k := by
  cases data with
  | jarr xs =>
    simp only [createSchemaFromPrimitiveOrSimpleArray] at h ⊢
    have hm3step : ∀ (s : List (String × List String)
        × List (List (String × JValue)) × Nat) (item : JValue), item ∈ xs.take 3 →
        s.2.2 ≤ ((extractSimpleFields ρ₁ sf item s.1 s.2.2).1,
          s.2.1 ++ [(extractSimpleFields ρ₁ sf item s.1 s.2.2).2.1],
          (extractSimpleFields ρ₁ sf item s.1 s.2.2).2.2).2.2 :=
      fun s item _ => extractSimpleFields_mono ρ₁ sf item s.1 s.2.2
    have hm3 := foldl_mono_ctr
      (fun p : List (String × List String)
        × List (List (String × JValue)) × Nat => p.2.2) _ (xs.take 3) hm3step
      (([], [], k) : List (String × List String)
        × List (List (String × JValue)) × Nat)
    by_cases hlen : 3 < xs.length
    · rw [if_pos hlen] at h
      rw [if_pos hlen, if_pos hlen]
      have hm4step : ∀ (s : List (String × List String) × Nat) (item : JValue),
          item ∈ xs.drop 3 →
          s.2 ≤ ((extractSimpleFields ρ₁ sf item s.1 s.2).1,
            (extractSimpleFields ρ₁ sf item s.1 s.2).2.2).2 :=
        fun s item _ => extractSimpleFields_mono ρ₁ sf item s.1 s.2
      have hm4 := foldl_mono_ctr
        (fun p : List (String × List String) × Nat => p.2)
        (fun (acc : List (String × List String) × Nat) item =>
          ((extractSimpleFields ρ₁ sf item acc.1 acc.2).1,
           (extractSimpleFields ρ₁ sf item acc.1 acc.2).2.2)) (xs.drop 3) hm4step
        (((xs.take 3).foldl
          (fun (acc : List (String × List String)
              × List (List (String × JValue)) × Nat) item =>
            ((extractSimpleFields ρ₁ sf item acc.1 acc.2.2).1,
             acc.2.1 ++ [(extractSimpleFields ρ₁ sf item acc.1 acc.2.2).2.1],
             (extractSimpleFields ρ₁ sf item acc.1 acc.2.2).2.2)) ([], [], k)).1,
         ((xs.take 3).foldl
          (fun (acc : List (String × List String)
              × List (List (String × JValue)) × Nat) item =>
            ((extractSimpleFields ρ₁ sf item acc.1 acc.2.2).1,
             acc.2.1 ++ [(extractSimpleFields ρ₁ sf item acc.1 acc.2.2).2.1],
             (extractSimpleFields ρ₁ sf item acc.1 acc.2.2).2.2)) ([], [], k)).2.2)
      have hA3 : ((xs.take 3).foldl
          (fun (acc : List (String × List String)
              × List (List (String × JValue)) × Nat) item =>
            ((extractSimpleFields ρ₁ sf item acc.1 acc.2.2).1,
             acc.2.1 ++ [(extractSimpleFields ρ₁ sf item acc.1 acc.2.2).2.1],
             (extractSimpleFields ρ₁ sf item acc.1 acc.2.2).2.2)) ([], [], k)).2.2
          = k :=
        Nat.le_antisymm (Nat.le_trans hm4 (Nat.le_of_eq h)) hm3
      have heq3 := foldl_nodraw_ctr
        (fun p : List (String × List String)
          × List (List (String × JValue)) × Nat => p.2.2)
        (fun (acc : List (String × List String)
            × List (List (String × JValue)) × Nat) item =>
          ((extractSimpleFields ρ₁ sf item acc.1 acc.2.2).1,
           acc.2.1 ++ [(extractSimpleFields ρ₁ sf item acc.1 acc.2.2).2.1],
           (extractSimpleFields ρ₁ sf item acc.1 acc.2.2).2.2))
        (fun (acc : List (String × List String)
            × List (List (String × JValue)) × Nat) item =>
          ((extractSimpleFields ρ₂ sf item acc.1 acc.2.2).1,
           acc.2.1 ++ [(extractSimpleFields ρ₂ sf item acc.1 acc.2.2).2.1],
           (extractSimpleFields ρ₂ sf item acc.1 acc.2.2).2.2)) (xs.take 3) hm3step
        (fun s item _ hb => by
          dsimp only at hb ⊢
          rw [extractSimpleFields_nodraw ρ₁ ρ₂ sf item s.1 s.2.2 hb])
        (([], [], k) : List (String × List String)
          × List (List (String × JValue)) × Nat) hA3
      rw [heq3]
      have heq4 := foldl_nodraw_ctr
        (fun p : List (String × List String) × Nat => p.2)
        (fun (acc : List (String × List String) × Nat) item =>
          ((extractSimpleFields ρ₁ sf item acc.1 acc.2).1,
           (extractSimpleFields ρ₁ sf item acc.1 acc.2).2.2))
        (fun (acc : List (String × List String) × Nat) item =>
          ((extractSimpleFields ρ₂ sf item acc.1 acc.2).1,
           (extractSimpleFields ρ₂ sf item acc.1 acc.2).2.2)) (xs.drop 3) hm4step
        (fun s item _ hb => by
          dsimp only at hb ⊢
          rw [extractSimpleFields_nodraw ρ₁ ρ₂ sf item s.1 s.2 hb])
        (((xs.take 3).foldl
          (fun (acc : List (String × List String)
              × List (List (String × JValue)) × Nat) item =>
            ((extractSimpleFields ρ₁ sf item acc.1 acc.2.2).1,
             acc.2.1 ++ [(extractSimpleFields ρ₁ sf item acc.1 acc.2.2).2.1],
             (extractSimpleFields ρ₁ sf item acc.1 acc.2.2).2.2)) ([], [], k)).1,
         ((xs.take 3).foldl
          (fun (acc : List (String × List String)
              × List (List (String × JValue)) × Nat) item =>
            ((extractSimpleFields ρ₁ sf item acc.1 acc.2.2).1,
             acc.2.1 ++ [(extractSimpleFields ρ₁ sf item acc.1 acc.2.2).2.1],
             (extractSimpleFields ρ₁ sf item acc.1 acc.2.2).2.2)) ([], [], k)).2.2) (h.trans hA3.symm)
      rw [heq4]
    · rw [if_neg hlen] at h
      rw [if_neg hlen, if_neg hlen]
      have heq3 := foldl_nodraw_ctr
        (fun p : List (String × List String)
          × List (List (String × JValue)) × Nat => p.2.2)
        (fun (acc : List (String × List String)
            × List (List (String × JValue)) × Nat) item =>
          ((extractSimpleFields ρ₁ sf item acc.1 acc.2.2).1,
           acc.2.1 ++ [(extractSimpleFields ρ₁ sf item acc.1 acc.2.2).2.1],
           (extractSimpleFields ρ₁ sf item acc.1 acc.2.2).2.2))
        (fun (acc : List (String × List String)
            × List (List (String × JValue)) × Nat) item =>
          ((extractSimpleFields ρ₂ sf item acc.1 acc.2.2).1,
           acc.2.1 ++ [(extractSimpleFields ρ₂ sf item acc.1 acc.2.2).2.1],
           (extractSimpleFields ρ₂ sf item acc.1 acc.2.2).2.2)) (xs.take 3) hm3step
        (fun s item _ hb => by
          dsimp only at hb ⊢
          rw [extractSimpleFields_nodraw ρ₁ ρ₂ sf item s.1 s.2.2 hb])
        (([], [], k) : List (String × List String)
          × List (List (String × JValue)) × Nat) h
      rw [heq3]
  | jnull => rfl
  | jobj tg fs =>
    simp only [createSchemaFromPrimitiveOrSimpleArray] at h ⊢
    rw [extractSimpleFields_nodraw ρ₁ ρ₂ sf (.jobj tg fs) [] k h]
  | jbool b => rfl
  | jnum q => rfl
  | jstr s3 =>
    simp only [createSchemaFromPrimitiveOrSimpleArray] at h ⊢
    rw [extractSimpleFields_nodraw ρ₁ ρ₂ sf (.jstr s3) [] k h]

theorem createSchemaFromObject_mono (ρ : Supply) (sf : Nat) (obj : JValue) (k : Nat) :
    k ≤ (createSchemaFromObject ρ sf obj k).2 := by
  simp only [createSchemaFromObject]
  exact extractSimpleFields_mono ρ sf obj [] k

theorem createSchemaFromObject_nodraw (ρ₁ ρ₂ : Supply) (sf : Nat) (obj : JValue)
    (k : Nat) (h : (createSchemaFromObject ρ₁ sf obj k).2 = k) :
    createSchemaFromObject ρ₂ sf obj k = createSchemaFromObject ρ₁ sf obj k := by
  simp only [createSchemaFromObject] at h ⊢
  rw [extractSimpleFields_nodraw ρ₁ ρ₂ sf obj [] k h]

def supplyS : Supply := fun n => "s" ++ toString n

/-- C9: the code violates the claim.  A root object that is itself an
entity has an empty path, so its table name is `entity_` plus a fresh
`Math.random()` draw: two runs of `inferFromJSON` on the same document
produce different table maps. -/
theorem C9_counterexample :
    ((inferFromJSON supplyR 60 (.jobj 0 [("id", .jnum 1), ("name", .jstr "x")]) 0).map
      fun p => p.1.map Prod.fst) = .ok ["entity_r0"]
    ∧ ((inferFromJSON supplyS 60 (.jobj 0 [("id", .jnum 1), ("name", .jstr "x")]) 0).map
      fun p => p.1.map Prod.fst) = .ok ["entity_s0"] :=
  ⟨rfl, rfl⟩

/-- C9 amended: a run of `inferFromJSON` that never draws a random name
(its counter comes back unchanged) is deterministic - every supply
produces the same table map. -/
theorem C9_amended_draw_free_inference_deterministic (ρ₁ ρ₂ : Supply) (fuel : Nat)
    (data : JValue) (k : Nat) (out : List (String × TableSchema) × Nat)
    (h : inferFromJSON ρ₁ fuel data k = .ok out) (hk : out.2 = k) :
    inferFromJSON ρ₂ fuel data k = .ok out := by
  unfold inferFromJSON at h ⊢
  cases hd : discoverFuel ρ₁ fuel data [] none ⟨[], [], k⟩ with
  | error e =>
    rw [hd] at h
    exact Except.noConfusion
      (show (Except.error e : Except String (List (String × TableSchema) × Nat))
        = .ok out from h)
  | ok st =>
    rw [hd] at h
    simp only [Except.map, Except.ok.injEq] at h
    have hm1 : k ≤ st.ctr := discoverFuel_mono ρ₁ fuel data [] none ⟨[], [], k⟩ st hd
    have hm2 : st.ctr ≤ out.2 := by
      rw [← h]
      split
      · exact createSchemasFromEntitiesS_mono ρ₁ fuel st.discovered st.rels st.ctr
      · cases data with
        | jobj tg fs => exact createSchemaFromObject_mono ρ₁ fuel (.jobj tg fs) st.ctr
        | jarr xs =>
          exact createSchemaFromPrimitiveOrSimpleArray_mono ρ₁ fuel (.jarr xs) st.ctr
        | jnull => exact createSchemaFromPrimitiveOrSimpleArray_mono ρ₁ fuel .jnull st.ctr
        | jbool b =>
          exact createSchemaFromPrimitiveOrSimpleArray_mono ρ₁ fuel (.jbool b) st.ctr
        | jnum q =>
          exact createSchemaFromPrimitiveOrSimpleArray_mono ρ₁ fuel (.jnum q) st.ctr
        | jstr s3 =>
          exact createSchemaFromPrimitiveOrSimpleArray_mono ρ₁ fuel (.jstr s3) st.ctr
    have hctr : st.ctr = k := Nat.le_antisymm (Nat.le_trans hm2 (Nat.le_of_eq hk)) hm1
    rw [discoverFuel_nodraw ρ₁ ρ₂ fuel data [] none ⟨[], [], k⟩ st hd hctr]
    simp only [Except.map, Except.ok.injEq]
    rw [← h]
    by_cases hne : (!st.discovered.isEmpty) = true
    · rw [if_pos hne, if_pos hne]
      rw [if_pos hne] at h
      have hcse : (createSchemasFromEntitiesS ρ₁ fuel st.discovered st.rels st.ctr).2
          = st.ctr := by
        rw [h, hk, hctr]
      rw [createSchemasFromEntitiesS_nodraw ρ₁ ρ₂ fuel st.discovered st.rels st.ctr hcse]
    · rw [if_neg hne, if_neg hne]
      rw [if_neg hne] at h
      cases hdata : data with
      | jobj tg fs =>
        rw [hdata] at h
        dsimp only at h ⊢
        have hp : (createSchemaFromObject ρ₁ fuel (.jobj tg fs) st.ctr).2 = st.ctr := by
          have h2 := congrArg Prod.snd h
          dsimp only at h2
          rw [h2, hk, hctr]
        rw [createSchemaFromObject_nodraw ρ₁ ρ₂ fuel (.jobj tg fs) st.ctr hp]
      | jarr xs =>
        rw [hdata] at h
        dsimp only at h ⊢
        have hp : (createSchemaFromPrimitiveOrSimpleArray ρ₁ fuel (.jarr xs) st.ctr).2
            = st.ctr := by
          have h2 := congrArg Prod.snd h
          dsimp only at h2
          rw [h2, hk, hctr]
        rw [createSchemaFromPrimitiveOrSimpleArray_nodraw ρ₁ ρ₂ fuel (.jarr xs) st.ctr hp]
      | jnull =>
        rw [hdata] at h
        dsimp only at h ⊢
        have hp : (createSchemaFromPrimitiveOrSimpleArray ρ₁ fuel .jnull st.ctr).2
            = st.ctr := by
          have h2 := congrArg Prod.snd h
          dsimp only at h2
          rw [h2, hk, hctr]
        rw [createSchemaFromPrimitiveOrSimpleArray_nodraw ρ₁ ρ₂ fuel .jnull st.ctr hp]
      | jbool b =>
        rw [hdata] at h
        dsimp only at h ⊢
        have hp : (createSchemaFromPrimitiveOrSimpleArray ρ₁ fuel (.jbool b) st.ctr).2
            = st.ctr := by
          have h2 := congrArg Prod.snd h
          dsimp only at h2
          rw [h2, hk, hctr]
        rw [createSchemaFromPrimitiveOrSimpleArray_nodraw ρ₁ ρ₂ fuel (.jbool b) st.ctr hp]
      | jnum q =>
        rw [hdata] at h
        dsimp only at h ⊢
        have hp : (createSchemaFromPrimitiveOrSimpleArray ρ₁ fuel (.jnum q) st.ctr).2
            = st.ctr := by
          have h2 := congrArg Prod.snd h
          dsimp only at h2
          rw [h2, hk, hctr]
        rw [createSchemaFromPrimitiveOrSimpleArray_nodraw ρ₁ ρ₂ fuel (.jnum q) st.ctr hp]
      | jstr s3 =>
        rw [hdata] at h
        dsimp only at h ⊢
        have hp : (createSchemaFromPrimitiveOrSimpleArray ρ₁ fuel (.jstr s3) st.ctr).2
            = st.ctr := by
          have h2 := congrArg Prod.snd h
          dsimp only at h2
          rw [h2, hk, hctr]
        rw [createSchemaFromPrimitiveOrSimpleArray_nodraw ρ₁ ρ₂ fuel (.jstr s3) st.ctr hp]

/-- Witness: the categories document draws no name; the run under the
second supply reproduces the first run's table map exactly. -/
theorem C9_amended_witness :
    inferFromJSON supplyS 60 docCategories 0
      = .ok (((inferFromJSON supplyR 60 docCategories 0).toOption).getD ([], 0)) :=
  C9_amended_draw_free_inference_deterministic supplyR supplyS 60 docCategories 0
    (((inferFromJSON supplyR 60 docCategories 0).toOption).getD ([], 0)) rfl rfl

end CivicMCP
